import Mathlib

/-!
# Barrier-style pricing engines: a shallow embedding

The development follows three numerical engines of the library:

* `AnalyticBinaryBarrierEngine` (closed-form table for binary barrier options),
* `AutocallPathPricer` (Monte Carlo path pricer with a Brownian-bridge correction),
* the finite-difference touch engine and its knock-out step condition.

Conventions of the embedding.

* `Real` of the C++ code is an arbitrary linearly ordered field `R`; the `<cmath>`
  functions and the cumulative normal distribution are the fields of `MathOps R`.
  Every statement proved for all `R` and all `MathOps R` holds in particular for the
  real numbers with the true functions (`realOps`); rounding is not modelled.
* A thrown `QL_REQUIRE` / `QL_FAIL` is `Failure.error msg`; a read the language leaves
  undefined (an out-of-range `operator[]`, `back()` of an empty vector) is
  `Failure.undefined`.
* `Size` and `int` indices are natural numbers (containers of `2^31` elements or more are
  outside the model).
* Mutable members (`results_`, the uniform sequence generator) are passed explicitly.
-/

namespace QuantLib

/-- Outcome of a call that yields no value: an exception raised by `QL_REQUIRE` or
`QL_FAIL` with its message, or a read with undefined behaviour. -/
inductive Failure where
  | error (msg : String)
  | undefined (what : String)
  deriving DecidableEq, Repr

/-- The library functions the engines call on `Real`: `std::log`, `std::exp`, `std::sqrt`,
`std::pow`, and the `CumulativeNormalDistribution` functor held in the member `f_`. -/
structure MathOps (R : Type) where
  log : R → R
  exp : R → R
  sqrt : R → R
  pow : R → R → R
  f_ : R → R

/-- Enumeration `Barrier::Type`. -/
inductive BarrierType where
  | DownIn
  | UpIn
  | DownOut
  | UpOut
  deriving DecidableEq, Repr

/-- Enumeration `Option::Type`. -/
inductive OptionType where
  | Put
  | Call
  deriving DecidableEq, Repr

/-- The payoff object held by `arguments_.payoff`, by dynamic type.  The first three are
`StrikedTypePayoff`s; `NonStriked` stands for any payoff on which the dynamic cast to
`StrikedTypePayoff` yields a null pointer. -/
inductive Payoff (R : Type) where
  | CashOrNothingPayoff (type : OptionType) (strike : R) (cashPayoff : R)
  | AssetOrNothingPayoff (type : OptionType) (strike : R)
  | PlainVanillaPayoff (type : OptionType) (strike : R)
  | NonStriked
  deriving DecidableEq, Repr

/-- Result of `dynamic_pointer_cast<StrikedTypePayoff>`: option type and strike. -/
def Payoff.asStriked {R : Type} : Payoff R → Option (OptionType × R)
  | .CashOrNothingPayoff type strike _ => some (type, strike)
  | .AssetOrNothingPayoff type strike => some (type, strike)
  | .PlainVanillaPayoff type strike => some (type, strike)
  | .NonStriked => none

/-- Result of `dynamic_pointer_cast<CashOrNothingPayoff>`: the cash payoff `coo->cashPayoff()`
when the cast succeeds. -/
def Payoff.asCashOrNothing {R : Type} : Payoff R → Option R
  | .CashOrNothingPayoff _ _ cashPayoff => some cashPayoff
  | _ => none

/-- What the engines read from `process_` for one pricing call, the curves already taken at
`arguments_.exercise->lastDate()`: `x0()` (also `stateVariable()->value()`), the two
discount factors, and `blackVolatility()->blackVariance(lastDate, strike)` by strike. -/
structure GeneralizedBlackScholesProcess (R : Type) where
  x0 : R
  riskFreeDiscount : R
  dividendDiscount : R
  blackVariance : R → R

/-- The fields of `BarrierOption::arguments` the analytic engine reads. -/
structure BarrierArguments (R : Type) where
  payoff : Payoff R
  barrierType : BarrierType
  barrier : R
  rebate : R
  payAtExpiry : Bool

/-- The fields of `results_` the analytic engine writes. -/
structure Results (R : Type) where
  value : R
  delta : R
  gamma : R
  vega : R
  theta : R
  rho : R
  dividendRho : R
  deriving DecidableEq, Repr

/-- The `VanillaOption opt` priced with `AnalyticEuropeanEngine(process_)` in the knocked-in
branch, seen through the seven accessors the engine calls; each may throw. -/
structure VanillaOption (R : Type) where
  NPV : Except Failure R
  delta : Except Failure R
  gamma : Except Failure R
  vega : Except Failure R
  theta : Except Failure R
  rho : Except Failure R
  dividendRho : Except Failure R

namespace AnalyticBinaryBarrierEngine

section Blocks

variable {R : Type} [LinearOrderedField R]
variable (ops : MathOps R) (process : GeneralizedBlackScholesProcess R)
variable (args : BarrierArguments R)

/-! The accessors are pure and deterministic; where one C++ expression calls the same
accessor several times, the embedding binds its result once. -/

/-- Method `strike()`. -/
def strike : Except Failure R :=
  match args.payoff.asStriked with
  | some p => .ok p.2
  | none => .error (.error "non-striked type payoff given")

/-- Method `barrier()`. -/
def barrier : Except Failure R :=
  if args.barrier > 0 then .ok args.barrier
  else .error (.error "positive barrier value required")

/-- Method `rebate()`. -/
def rebate : R := args.rebate

/-- Method `variance()`. -/
def variance : Except Failure R := do
  let k ← strike args
  pure (process.blackVariance k)

/-- Method `stdDeviation()`. -/
def stdDeviation : Except Failure R := do
  let k ← strike args
  pure (ops.sqrt (process.blackVariance k))

/-- Method `riskFreeDiscount()`. -/
def riskFreeDiscount : R := process.riskFreeDiscount

/-- Method `dividendDiscount()`. -/
def dividendDiscount : R := process.dividendDiscount

/-- Method `spot()`. -/
def spot : R := process.x0

/-- Method `mu()`. -/
def mu : Except Failure R := do
  let v ← variance process args
  pure (ops.log (dividendDiscount process / riskFreeDiscount process) / v - 1 / 2)

/-- Preprocessor definition `log_S_X`. -/
def log_S_X : Except Failure R := do
  let k ← strike args
  pure (ops.log (spot process / k))

/-- Preprocessor definition `log_S_H`. -/
def log_S_H : Except Failure R := do
  let h ← barrier args
  pure (ops.log (spot process / h))

/-- Preprocessor definition `log_H_S`. -/
def log_H_S : Except Failure R := do
  let h ← barrier args
  pure (ops.log (h / spot process))

/-- Preprocessor definition `log_H2_SX`. -/
def log_H2_SX : Except Failure R := do
  let h ← barrier args
  let k ← strike args
  pure (ops.log (h * h / (spot process * k)))

/-- Preprocessor definition `H_S_2mu`. -/
def H_S_2mu : Except Failure R := do
  let h ← barrier args
  let m ← mu ops process args
  pure (ops.pow (h / spot process) (2 * m))

/-- Preprocessor definition `H_S_2mu_1`. -/
def H_S_2mu_1 : Except Failure R := do
  let h ← barrier args
  let m ← mu ops process args
  pure (ops.pow (h / spot process) (2 * (m + 1)))

/-- Method `A1(phi)`. -/
def A1 (phi : R) : Except Failure R := do
  let l ← log_S_X ops process args
  let sd ← stdDeviation ops process args
  let m ← mu ops process args
  pure (spot process * dividendDiscount process * ops.f_ (phi * (l / sd + (m + 1) * sd)))

/-- Method `A2(phi)`. -/
def A2 (phi : R) : Except Failure R := do
  let l ← log_S_H ops process args
  let sd ← stdDeviation ops process args
  let m ← mu ops process args
  pure (spot process * dividendDiscount process * ops.f_ (phi * (l / sd + (m + 1) * sd)))

/-- Method `A3(eta)`. -/
def A3 (eta : R) : Except Failure R := do
  let p ← H_S_2mu_1 ops process args
  let l ← log_H2_SX ops process args
  let sd ← stdDeviation ops process args
  let m ← mu ops process args
  pure (spot process * dividendDiscount process * p * ops.f_ (eta * (l / sd + (m + 1) * sd)))

/-- Method `A4(eta)`. -/
def A4 (eta : R) : Except Failure R := do
  let p ← H_S_2mu_1 ops process args
  let l ← log_H_S ops process args
  let sd ← stdDeviation ops process args
  let m ← mu ops process args
  pure (spot process * dividendDiscount process * p * ops.f_ (eta * (l / sd + (m + 1) * sd)))

/-- Method `A5(eta)`: `K` is the cash payoff of a cash-or-nothing payoff and `barrier()`
otherwise. -/
def A5 (eta : R) : Except Failure R := do
  let K ← (match args.payoff.asCashOrNothing with
    | some cash => pure cash
    | none => barrier args)
  let m ← mu ops process args
  let sd ← stdDeviation ops process args
  let lambda := ops.sqrt (m * m - 2 * ops.log (riskFreeDiscount process) / (sd * sd))
  let h ← barrier args
  let l ← log_H_S ops process args
  pure (K * (ops.pow (h / spot process) (m + lambda) * ops.f_ (eta * (l / sd + lambda * sd)) +
    ops.pow (h / spot process) (m - lambda) *
      ops.f_ (eta * (l / sd + lambda * sd) - 2 * eta * lambda * sd)))

/-- Method `B1(phi)`. -/
def B1 (phi : R) : Except Failure R :=
  match args.payoff.asCashOrNothing with
  | none => .error (.error "non-cash-or-nothing payoff given")
  | some cash => do
    let l ← log_S_X ops process args
    let sd ← stdDeviation ops process args
    let m ← mu ops process args
    pure (cash * riskFreeDiscount process * ops.f_ (phi * (l / sd + m * sd)))

/-- Method `B2(phi)`. -/
def B2 (phi : R) : Except Failure R :=
  match args.payoff.asCashOrNothing with
  | none => .error (.error "non-cash-or-nothing payoff given")
  | some cash => do
    let l ← log_S_H ops process args
    let sd ← stdDeviation ops process args
    let m ← mu ops process args
    pure (cash * riskFreeDiscount process * ops.f_ (phi * (l / sd + m * sd)))

/-- Method `B3(eta)`. -/
def B3 (eta : R) : Except Failure R :=
  match args.payoff.asCashOrNothing with
  | none => .error (.error "non-cash-or-nothing payoff given")
  | some cash => do
    let p ← H_S_2mu ops process args
    let l ← log_H2_SX ops process args
    let sd ← stdDeviation ops process args
    let m ← mu ops process args
    pure (cash * riskFreeDiscount process * p * ops.f_ (eta * (l / sd + m * sd)))

/-- Method `B4(eta)`. -/
def B4 (eta : R) : Except Failure R :=
  match args.payoff.asCashOrNothing with
  | none => .error (.error "non-cash-or-nothing payoff given")
  | some cash => do
    let p ← H_S_2mu ops process args
    let l ← log_H_S ops process args
    let sd ← stdDeviation ops process args
    let m ← mu ops process args
    pure (cash * riskFreeDiscount process * p * ops.f_ (eta * (l / sd + m * sd)))

end Blocks

section Calculate

variable {R : Type} [LinearOrderedField R]
variable (ops : MathOps R) (process : GeneralizedBlackScholesProcess R)
variable (args : BarrierArguments R)

/-- The part of `calculate()` after the two degenerate pre-checks: the chain of mutually
exclusive branches that assigns the local `result`.  `type` is `payoff->optionType()`.
The locals `phi` and `eta` are declared without an initialiser; `eta0` is the indeterminate
content of `eta` at its declaration (every read of `phi` follows an assignment). -/
def caseTable (eta0 : R) (type : OptionType) : Except Failure R :=
  let barrier := args.barrier
  let barrierType := args.barrierType
  let cashOrNothing : Bool := args.payoff.asCashOrNothing.isSome
  let assetOrNothing : Bool := !cashOrNothing
  let payAtExpiry := args.payAtExpiry
  if !payAtExpiry then
    -- cases 1 to 4
    let eta := if barrierType = .DownIn then 1 else eta0
    let eta := if barrierType = .UpIn then -1 else eta
    A5 ops process args eta
  else if cashOrNothing ∧ barrierType = .DownIn ∧ type = .Call then do
    -- case 13
    let k ← strike args
    if k ≥ barrier then
      B3 ops process args 1
    else do
      let b1 ← B1 ops process args 1
      let b2 ← B2 ops process args 1
      let b4 ← B4 ops process args 1
      pure (b1 - b2 + b4)
  else if cashOrNothing ∧ barrierType = .UpIn ∧ type = .Call then do
    -- case 14
    let k ← strike args
    if k ≥ barrier then
      B1 ops process args 1
    else do
      let b2 ← B2 ops process args 1
      let b3 ← B3 ops process args (-1)
      let b4 ← B4 ops process args (-1)
      pure (b2 - b3 + b4)
  else if assetOrNothing ∧ barrierType = .DownIn ∧ type = .Call then do
    -- case 15
    let k ← strike args
    if k ≥ barrier then
      A3 ops process args 1
    else do
      let a1 ← A1 ops process args 1
      let a2 ← A2 ops process args 1
      let a4 ← A4 ops process args 1
      pure (a1 - a2 + a4)
  else if assetOrNothing ∧ barrierType = .UpIn ∧ type = .Call then do
    -- case 16
    let k ← strike args
    if k ≥ barrier then
      A1 ops process args 1
    else do
      let a2 ← A2 ops process args 1
      let a3 ← A3 ops process args (-1)
      let a4 ← A4 ops process args (-1)
      pure (a2 - a3 + a4)
  else if cashOrNothing ∧ barrierType = .DownIn ∧ type = .Put then do
    -- case 17
    let k ← strike args
    if k ≥ barrier then do
      let b2 ← B2 ops process args (-1)
      let b3 ← B3 ops process args 1
      let b4 ← B4 ops process args 1
      pure (b2 - b3 + b4)
    else
      B1 ops process args (-1)
  else if cashOrNothing ∧ barrierType = .UpIn ∧ type = .Put then do
    -- case 18
    let k ← strike args
    if k ≥ barrier then do
      let b1 ← B1 ops process args (-1)
      let b2 ← B2 ops process args (-1)
      let b4 ← B4 ops process args (-1)
      pure (b1 - b2 + b4)
    else
      B3 ops process args (-1)
  else if assetOrNothing ∧ barrierType = .DownIn ∧ type = .Put then do
    -- case 19
    let k ← strike args
    if k ≥ barrier then do
      let a2 ← A2 ops process args (-1)
      let a3 ← A3 ops process args 1
      let a4 ← A4 ops process args 1
      pure (a2 - a3 + a4)
    else
      A1 ops process args (-1)
  else if assetOrNothing ∧ barrierType = .UpIn ∧ type = .Put then do
    -- case 20
    let k ← strike args
    if k ≥ barrier then do
      let a1 ← A1 ops process args (-1)
      let a2 ← A2 ops process args (-1)
      let a4 ← A4 ops process args (-1)
      pure (a1 - a2 + a4)
    else
      A3 ops process args (-1)
  else if cashOrNothing ∧ barrierType = .DownOut ∧ type = .Call then do
    -- case 21
    let k ← strike args
    if k ≥ barrier then do
      let b1 ← B1 ops process args 1
      let b3 ← B3 ops process args 1
      pure (b1 - b3)
    else do
      let b2 ← B2 ops process args 1
      let b4 ← B4 ops process args 1
      pure (b2 - b4)
  else if cashOrNothing ∧ barrierType = .UpOut ∧ type = .Call then do
    -- case 22
    let k ← strike args
    if k ≥ barrier then
      pure 0
    else do
      let b1 ← B1 ops process args 1
      let b2 ← B2 ops process args 1
      let b3 ← B3 ops process args (-1)
      let b4 ← B4 ops process args (-1)
      pure (b1 - b2 + b3 - b4)
  else if assetOrNothing ∧ barrierType = .DownOut ∧ type = .Call then do
    -- case 23
    let k ← strike args
    if k ≥ barrier then do
      let a1 ← A1 ops process args 1
      let a3 ← A3 ops process args 1
      pure (a1 - a3)
    else do
      let a2 ← A2 ops process args 1
      let a4 ← A4 ops process args 1
      pure (a2 - a4)
  else if assetOrNothing ∧ barrierType = .UpOut ∧ type = .Call then do
    -- case 24
    let k ← strike args
    if k ≥ barrier then
      pure 0
    else do
      let a1 ← A1 ops process args 1
      let a2 ← A2 ops process args 1
      let a3 ← A3 ops process args (-1)
      let a4 ← A4 ops process args (-1)
      pure (a1 - a2 + a3 - a4)
  else if cashOrNothing ∧ barrierType = .DownOut ∧ type = .Put then do
    -- case 25
    let k ← strike args
    if k ≥ barrier then do
      let b1 ← B1 ops process args (-1)
      let b2 ← B2 ops process args (-1)
      let b3 ← B3 ops process args 1
      let b4 ← B4 ops process args 1
      pure (b1 - b2 + b3 - b4)
    else
      pure 0
  else if cashOrNothing ∧ barrierType = .UpOut ∧ type = .Put then do
    -- case 26
    let k ← strike args
    if k ≥ barrier then do
      let b2 ← B2 ops process args (-1)
      let b4 ← B4 ops process args (-1)
      pure (b2 - b4)
    else do
      let b1 ← B1 ops process args (-1)
      let b3 ← B3 ops process args (-1)
      pure (b1 - b3)
  else if assetOrNothing ∧ barrierType = .DownOut ∧ type = .Put then do
    -- case 27
    let k ← strike args
    if k ≥ barrier then do
      let a1 ← A1 ops process args (-1)
      let a2 ← A2 ops process args (-1)
      let a3 ← A3 ops process args 1
      let a4 ← A4 ops process args 1
      pure (a1 - a2 + a3 - a4)
    else
      pure 0
  else if assetOrNothing ∧ barrierType = .UpOut ∧ type = .Put then do
    -- case 28
    let k ← strike args
    if k ≥ barrier then do
      let a2 ← A2 ops process args (-1)
      let a4 ← A4 ops process args (-1)
      pure (a2 - a4)
    else do
      let a1 ← A1 ops process args (-1)
      let a3 ← A3 ops process args (-1)
      pure (a1 - a3)
  else
    .error (.error "Not supported")

/-- The knocked-in branch of `calculate()`: the seven accessors of the vanilla option are
called in order and each value is stored as soon as it is returned; an accessor that throws
ends the call with the fields written so far. -/
def copyVanilla (opt : VanillaOption R) (results : Results R) :
    Except Failure Unit × Results R :=
  match opt.NPV with
  | .error e => (.error e, results)
  | .ok v =>
  let results := { results with value := v }
  match opt.delta with
  | .error e => (.error e, results)
  | .ok v =>
  let results := { results with delta := v }
  match opt.gamma with
  | .error e => (.error e, results)
  | .ok v =>
  let results := { results with gamma := v }
  match opt.vega with
  | .error e => (.error e, results)
  | .ok v =>
  let results := { results with vega := v }
  match opt.theta with
  | .error e => (.error e, results)
  | .ok v =>
  let results := { results with theta := v }
  match opt.rho with
  | .error e => (.error e, results)
  | .ok v =>
  let results := { results with rho := v }
  match opt.dividendRho with
  | .error e => (.error e, results)
  | .ok v => (.ok (), { results with dividendRho := v })

/-- Method `calculate()`.  `vanilla` gives the `VanillaOption` that the knocked-in branch
builds from a payoff (European exercise on the last exercise date, priced with
`AnalyticEuropeanEngine(process_)`); `results` is `results_` on entry, and the second
component of the outcome is `results_` when the call returns or throws. -/
def calculate (vanilla : Payoff R → VanillaOption R) (eta0 : R) (results : Results R) :
    Except Failure Unit × Results R :=
  match args.payoff.asStriked with
  | none => (.error (.error "non-striked payoff given"), results)
  | some payoff =>
  let spot := process.x0
  if ¬ spot > 0 then (.error (.error "negative or null underlying given"), results) else
  let barrier := args.barrier
  if ¬ barrier > 0 then (.error (.error "positive barrier value required"), results) else
  let barrierType := args.barrierType
  if (barrierType = .DownOut ∧ spot ≤ barrier) ∨ (barrierType = .UpOut ∧ spot ≥ barrier) then
    -- knocked out, no value
    (.ok (), { value := 0, delta := 0, gamma := 0, vega := 0, theta := 0, rho := 0,
               dividendRho := 0 })
  else if (barrierType = .DownIn ∧ spot ≤ barrier) ∨ (barrierType = .UpIn ∧ spot ≥ barrier) then
    -- knocked in - is a digital european
    copyVanilla (vanilla args.payoff) results
  else
    match caseTable ops process args eta0 payoff.1 with
    | .error e => (.error e, results)
    | .ok result => (.ok (), { results with value := result })

end Calculate

end AnalyticBinaryBarrierEngine

/-! ## Monte Carlo path pricer of the autocall engine -/

/-- Unchecked element access `xs[i]` of a `std::vector` (or `TimeGrid`, `Path`): the element
when `i` is in range, undefined behaviour otherwise. -/
def readAt {R : Type} (what : String) (xs : List R) (i : Nat) : Except Failure R :=
  match xs[i]? with
  | some x => .ok x
  | none => .error (.undefined what)

/-- Member `back()` of a `std::vector` (or `TimeGrid`): the last element, undefined behaviour on
an empty container. -/
def readBack {R : Type} (what : String) (xs : List R) : Except Failure R :=
  match xs.getLast? with
  | some x => .ok x
  | none => .error (.undefined what)

/-- A `TimeGrid`: the node times `times_` (read by `operator[]` and `back()`) and the step
lengths `dt_` (read by `dt(i)`). -/
structure TimeGrid (R : Type) where
  times : List R
  dt : List R

/-- A `Path`: its time grid and the asset values at the grid nodes.  `length()` is the size of
the time grid; `operator[]` and `front()` read the values. -/
structure Path (R : Type) where
  timeGrid : TimeGrid R
  values : List R

/-- Method `Path::length()`. -/
def Path.length {R : Type} (path : Path R) : Nat := path.timeGrid.times.length

/-- The uniform random sequence generator `PseudoRandom::ursg_type`, as the stream of
sequences it will return and the number of sequences drawn so far. -/
structure SequenceGenerator (R : Type) where
  sequences : Nat → List R
  drawn : Nat

/-- Method `nextSequence()`: the next sequence of uniforms, and the generator advanced by
one draw. -/
def SequenceGenerator.nextSequence {R : Type} (gen : SequenceGenerator R) :
    List R × SequenceGenerator R :=
  (gen.sequences gen.drawn, { gen with drawn := gen.drawn + 1 })

/-- The data members of `AutocallPathPricer`.  `strike` is the strike of the member
`payoff_ = PlainVanillaPayoff(Option::Put, strike)`; `diffProcess_` is the method
`diffusion(t, x)` of the process. -/
structure AutocallPathPricer (R : Type) where
  rebate_ : R
  coupon_ : R
  fixings_ : List R
  kiBarrier_ : R
  koBarrier_ : R
  strike : R
  margin_ : R
  discounts_ : List R
  diffProcess_ : R → R → R

namespace AutocallPathPricer

/-- The locals of `operator()` that live across iterations of the walk. -/
structure WalkState (R : Type) where
  isOptionActive : Bool
  isKnockOut : Bool
  ko : Nat
  knockNode : Nat
  asset_price : R
  deriving DecidableEq, Repr

section Walk

variable {R : Type} [LinearOrderedField R]
variable (ops : MathOps R) (pricer : AutocallPathPricer R) (path : Path R) (u : List R)

/-- Member `payoff_`, a plain-vanilla put on `strike`: `max(strike - price, 0)`. -/
def payoff_ (price : R) : R := max (pricer.strike - price) 0

/-- The first half of the loop body at index `i`: reads `path[i+1]`, the local volatility,
`dt(i)` and `u[i]`, and forms the bridge-corrected price `y`.  Returns
`(new_asset_price, y)`. -/
def bridgePrice (i : Nat) (asset_price : R) : Except Failure (R × R) := do
  let new_asset_price ← readAt "path[i+1]" path.values (i + 1)
  let t ← readAt "timeGrid[i]" path.timeGrid.times i
  let vol := pricer.diffProcess_ t asset_price
  let dt ← readAt "timeGrid.dt(i)" path.timeGrid.dt i
  let x := ops.log (new_asset_price / asset_price)
  let ui ← readAt "u[i]" u i
  let y := 1 / 2 * (x + ops.sqrt (x * x - 2 * vol * vol * dt * ops.log (1 - ui)))
  let y := asset_price * ops.exp y
  pure (new_asset_price, y)

/-- The monitoring test of the loop body,
`timeGrid[i] > fixings_[knockNode] && timeGrid[i] <= fixings_[knockNode + 1]`;
the right operand is read only when the left one holds. -/
def monitored (i : Nat) (knockNode : Nat) : Except Failure Bool := do
  let t ← readAt "timeGrid[i]" path.timeGrid.times i
  let lower ← readAt "fixings_[knockNode]" pricer.fixings_ knockNode
  if t > lower then do
    let upper ← readAt "fixings_[knockNode + 1]" pricer.fixings_ (knockNode + 1)
    pure (decide (t ≤ upper))
  else
    pure false

/-- The end of the loop body, reached when the iteration does not break: the knock-in test
and the update of `asset_price`. -/
def finishStep (new_asset_price y : R) (s : WalkState R) : WalkState R :=
  let s := if y ≤ pricer.kiBarrier_ then { s with isOptionActive := true } else s
  { s with asset_price := new_asset_price }

/-- One iteration of the loop at index `i`.  The iteration leaves the loop by `break` exactly
when it sets `isKnockOut`. -/
def step (i : Nat) (s : WalkState R) : Except Failure (WalkState R) := do
  let (new_asset_price, y) ← bridgePrice ops pricer path u i s.asset_price
  let m ← monitored pricer path i s.knockNode
  if m then
    if y ≥ pricer.koBarrier_ then
      -- isKnockOut = true; ko = i; break;
      pure { s with isKnockOut := true, ko := i }
    else
      let s := if !s.isKnockOut then { s with knockNode := s.knockNode + 1 } else s
      pure (finishStep pricer new_asset_price y s)
  else
    pure (finishStep pricer new_asset_price y s)

/-- The loop `for (i = ...; i < n - 1; i++)` with `steps` iterations left, the next one at
index `i`: runs until the iterations are used up or one of them breaks. -/
def walk : Nat → Nat → WalkState R → Except Failure (WalkState R)
  | 0, _, s => pure s
  | steps + 1, i, s => do
    let s ← step ops pricer path u i s
    if s.isKnockOut then pure s else walk steps (i + 1) s

/-- The three payoff branches and the fallback after the loop. -/
def settle (path : Path R) (s : WalkState R) : Except Failure R :=
  if !s.isKnockOut && !s.isOptionActive then do
    let T ← readBack "timeGrid.back()" path.timeGrid.times
    let D ← readBack "discounts_.back()" pricer.discounts_
    pure ((pricer.coupon_ * T + pricer.margin_) * D)
  else if s.isKnockOut then do
    let t ← readAt "timeGrid[ko]" path.timeGrid.times s.ko
    let d ← readAt "discounts_[ko]" pricer.discounts_ s.ko
    pure ((pricer.rebate_ * t + pricer.margin_) * d)
  else if s.isOptionActive then do
    let D ← readBack "discounts_.back()" pricer.discounts_
    pure ((pricer.margin_ - payoff_ pricer s.asset_price) * D)
  else
    pure 0

/-- The locals of `operator()` on entry to the loop. -/
def initial (front : R) : WalkState R :=
  { isOptionActive := false, isKnockOut := false, ko := 0, knockNode := 0,
    asset_price := front }

/-- Method `operator()(const Path&)`.  The second component is the sequence generator
`sequenceGen_` after the call. -/
def operator (gen : SequenceGenerator R) (path : Path R) :
    Except Failure R × SequenceGenerator R :=
  let n := path.length
  if ¬ n > 1 then (.error (.error "the path cannot be empty"), gen) else
  match readAt "path.front()" path.values 0 with
  | .error e => (.error e, gen)
  | .ok front =>
    let (u, gen) := gen.nextSequence
    (do
      let s ← walk ops pricer path u (n - 1) 0 (initial front)
      settle pricer path s, gen)

end Walk

end AutocallPathPricer

/-! ## Construction and validation of the autocall instrument and engines -/

/-- Constructor `AutocallPathPricer::AutocallPathPricer`: the members are initialised from the
arguments, then the three requirements are checked in order.  (The sequence generator member
is carried separately, see `AutocallPathPricer.operator`.) -/
def AutocallPathPricer.construct {R : Type} [LinearOrderedField R]
    (rebate coupon : R) (fixings : List R) (kiBarrier koBarrier strike margin : R)
    (discounts : List R) (diffProcess : R → R → R) : Except Failure (AutocallPathPricer R) :=
  if ¬ strike ≥ 0 then .error (.error "strike less than zero not allowed") else
  if ¬ kiBarrier > 0 then .error (.error "kibarrier less/equal zero not allowed") else
  if ¬ koBarrier > 0 then .error (.error "kobarrier less/equal zero not allowed") else
  .ok { rebate_ := rebate, coupon_ := coupon, fixings_ := fixings, kiBarrier_ := kiBarrier,
        koBarrier_ := koBarrier, strike := strike, margin_ := margin, discounts_ := discounts,
        diffProcess_ := diffProcess }

/-- Class `Autocall::arguments` (the fields added to `OneAssetOption::arguments`); dates are
serial numbers. -/
structure AutocallArguments (R : Type) where
  rebate : R
  coupon : R
  kiBarrier : R
  koBarrier : R
  margin : R
  fixingDates : List Nat

namespace AutocallArguments

/-- Constructor `Autocall::arguments::arguments()`: the four listed members are set to the
sentinel `Null<Real>()` (here `null`), `fixingDates` is empty, and `margin` has no initialiser
(`margin0` is its indeterminate content). -/
def arguments {R : Type} (null margin0 : R) : AutocallArguments R :=
  { rebate := null, coupon := null, kiBarrier := null, koBarrier := null, margin := margin0,
    fixingDates := [] }

/-- Method `Autocall::arguments::validate()`.  `null` is `Null<Real>()` and `base` is the
outcome of `OneAssetOption::arguments::validate()` on the same object. -/
def validate {R : Type} [LinearOrderedField R] (null : R) (base : Except Failure Unit)
    (a : AutocallArguments R) : Except Failure Unit :=
  match base with
  | .error e => .error e
  | .ok _ =>
    if ¬ a.rebate ≠ null then .error (.error "no rebate given") else
    if ¬ a.coupon ≠ null then .error (.error "no coupon given") else
    if ¬ a.kiBarrier ≠ null then .error (.error "no kiBarrier given") else
    if ¬ a.koBarrier ≠ null then .error (.error "no koBarrier given") else
    .ok ()

end AutocallArguments

/-- Value of `Null<Size>()`: the largest `int`. -/
def nullSize : Nat := 2147483647

/-- The data members of `MCAutocallEngine` besides the process, with the antithetic flag held
by the base class `McSimulation`. -/
structure MCAutocallEngine (R : Type) where
  timeSteps_ : Nat
  timeStepsPerYear_ : Nat
  requiredSamples_ : Nat
  maxSamples_ : Nat
  requiredTolerance_ : R
  isBiased_ : Bool
  brownianBridge_ : Bool
  antitheticVariate_ : Bool
  seed_ : Nat

/-- The fields of `results_` the Monte Carlo engine writes. -/
structure McResults (R : Type) where
  value : R
  errorEstimate : R
  deriving DecidableEq, Repr

namespace MCAutocallEngine

/-- Constructor `MCAutocallEngine::MCAutocallEngine`: member initialisation followed by the
four requirements on the step counts. -/
def construct {R : Type} (timeSteps timeStepsPerYear : Nat)
    (brownianBridge antitheticVariate : Bool) (requiredSamples : Nat) (requiredTolerance : R)
    (maxSamples : Nat) (isBiased : Bool) (seed : Nat) : Except Failure (MCAutocallEngine R) :=
  if ¬ (timeSteps ≠ nullSize ∨ timeStepsPerYear ≠ nullSize) then
    .error (.error "no time steps provided") else
  if ¬ (timeSteps = nullSize ∨ timeStepsPerYear = nullSize) then
    .error (.error "both time steps and time steps per year were provided") else
  if ¬ timeSteps ≠ 0 then .error (.error "timeSteps must be positive, 0 not allowed") else
  if ¬ timeStepsPerYear ≠ 0 then
    .error (.error "timeStepsPerYear must be positive, 0 not allowed") else
  .ok { timeSteps_ := timeSteps, timeStepsPerYear_ := timeStepsPerYear,
        requiredSamples_ := requiredSamples, maxSamples_ := maxSamples,
        requiredTolerance_ := requiredTolerance, isBiased_ := isBiased,
        brownianBridge_ := brownianBridge, antitheticVariate_ := antitheticVariate,
        seed_ := seed }

/-- Method `calculate()`.  `spot` is `process_->x0()`; `mcSimulation` is the call
`McSimulation::calculate(requiredTolerance_, requiredSamples_, maxSamples_)` followed by the
reads of the accumulator's `mean()` and `errorEstimate()`; `allowsErrorEstimate` is the
constant `RNG::allowsErrorEstimate`.  The second component is `results_` after the call. -/
def calculate {R : Type} [LinearOrderedField R] (spot : R) (allowsErrorEstimate : Bool)
    (mcSimulation : Unit → Except Failure (R × R)) (results : McResults R) :
    Except Failure Unit × McResults R :=
  if ¬ spot ≥ 0 then (.error (.error "negative or null underlying given"), results) else
  match mcSimulation () with
  | .error e => (.error e, results)
  | .ok (mean, errorEstimate) =>
    let results := { results with value := mean }
    if allowsErrorEstimate then (.ok (), { results with errorEstimate := errorEstimate })
    else (.ok (), results)

end MCAutocallEngine

/-- The data members of the factory `MakeMCAutocallEngine` besides the process. -/
structure MakeMCAutocallEngine (R : Type) where
  brownianBridge_ : Bool
  antithetic_ : Bool
  biased_ : Bool
  steps_ : Nat
  stepsPerYear_ : Nat
  samples_ : Nat
  maxSamples_ : Nat
  tolerance_ : R
  seed_ : Nat

namespace MakeMCAutocallEngine

/-- Constructor `MakeMCAutocallEngine::MakeMCAutocallEngine(process)`; `null` is
`Null<Real>()`. -/
def construct {R : Type} (null : R) : MakeMCAutocallEngine R :=
  { brownianBridge_ := false, antithetic_ := false, biased_ := false, steps_ := nullSize,
    stepsPerYear_ := nullSize, samples_ := nullSize, maxSamples_ := nullSize,
    tolerance_ := null, seed_ := 0 }

/-- Method `withSteps`. -/
def withSteps {R : Type} (m : MakeMCAutocallEngine R) (steps : Nat) :
    MakeMCAutocallEngine R := { m with steps_ := steps }

/-- Method `withStepsPerYear`. -/
def withStepsPerYear {R : Type} (m : MakeMCAutocallEngine R) (steps : Nat) :
    MakeMCAutocallEngine R := { m with stepsPerYear_ := steps }

/-- Conversion `operator ext::shared_ptr<PricingEngine>()`. -/
def toPricingEngine {R : Type} (m : MakeMCAutocallEngine R) :
    Except Failure (MCAutocallEngine R) :=
  if ¬ (m.steps_ ≠ nullSize ∨ m.stepsPerYear_ ≠ nullSize) then
    .error (.error "number of steps not given") else
  if ¬ (m.steps_ = nullSize ∨ m.stepsPerYear_ = nullSize) then
    .error (.error "number of steps overspecified") else
  MCAutocallEngine.construct m.steps_ m.stepsPerYear_ m.brownianBridge_ m.antithetic_
    m.samples_ m.tolerance_ m.maxSamples_ m.biased_ m.seed_

end MakeMCAutocallEngine

/-! ## Touch option arguments -/

/-- Enumeration `Touch::Type`; `Unset` is the value `Touch::Type(-1)` that the default
constructor of the arguments stores. -/
inductive TouchType where
  | OneTouchUp
  | OneTouchDown
  | NoTouchUp
  | NoTouchDown
  | DoubleOneTouch
  | DoubleNoTouch
  | Unset
  deriving DecidableEq, Repr

/-- Class `TouchOption::arguments` (the fields added to `OneAssetOption::arguments`). -/
structure TouchArguments (R : Type) where
  touchType : TouchType
  barrierHigh : List R
  barrierLow : List R
  rebateHigh : List R
  rebateLow : List R
  payoffAtExpiry : Bool

namespace TouchArguments

/-- Method `TouchOption::arguments::validate()`: every statement of the body is commented
out, so the call returns without any check. -/
def validate {R : Type} (_a : TouchArguments R) : Except Failure Unit := .ok ()

end TouchArguments

/-! ## Reference formulas and concrete inputs -/

/-- The un-barriered European binary value in the engine's own building blocks: `B1(phi)` for
a cash-or-nothing payoff and `A1(phi)` for any other striked payoff, with `phi = 1` for a call
and `phi = -1` for a put. -/
def europeanBinary {R : Type} [LinearOrderedField R] (ops : MathOps R)
    (process : GeneralizedBlackScholesProcess R) (args : BarrierArguments R) :
    Except Failure R :=
  match args.payoff.asStriked with
  | none => .error (.error "non-striked payoff given")
  | some p =>
    let phi : R := if p.1 = .Call then 1 else -1
    match args.payoff.asCashOrNothing with
    | some _ => AnalyticBinaryBarrierEngine.B1 ops process args phi
    | none => AnalyticBinaryBarrierEngine.A1 ops process args phi

/-- The amount `K` paid at the hit: the cash amount of a cash-or-nothing payoff, the barrier
`H` for every other payoff. -/
def payAtHitAmount {R : Type} (payoff : Payoff R) (H : R) : R :=
  match payoff.asCashOrNothing with
  | some cash => cash
  | none => H

/-- The pay-at-hit knock-in value written out as a formula of the contract and market
numbers: `K * ((H/S)^(mu+lambda) * N(eta*z) + (H/S)^(mu-lambda) * N(eta*z - 2*eta*lambda*sd))`
with `z = ln(H/S)/sd + lambda*sd`, `sd = sqrt(var)`, `mu = ln(dq/dr)/var - 1/2` and
`lambda = sqrt(mu*mu - 2*ln(dr)/(sd*sd))`. -/
def payAtHitFormula {R : Type} [LinearOrderedField R] (ops : MathOps R)
    (K H S dq dr var eta : R) : R :=
  let sd := ops.sqrt var
  let mu := ops.log (dq / dr) / var - 1 / 2
  let lambda := ops.sqrt (mu * mu - 2 * ops.log dr / (sd * sd))
  let z := ops.log (H / S) / sd + lambda * sd
  K * (ops.pow (H / S) (mu + lambda) * ops.f_ (eta * z) +
    ops.pow (H / S) (mu - lambda) * ops.f_ (eta * z - 2 * eta * lambda * sd))

/-- A computable interpretation of `MathOps` over the rationals (first-order stand-ins for the
transcendental functions), used to run the embedding on concrete inputs. -/
def ratOps : MathOps ℚ where
  log x := x - 1
  exp x := 1 + x
  sqrt x := (x + 1) / 2
  pow x y := 1 + y * (x - 1)
  f_ x := 1 / 2 + x / 4

namespace Examples

/-- Market data with spot 105 above a barrier at 100. -/
def process105 : GeneralizedBlackScholesProcess ℚ :=
  { x0 := 105, riskFreeDiscount := 95 / 100, dividendDiscount := 1,
    blackVariance := fun _ => 2 / 100 }

/-- Market data with spot 95 below a barrier at 100. -/
def process95 : GeneralizedBlackScholesProcess ℚ :=
  { process105 with x0 := 95 }

/-- Cash-or-nothing call, strike 102, cash 15. -/
def cashCall102 : Payoff ℚ := .CashOrNothingPayoff .Call 102 15

/-- Cash-or-nothing call, strike 98, cash 15. -/
def cashCall98 : Payoff ℚ := .CashOrNothingPayoff .Call 98 15

/-- A vanilla option whose accessors return the numbers 1 to 7. -/
def vanillaCount : Payoff ℚ → VanillaOption ℚ := fun _ =>
  { NPV := .ok 1, delta := .ok 2, gamma := .ok 3, vega := .ok 4, theta := .ok 5, rho := .ok 6,
    dividendRho := .ok 7 }

/-- A vanilla option whose value is 7.4926, the test-suite reference value of the European
cash-or-nothing call (cash 15, strike 98) at spot 95. -/
def vanillaRef : Payoff ℚ → VanillaOption ℚ := fun _ =>
  { NPV := .ok (74926 / 10000), delta := .ok 0, gamma := .ok 0, vega := .ok 0, theta := .ok 0,
    rho := .ok 0, dividendRho := .ok 0 }

/-- The content of `results_` after `reset()`, with a placeholder number in every field. -/
def results0 : Results ℚ :=
  { value := -1, delta := -1, gamma := -1, vega := -1, theta := -1, rho := -1,
    dividendRho := -1 }

/-- An autocall pricer with quarterly discounts and fixings at 0, 1/2 and 1. -/
def pricer1 : AutocallPathPricer ℚ :=
  { rebate_ := 1 / 10, coupon_ := 2 / 10, fixings_ := [0, 1 / 2, 1], kiBarrier_ := 80,
    koBarrier_ := 103, strike := 100, margin_ := 1,
    discounts_ := [1, 98 / 100, 96 / 100, 94 / 100, 92 / 100],
    diffProcess_ := fun _ _ => 1 / 5 }

/-- A five-node path on a quarterly grid. -/
def path1 : Path ℚ :=
  { timeGrid := { times := [0, 1 / 4, 1 / 2, 3 / 4, 1], dt := [1 / 4, 1 / 4, 1 / 4, 1 / 4] },
    values := [100, 101, 104, 90, 70] }

/-- A generator whose every sequence is four draws of 1/2. -/
def gen1 : SequenceGenerator ℚ :=
  { sequences := fun _ => [1 / 2, 1 / 2, 1 / 2, 1 / 2], drawn := 0 }

end Examples

namespace Examples

/-- A three-node path on a half-yearly grid. -/
def path3 : Path ℚ :=
  { timeGrid := { times := [0, 1 / 2, 1], dt := [1 / 2, 1 / 2] }, values := [100, 101, 90] }

/-- A generator whose every sequence is two draws of 1/2. -/
def gen3 : SequenceGenerator ℚ :=
  { sequences := fun _ => [1 / 2, 1 / 2], drawn := 0 }

/-- An autocall pricer whose barriers are out of reach of `path3`: knock-out at 1000,
knock-in at 1. -/
def pricerQuiet : AutocallPathPricer ℚ :=
  { rebate_ := 1 / 10, coupon_ := 2 / 10, fixings_ := [0, 1 / 2, 1], kiBarrier_ := 1,
    koBarrier_ := 1000, strike := 100, margin_ := 1, discounts_ := [1, 96 / 100, 92 / 100],
    diffProcess_ := fun _ _ => 1 / 5 }

/-- The same pricer with the knock-in barrier at 1000, above every price of `path3`. -/
def pricerActive : AutocallPathPricer ℚ :=
  { pricerQuiet with kiBarrier_ := 1000 }

/-- The pricer `pricer1` with the knock-in barrier at 1000. -/
def pricer1Active : AutocallPathPricer ℚ :=
  { pricer1 with kiBarrier_ := 1000 }

/-- The path `path1` with other prices after the third node. -/
def path1Tail : Path ℚ :=
  { path1 with values := [100, 101, 104, 300, 5] }

end Examples

/-! ## The real-number interpretation and the reference market -/

/-- Modelled from the spec: the class `CumulativeNormalDistribution` behind the member `f_` is
not under src/; the spec calls its value `N`, the standard normal distribution function
`N(x) = ∫_{-∞}^{x} (2π)^(-1/2) exp(-t²/2) dt`. -/
noncomputable def cumulativeNormal (x : ℝ) : ℝ :=
  ∫ t in Set.Iic x, (Real.sqrt (2 * Real.pi))⁻¹ * Real.exp (-(t ^ 2) / 2)

/-- The interpretation of `MathOps` over the real numbers: the mathematical functions that
`std::log`, `std::exp`, `std::sqrt`, `std::pow` and `f_` approximate (rounding is not
modelled). -/
noncomputable def realOps : MathOps ℝ where
  log := Real.log
  exp := Real.exp
  sqrt := Real.sqrt
  pow x y := x ^ y
  f_ := cumulativeNormal

/-- Modelled from the spec: the market of the reference-value regression, built in the test
suite with the helpers `flatRate` and `flatVol` (not under src/): spot `s`, continuously
compounded flat rates `q` and `r`, flat volatility `v`, time to maturity `t`, so that the
discount factors are `exp(-r t)` and `exp(-q t)` and the variance is `v² t` at every strike. -/
def flatMarket {R : Type} [LinearOrderedField R] (ops : MathOps R) (s q r t v : R) :
    GeneralizedBlackScholesProcess R :=
  { x0 := s, riskFreeDiscount := ops.exp (-(r * t)), dividendDiscount := ops.exp (-(q * t)),
    blackVariance := fun _ => v * v * t }

/-- Taylor polynomial of `exp(-t²/2)` with `n` terms. -/
noncomputable def gaussTaylor (n : ℕ) (t : ℝ) : ℝ :=
  ∑ m ∈ Finset.range n, (-(t ^ 2) / 2) ^ m / (m.factorial : ℝ)

/-- The antiderivative of `gaussTaylor n` that vanishes at 0. -/
noncomputable def gaussTaylorPrim (n : ℕ) (a : ℝ) : ℝ :=
  ∑ m ∈ Finset.range n, (-1 / 2) ^ m / (m.factorial : ℝ) * (a ^ (2 * m + 1) / (2 * m + 1))

/-- The antiderivative, vanishing at 0, of the remainder bound
`(t²/2)^n (n+1)/(n! n)` of the Taylor polynomial. -/
noncomputable def gaussErrPrim (n : ℕ) (a : ℝ) : ℝ :=
  ((n + 1 : ℝ) / ((n.factorial : ℝ) * n)) * (a ^ (2 * n + 1) / (2 ^ n * (2 * n + 1)))

/-! ## Finite-difference touch engine -/

/-- Enumeration `Side` of the Dirichlet boundary classes. -/
inductive BoundarySide where
  | Upper
  | Lower
  deriving DecidableEq, Repr

/-- An element of `FdmBoundaryConditionSet` as `calculate()` builds it, by constructor
arguments (the mesher argument is the one mesher of the call): `FdmDirichletBoundary(mesher,
valueOnBoundary, direction, side)` and `FdmDiscountDirichletBoundary(mesher, rTS, maturityTime,
valueOnBoundary, direction, side)`.  `C` is the type of yield curves. -/
inductive FdmBoundaryCondition (R C : Type) where
  | FdmDirichletBoundary (valueOnBoundary : R) (direction : Nat) (side : BoundarySide)
  | FdmDiscountDirichletBoundary (rTS : C) (maturityTime : R) (valueOnBoundary : R)
      (direction : Nat) (side : BoundarySide)
  deriving DecidableEq, Repr

/-- The four accessors of `FdmBlackScholesSolver` that `calculate()` calls; each one may
throw. -/
structure FdmBlackScholesSolver (R : Type) where
  valueAt : R → Except Failure R
  deltaAt : R → Except Failure R
  gammaAt : R → Except Failure R
  thetaAt : R → Except Failure R

namespace FdBlackScholesTouchEngine

section Engine

variable {R C M : Type} [LinearOrderedField R]

/-- Function `std::max(a, b)`: `(a < b) ? b : a`. -/
def stdMax (a b : R) : R := if a < b then b else a

/-- The expression `*std::max_element(v.begin(), v.end())`: the first greatest element;
dereferencing the end iterator of an empty vector is undefined behaviour. -/
def maxElement (what : String) : List R → Except Failure R
  | [] => .error (.undefined what)
  | x :: rest => .ok (rest.foldl (fun largest b => if largest < b then b else largest) x)

/-- Part 1 of `calculate()` up to the construction of the mesher: the locals `xMin` and
`xMax`, both initialised to `Null<Real>()` (`null`), after the three `if` statements. -/
def meshBounds (ops : MathOps R) (null spot : R) (a : TouchArguments R) :
    Except Failure (R × R) := do
  let xMin := null
  let xMax := null
  let (xMin, xMax) ←
    if a.touchType = .OneTouchUp then do
      let xMax ←
        if a.barrierHigh.length = 1 then do
          let b ← readAt "barrierHigh[0]" a.barrierHigh 0
          pure (ops.log b)
        else do
          let max_barrier ← maxElement "*max_barrier" a.barrierHigh
          pure (ops.log (4 * stdMax max_barrier spot))
      pure ((0 : R), xMax)
    else pure (xMin, xMax)
  let (xMin, xMax) ←
    if a.touchType = .DoubleOneTouch then do
      let h ← readAt "barrierHigh[0]" a.barrierHigh 0
      let l ← readAt "barrierLow[0]" a.barrierLow 0
      pure (ops.log l, ops.log h)
    else pure (xMin, xMax)
  let xMin ←
    if a.touchType = .OneTouchDown ∨ a.touchType = .DoubleOneTouch then do
      let l ← readAt "barrierLow[0]" a.barrierLow 0
      pure (ops.log l)
    else pure xMin
  pure (xMin, xMax)

/-- Part 4 of `calculate()`: the boundary-condition set, in the order of the `push_back`
calls.  `rTS` is `process_->riskFreeRate().currentLink()`. -/
def boundaries (rTS : C) (maturity : R) (a : TouchArguments R) :
    Except Failure (List (FdmBoundaryCondition R C)) := do
  let boundaries : List (FdmBoundaryCondition R C) := []
  let boundaries ←
    if a.touchType = .OneTouchUp ∨ a.touchType = .DoubleOneTouch then
      if !a.payoffAtExpiry then do
        let rebate ← readAt "rebateHigh[0]" a.rebateHigh 0
        pure (boundaries ++ [.FdmDirichletBoundary rebate 0 .Upper])
      else do
        let rebate ← readAt "rebateHigh[0]" a.rebateHigh 0
        pure (boundaries ++ [.FdmDiscountDirichletBoundary rTS maturity rebate 0 .Upper])
    else pure boundaries
  let boundaries ←
    if a.touchType = .OneTouchDown ∨ a.touchType = .DoubleOneTouch then do
      let rebate ← readAt "rebateLow[0]" a.rebateLow 0
      pure (boundaries ++ [.FdmDirichletBoundary rebate 0 .Lower])
    else pure boundaries
  pure boundaries

/-- The four assignments at the end of `calculate()`: each accessor is called and its value
stored at once; an accessor that throws ends the call with the fields written so far. -/
def readSolver (solver : FdmBlackScholesSolver R) (spot : R) (results : Results R) :
    Except Failure Unit × Results R :=
  match solver.valueAt 100 with
  | .error e => (.error e, results)
  | .ok v =>
  let results := { results with value := v }
  match solver.deltaAt spot with
  | .error e => (.error e, results)
  | .ok v =>
  let results := { results with delta := v }
  match solver.gammaAt spot with
  | .error e => (.error e, results)
  | .ok v =>
  let results := { results with gamma := v }
  match solver.thetaAt spot with
  | .error e => (.error e, results)
  | .ok v => (.ok (), { results with theta := v })

/-- Method `FdBlackScholesTouchEngine::calculate()`.  The classes of the finite-difference
framework are not under src/ and are parameters: `mesher xMin xMax` is the construction of the
`FdmBlackScholesMesher` (with the fixed other arguments of the call) and may throw;
`solver m bs` is the `FdmBlackScholesSolver` built on mesher `m` with boundary set `bs` (and
the empty step-condition set, the log inner-value calculator, `maturity`, `tGrid_`,
`dampingSteps_`).  `results` is `results_` on entry; the second component of the outcome is
`results_` when the call returns or throws. -/
def calculate (ops : MathOps R) (null : R) (process : GeneralizedBlackScholesProcess R)
    (maturity : R) (rTS : C) (mesher : R → R → Except Failure M)
    (solver : M → List (FdmBoundaryCondition R C) → FdmBlackScholesSolver R)
    (a : TouchArguments R) (results : Results R) : Except Failure Unit × Results R :=
  let spot := process.x0
  match meshBounds ops null spot a with
  | .error e => (.error e, results)
  | .ok (xMin, xMax) =>
  match mesher xMin xMax with
  | .error e => (.error e, results)
  | .ok equityMesher =>
  match boundaries rTS maturity a with
  | .error e => (.error e, results)
  | .ok bs => readSolver (solver equityMesher bs) spot results

end Engine

end FdBlackScholesTouchEngine

/-- Constructor `TouchOption::arguments::arguments()`: `touchType` is `Touch::Type(-1)`, the
vectors are empty; `payoffAtExpiry` has no initialiser and holds the indeterminate
`payoffAtExpiry0`. -/
def TouchArguments.arguments {R : Type} (payoffAtExpiry0 : Bool) : TouchArguments R :=
  { touchType := .Unset, barrierHigh := [], barrierLow := [], rebateHigh := [],
    rebateLow := [], payoffAtExpiry := payoffAtExpiry0 }

/-! ## Knock-out step condition -/

/-- The data members of `FdmKnockoutCondition` as `applyTo` uses them: the observation time
`obs_`, the size of the layout of `mesher_` (the layout iterator visits the indices
`0, 1, ..., size - 1` in order), and `calculator_->innerValue(iter, t)` as a function of the
index of the iterator and the time. -/
structure FdmKnockoutCondition (R : Type) where
  obs_ : R
  layoutSize : Nat
  innerValue : Nat → R → R

/-- Unchecked element assignment `a[i] = v` of an `Array`: undefined behaviour out of
range. -/
def writeAt {R : Type} (what : String) (a : List R) (i : Nat) (v : R) :
    Except Failure (List R) :=
  if i < a.length then .ok (a.set i v) else .error (.undefined what)

namespace FdmKnockoutCondition

section Apply

variable {R : Type} [LinearOrderedField R]

/-- The loop of `applyTo` over the layout with `steps` iterations left, the iterator at index
`j`. -/
def loop (c : FdmKnockoutCondition R) (t : R) : Nat → Nat → List R → Except Failure (List R)
  | 0, _, a => pure a
  | steps + 1, j, a => do
    let innerValue := c.innerValue j t
    let a ← if innerValue > 0 then writeAt "a[iter.index()]" a j innerValue else pure a
    loop c t steps (j + 1) a

/-- Method `FdmKnockoutCondition::applyTo(Array& a, Time t)`; the second component is the
array `a` after the call. -/
def applyTo (c : FdmKnockoutCondition R) (a : List R) (t : R) :
    Except Failure Unit × List R :=
  if t = c.obs_ then
    if ¬ c.layoutSize = a.length then (.error (.error "inconsistent array dimensions"), a)
    else
      match loop c t c.layoutSize 0 a with
      | .ok a1 => (.ok (), a1)
      | .error e => (.error e, a)
  else (.ok (), a)

end Apply

end FdmKnockoutCondition

namespace Examples

/-- The value of `Null<Real>()`, the largest `float`. -/
def nullReal : ℚ := 340282346638528859811704183484516925440

/-- The first row of the touch-option example program: one-touch-up, barrier 103, rebate 2,
paid at the hit. -/
def touchUp : TouchArguments ℚ :=
  { touchType := .OneTouchUp, barrierHigh := [103], barrierLow := [], rebateHigh := [2],
    rebateLow := [], payoffAtExpiry := false }

/-- The same contract terms with the touch type `NoTouchUp`. -/
def noTouchUp : TouchArguments ℚ := { touchUp with touchType := .NoTouchUp }

/-- A one-touch-up with three upper barriers. -/
def touchUpLadder : TouchArguments ℚ := { touchUp with barrierHigh := [103, 110, 106] }

/-- A one-touch-down: barrier 95, rebate 3. -/
def touchDown : TouchArguments ℚ :=
  { touchType := .OneTouchDown, barrierHigh := [], barrierLow := [95], rebateHigh := [],
    rebateLow := [3], payoffAtExpiry := true }

/-- A double-one-touch: barriers 95 and 103, rebates 3 and 2, paid at expiry. -/
def touchDouble : TouchArguments ℚ :=
  { touchType := .DoubleOneTouch, barrierHigh := [103], barrierLow := [95], rebateHigh := [2],
    rebateLow := [3], payoffAtExpiry := true }

/-- A mesher construction that always succeeds and keeps the bounds it was given. -/
def boundsMesher : ℚ → ℚ → Except Failure (ℚ × ℚ) := fun xMin xMax => .ok (xMin, xMax)

/-- A solved grid whose value at `s` is `s` itself, with delta 1, gamma 0 and theta 0; it
ignores the boundary set. -/
def forwardSolver : ℚ × ℚ → List (FdmBoundaryCondition ℚ Unit) → FdmBlackScholesSolver ℚ :=
  fun _ _ =>
    { valueAt := fun s => .ok s, deltaAt := fun _ => .ok 1, gammaAt := fun _ => .ok 0,
      thetaAt := fun _ => .ok 0 }

/-- A knock-out condition at observation time 1 on a layout of four nodes, with inner value
`j - 1` at node `j`. -/
def knockout4 : FdmKnockoutCondition ℚ :=
  { obs_ := 1, layoutSize := 4, innerValue := fun j _ => (j : ℚ) - 1 }

end Examples

namespace Examples

/-- An autocall pricer with a single monitoring interval `(0, 1]`, knock-out at 150, knock-in
at 50 and a zero diffusion. -/
def pricerOnce : AutocallPathPricer ℚ :=
  { rebate_ := 1 / 10, coupon_ := 2 / 10, fixings_ := [0, 1], kiBarrier_ := 50,
    koBarrier_ := 150, strike := 100, margin_ := 1,
    discounts_ := [1, 98 / 100, 96 / 100, 94 / 100, 92 / 100],
    diffProcess_ := fun _ _ => 0 }

/-- The quarterly grid of `path1` with a path that stays at 100 and jumps to 200 at the
fourth node. -/
def pathJump : Path ℚ :=
  { path1 with values := [100, 100, 100, 200, 200] }

end Examples

namespace AnalyticBinaryBarrierEngine

section Branches

variable {R : Type} [LinearOrderedField R]
variable (ops : MathOps R) (process : GeneralizedBlackScholesProcess R)
variable (args : BarrierArguments R)

/-- The case table with the outcome of the comparison `strike >= barrier` supplied as the
flag `upper`: `caseBranch true` is the formula that `caseTable` uses when
`strike >= barrier`, `caseBranch false` the one it uses when `strike < barrier`
(see `caseTable_eq_caseBranch`). -/
def caseBranch (upper : Bool) (eta0 : R) (type : OptionType) : Except Failure R :=
  let barrierType := args.barrierType
  let cashOrNothing : Bool := args.payoff.asCashOrNothing.isSome
  let assetOrNothing : Bool := !cashOrNothing
  let payAtExpiry := args.payAtExpiry
  if !payAtExpiry then
    -- cases 1 to 4
    let eta := if barrierType = .DownIn then 1 else eta0
    let eta := if barrierType = .UpIn then -1 else eta
    A5 ops process args eta
  else if cashOrNothing ∧ barrierType = .DownIn ∧ type = .Call then do
    -- case 13
    let _ ← strike args
    if upper then
      B3 ops process args 1
    else do
      let b1 ← B1 ops process args 1
      let b2 ← B2 ops process args 1
      let b4 ← B4 ops process args 1
      pure (b1 - b2 + b4)
  else if cashOrNothing ∧ barrierType = .UpIn ∧ type = .Call then do
    -- case 14
    let _ ← strike args
    if upper then
      B1 ops process args 1
    else do
      let b2 ← B2 ops process args 1
      let b3 ← B3 ops process args (-1)
      let b4 ← B4 ops process args (-1)
      pure (b2 - b3 + b4)
  else if assetOrNothing ∧ barrierType = .DownIn ∧ type = .Call then do
    -- case 15
    let _ ← strike args
    if upper then
      A3 ops process args 1
    else do
      let a1 ← A1 ops process args 1
      let a2 ← A2 ops process args 1
      let a4 ← A4 ops process args 1
      pure (a1 - a2 + a4)
  else if assetOrNothing ∧ barrierType = .UpIn ∧ type = .Call then do
    -- case 16
    let _ ← strike args
    if upper then
      A1 ops process args 1
    else do
      let a2 ← A2 ops process args 1
      let a3 ← A3 ops process args (-1)
      let a4 ← A4 ops process args (-1)
      pure (a2 - a3 + a4)
  else if cashOrNothing ∧ barrierType = .DownIn ∧ type = .Put then do
    -- case 17
    let _ ← strike args
    if upper then do
      let b2 ← B2 ops process args (-1)
      let b3 ← B3 ops process args 1
      let b4 ← B4 ops process args 1
      pure (b2 - b3 + b4)
    else
      B1 ops process args (-1)
  else if cashOrNothing ∧ barrierType = .UpIn ∧ type = .Put then do
    -- case 18
    let _ ← strike args
    if upper then do
      let b1 ← B1 ops process args (-1)
      let b2 ← B2 ops process args (-1)
      let b4 ← B4 ops process args (-1)
      pure (b1 - b2 + b4)
    else
      B3 ops process args (-1)
  else if assetOrNothing ∧ barrierType = .DownIn ∧ type = .Put then do
    -- case 19
    let _ ← strike args
    if upper then do
      let a2 ← A2 ops process args (-1)
      let a3 ← A3 ops process args 1
      let a4 ← A4 ops process args 1
      pure (a2 - a3 + a4)
    else
      A1 ops process args (-1)
  else if assetOrNothing ∧ barrierType = .UpIn ∧ type = .Put then do
    -- case 20
    let _ ← strike args
    if upper then do
      let a1 ← A1 ops process args (-1)
      let a2 ← A2 ops process args (-1)
      let a4 ← A4 ops process args (-1)
      pure (a1 - a2 + a4)
    else
      A3 ops process args (-1)
  else if cashOrNothing ∧ barrierType = .DownOut ∧ type = .Call then do
    -- case 21
    let _ ← strike args
    if upper then do
      let b1 ← B1 ops process args 1
      let b3 ← B3 ops process args 1
      pure (b1 - b3)
    else do
      let b2 ← B2 ops process args 1
      let b4 ← B4 ops process args 1
      pure (b2 - b4)
  else if cashOrNothing ∧ barrierType = .UpOut ∧ type = .Call then do
    -- case 22
    let _ ← strike args
    if upper then
      pure 0
    else do
      let b1 ← B1 ops process args 1
      let b2 ← B2 ops process args 1
      let b3 ← B3 ops process args (-1)
      let b4 ← B4 ops process args (-1)
      pure (b1 - b2 + b3 - b4)
  else if assetOrNothing ∧ barrierType = .DownOut ∧ type = .Call then do
    -- case 23
    let _ ← strike args
    if upper then do
      let a1 ← A1 ops process args 1
      let a3 ← A3 ops process args 1
      pure (a1 - a3)
    else do
      let a2 ← A2 ops process args 1
      let a4 ← A4 ops process args 1
      pure (a2 - a4)
  else if assetOrNothing ∧ barrierType = .UpOut ∧ type = .Call then do
    -- case 24
    let _ ← strike args
    if upper then
      pure 0
    else do
      let a1 ← A1 ops process args 1
      let a2 ← A2 ops process args 1
      let a3 ← A3 ops process args (-1)
      let a4 ← A4 ops process args (-1)
      pure (a1 - a2 + a3 - a4)
  else if cashOrNothing ∧ barrierType = .DownOut ∧ type = .Put then do
    -- case 25
    let _ ← strike args
    if upper then do
      let b1 ← B1 ops process args (-1)
      let b2 ← B2 ops process args (-1)
      let b3 ← B3 ops process args 1
      let b4 ← B4 ops process args 1
      pure (b1 - b2 + b3 - b4)
    else
      pure 0
  else if cashOrNothing ∧ barrierType = .UpOut ∧ type = .Put then do
    -- case 26
    let _ ← strike args
    if upper then do
      let b2 ← B2 ops process args (-1)
      let b4 ← B4 ops process args (-1)
      pure (b2 - b4)
    else do
      let b1 ← B1 ops process args (-1)
      let b3 ← B3 ops process args (-1)
      pure (b1 - b3)
  else if assetOrNothing ∧ barrierType = .DownOut ∧ type = .Put then do
    -- case 27
    let _ ← strike args
    if upper then do
      let a1 ← A1 ops process args (-1)
      let a2 ← A2 ops process args (-1)
      let a3 ← A3 ops process args 1
      let a4 ← A4 ops process args 1
      pure (a1 - a2 + a3 - a4)
    else
      pure 0
  else if assetOrNothing ∧ barrierType = .UpOut ∧ type = .Put then do
    -- case 28
    let _ ← strike args
    if upper then do
      let a2 ← A2 ops process args (-1)
      let a4 ← A4 ops process args (-1)
      pure (a2 - a4)
    else do
      let a1 ← A1 ops process args (-1)
      let a3 ← A3 ops process args (-1)
      pure (a1 - a3)
  else
    .error (.error "Not supported")

end Branches

end AnalyticBinaryBarrierEngine

/-! ## Payoff branches, monitoring trace and table guards -/

/-- The four `return` statements that end `AutocallPathPricer::operator()`, in source
order. -/
inductive PayoffBranch where
  | coupon
  | knockOut
  | knockIn
  | fallback
  deriving DecidableEq, Repr

namespace AutocallPathPricer

section Trace

variable {R : Type} [LinearOrderedField R]
variable (ops : MathOps R) (pricer : AutocallPathPricer R) (path : Path R) (u : List R)

/-- Which `return` statement the chain of `if`s after the loop reaches, by the same tests in
the same order as `settle`. -/
def settleBranch (s : WalkState R) : PayoffBranch :=
  if !s.isKnockOut && !s.isOptionActive then .coupon
  else if s.isKnockOut then .knockOut
  else if s.isOptionActive then .knockIn
  else .fallback

/-- The knock-out tests made by the loop with `steps` iterations left, the next one at index
`i`: one pair `(i, knockNode)` for every iteration that enters the monitoring `if` and so
evaluates `y >= koBarrier_`, in order; the recursion follows `walk`. -/
def koTests : Nat → Nat → WalkState R → List (Nat × Nat)
  | 0, _, _ => []
  | steps + 1, i, s =>
    match step ops pricer path u i s, monitored pricer path i s.knockNode with
    | .ok s1, .ok m =>
      (if m then [(i, s.knockNode)] else []) ++
        (if s1.isKnockOut then [] else koTests steps (i + 1) s1)
    | _, _ => []

end Trace

end AutocallPathPricer

namespace AnalyticBinaryBarrierEngine

/-- The guards of the sixteen branches of the case table (cases 13 to 28), in source order,
each as the truth value of its condition. -/
def caseGuards {R : Type} (args : BarrierArguments R) (type : OptionType) : List Bool :=
  let barrierType := args.barrierType
  let cashOrNothing : Bool := args.payoff.asCashOrNothing.isSome
  let assetOrNothing : Bool := !cashOrNothing
  [ decide (cashOrNothing ∧ barrierType = .DownIn ∧ type = .Call),
    decide (cashOrNothing ∧ barrierType = .UpIn ∧ type = .Call),
    decide (assetOrNothing ∧ barrierType = .DownIn ∧ type = .Call),
    decide (assetOrNothing ∧ barrierType = .UpIn ∧ type = .Call),
    decide (cashOrNothing ∧ barrierType = .DownIn ∧ type = .Put),
    decide (cashOrNothing ∧ barrierType = .UpIn ∧ type = .Put),
    decide (assetOrNothing ∧ barrierType = .DownIn ∧ type = .Put),
    decide (assetOrNothing ∧ barrierType = .UpIn ∧ type = .Put),
    decide (cashOrNothing ∧ barrierType = .DownOut ∧ type = .Call),
    decide (cashOrNothing ∧ barrierType = .UpOut ∧ type = .Call),
    decide (assetOrNothing ∧ barrierType = .DownOut ∧ type = .Call),
    decide (assetOrNothing ∧ barrierType = .UpOut ∧ type = .Call),
    decide (cashOrNothing ∧ barrierType = .DownOut ∧ type = .Put),
    decide (cashOrNothing ∧ barrierType = .UpOut ∧ type = .Put),
    decide (assetOrNothing ∧ barrierType = .DownOut ∧ type = .Put),
    decide (assetOrNothing ∧ barrierType = .UpOut ∧ type = .Put) ]

end AnalyticBinaryBarrierEngine

/-! ## Monte Carlo engine: time grid, path generator and path pricer -/

/-- What `MCAutocallEngine` takes from its surroundings to build the generator and the
pricer: `process_->time(date)` (dates are serial numbers), the date
`arguments_.exercise->lastDate()`, `process_->riskFreeRate()->discount(t)`, the diffusion of
the process, the constructor `TimeGrid(end, steps)`, the conversion `static_cast<Size>` of a
`Real`, the uniform sequence generator `PseudoRandom::ursg_type(dimension, urng_type(seed))`
and the Gaussian one `RNG::make_sequence_generator(dimension, seed)`. -/
structure McEnvironment (R : Type) where
  time : Nat → R
  lastDate : Nat
  discount : R → R
  diffusion : R → R → R
  timeGridOf : R → Nat → TimeGrid R
  toSize : R → Nat
  ursg : Nat → Nat → SequenceGenerator R
  make_sequence_generator : Nat → Nat → SequenceGenerator R

/-- The constructor arguments of `path_generator_type(process_, grid, gen, brownianBridge_)`
besides the process. -/
structure PathGenerator (R : Type) where
  grid : TimeGrid R
  gen : SequenceGenerator R
  brownianBridge : Bool

namespace MCAutocallEngine

section Pricer

variable {R : Type} [LinearOrderedField R]

/-- Method `timeGrid()`. -/
def timeGrid (e : MCAutocallEngine R) (env : McEnvironment R) : Except Failure (TimeGrid R) :=
  let residualTime := env.time env.lastDate
  if e.timeSteps_ ≠ nullSize then
    .ok (env.timeGridOf residualTime e.timeSteps_)
  else if e.timeStepsPerYear_ ≠ nullSize then
    let steps := env.toSize ((e.timeStepsPerYear_ : R) * residualTime)
    .ok (env.timeGridOf residualTime (max steps 1))
  else
    .error (.error "time steps not specified")

/-- Method `pathGenerator()`; `grid.size() - 1` is taken on a grid with at least one
node. -/
def pathGenerator (e : MCAutocallEngine R) (env : McEnvironment R) :
    Except Failure (PathGenerator R) := do
  let grid ← timeGrid e env
  let gen := env.make_sequence_generator (grid.times.length - 1) e.seed_
  pure { grid := grid, gen := gen, brownianBridge := e.brownianBridge_ }

/-- The local `fixings` of `pathPricer()`: a vector of the size of `fixingDates`
value-initialised to 0, whose entries from index 1 on are overwritten by
`process_->time(fixingDates[i])`. -/
def fixingTimes (env : McEnvironment R) (fixingDates : List Nat) : List R :=
  (List.range fixingDates.length).map
    (fun i => if i < 1 then 0 else
      match fixingDates[i]? with
      | some d => env.time d
      | none => 0)

/-- Method `pathPricer()`: the path pricer and the uniform sequence generator handed to its
constructor (kept beside it, as in `AutocallPathPricer.operator`). -/
def pathPricer (e : MCAutocallEngine R) (env : McEnvironment R) (payoff : Payoff R)
    (a : AutocallArguments R) :
    Except Failure (AutocallPathPricer R × SequenceGenerator R) :=
  match payoff with
  | .PlainVanillaPayoff _ strike => do
    let grid ← timeGrid e env
    let discounts := grid.times.map env.discount
    let fixings := fixingTimes env a.fixingDates
    let sequenceGen := env.ursg (grid.times.length - 1) 5
    let pricer ← AutocallPathPricer.construct a.rebate a.coupon fixings a.kiBarrier a.koBarrier
      strike a.margin discounts env.diffusion
    pure (pricer, sequenceGen)
  | _ => .error (.error "non-plain payoff given")

end Pricer

end MCAutocallEngine

/-! ## Monte Carlo engine factory: the remaining named parameters -/

/-- One call of a named-parameter method of `MakeMCAutocallEngine`. -/
inductive BuilderCall (R : Type) where
  | withSteps (steps : Nat)
  | withStepsPerYear (steps : Nat)
  | withBrownianBridge (b : Bool)
  | withAntitheticVariate (b : Bool)
  | withSamples (samples : Nat)
  | withAbsoluteTolerance (tolerance : R)
  | withMaxSamples (samples : Nat)
  | withBias (b : Bool)
  | withSeed (seed : Nat)

namespace MakeMCAutocallEngine

section Builder

variable {R : Type} [DecidableEq R]

/-- Method `withBrownianBridge`. -/
def withBrownianBridge (m : MakeMCAutocallEngine R) (b : Bool) : MakeMCAutocallEngine R :=
  { m with brownianBridge_ := b }

/-- Method `withAntitheticVariate`. -/
def withAntitheticVariate (m : MakeMCAutocallEngine R) (b : Bool) : MakeMCAutocallEngine R :=
  { m with antithetic_ := b }

/-- Method `withSamples`; `null` is `Null<Real>()`. -/
def withSamples (null : R) (m : MakeMCAutocallEngine R) (samples : Nat) :
    Except Failure (MakeMCAutocallEngine R) :=
  if ¬ m.tolerance_ = null then .error (.error "tolerance already set") else
  .ok { m with samples_ := samples }

/-- Method `withAbsoluteTolerance`; `allowsErrorEstimate` is the constant
`RNG::allowsErrorEstimate`. -/
def withAbsoluteTolerance (allowsErrorEstimate : Bool) (m : MakeMCAutocallEngine R)
    (tolerance : R) : Except Failure (MakeMCAutocallEngine R) :=
  if ¬ m.samples_ = nullSize then .error (.error "number of samples already set") else
  if ¬ allowsErrorEstimate then
    .error (.error "chosen random generator policy does not allow an error estimate") else
  .ok { m with tolerance_ := tolerance }

/-- Method `withMaxSamples`. -/
def withMaxSamples (m : MakeMCAutocallEngine R) (samples : Nat) : MakeMCAutocallEngine R :=
  { m with maxSamples_ := samples }

/-- Method `withBias`. -/
def withBias (m : MakeMCAutocallEngine R) (b : Bool) : MakeMCAutocallEngine R :=
  { m with biased_ := b }

/-- Method `withSeed`. -/
def withSeed (m : MakeMCAutocallEngine R) (seed : Nat) : MakeMCAutocallEngine R :=
  { m with seed_ := seed }

/-- One named-parameter call on the builder. -/
def call (null : R) (allowsErrorEstimate : Bool) (m : MakeMCAutocallEngine R) :
    BuilderCall R → Except Failure (MakeMCAutocallEngine R)
  | .withSteps steps => .ok (m.withSteps steps)
  | .withStepsPerYear steps => .ok (m.withStepsPerYear steps)
  | .withBrownianBridge b => .ok (m.withBrownianBridge b)
  | .withAntitheticVariate b => .ok (m.withAntitheticVariate b)
  | .withSamples samples => m.withSamples null samples
  | .withAbsoluteTolerance tolerance => m.withAbsoluteTolerance allowsErrorEstimate tolerance
  | .withMaxSamples samples => .ok (m.withMaxSamples samples)
  | .withBias b => .ok (m.withBias b)
  | .withSeed seed => .ok (m.withSeed seed)

/-- A chain of named-parameter calls `m.withA(..).withB(..)...`; the chain ends at the first
call that throws. -/
def chain (null : R) (allowsErrorEstimate : Bool) :
    MakeMCAutocallEngine R → List (BuilderCall R) → Except Failure (MakeMCAutocallEngine R)
  | m, [] => .ok m
  | m, c :: cs =>
    match call null allowsErrorEstimate m c with
    | .error e => .error e
    | .ok m1 => chain null allowsErrorEstimate m1 cs

end Builder

end MakeMCAutocallEngine

namespace Examples

/-- An environment with time `d / 360` of a date `d`, last date 360, discount `1 - t / 10`,
a constant diffusion, the half-yearly grid on one year whatever is asked, and generators whose
sequences hold the seed in every coordinate. -/
def env1 : McEnvironment ℚ :=
  { time := fun d => (d : ℚ) / 360,
    lastDate := 360,
    discount := fun t => 1 - t / 10,
    diffusion := fun _ _ => 1 / 5,
    timeGridOf := fun _ _ => { times := [0, 1 / 2, 1], dt := [1 / 2, 1 / 2] },
    toSize := fun x => x.floor.toNat,
    ursg := fun dimension seed =>
      { sequences := fun _ => List.replicate dimension ((seed : ℚ) / 10), drawn := 0 },
    make_sequence_generator := fun dimension seed =>
      { sequences := fun _ => List.replicate dimension (seed : ℚ), drawn := 0 } }

/-- An engine with two time steps and seed 42. -/
def engine1 : MCAutocallEngine ℚ :=
  { timeSteps_ := 2, timeStepsPerYear_ := nullSize, requiredSamples_ := 1000,
    maxSamples_ := nullSize, requiredTolerance_ := nullReal, isBiased_ := false,
    brownianBridge_ := false, antitheticVariate_ := false, seed_ := 42 }

/-- Autocall arguments with fixing dates 90, 180 and 360. -/
def autocallArgs1 : AutocallArguments ℚ :=
  { rebate := 1 / 10, coupon := 2 / 10, kiBarrier := 80, koBarrier := 103, margin := 1,
    fixingDates := [90, 180, 360] }

end Examples

-- THEOREMS

/-! ## Analytic binary barrier engine: degenerate pre-checks and case table -/

section AnalyticTheorems

open AnalyticBinaryBarrierEngine Examples

theorem calculate_knockedOut {R : Type} [LinearOrderedField R] (ops : MathOps R)
    (process : GeneralizedBlackScholesProcess R) (args : BarrierArguments R)
    (vanilla : Payoff R → VanillaOption R) (eta0 : R) (results : Results R)
    (hp : args.payoff ≠ .NonStriked) (hs : process.x0 > 0) (hb : args.barrier > 0)
    (hko : (args.barrierType = .DownOut ∧ process.x0 ≤ args.barrier) ∨
      (args.barrierType = .UpOut ∧ process.x0 ≥ args.barrier)) :
    calculate ops process args vanilla eta0 results =
      (.ok (), { value := 0, delta := 0, gamma := 0, vega := 0, theta := 0, rho := 0,
                 dividendRho := 0 }) := by
  unfold calculate
  cases hpay : args.payoff.asStriked with
  | none => cases h : args.payoff <;> simp_all [Payoff.asStriked]
  | some p => simp [hs, hb, hko]

theorem calculate_knockedIn {R : Type} [LinearOrderedField R] (ops : MathOps R)
    (process : GeneralizedBlackScholesProcess R) (args : BarrierArguments R)
    (vanilla : Payoff R → VanillaOption R) (eta0 : R) (results : Results R)
    (hp : args.payoff ≠ .NonStriked) (hs : process.x0 > 0) (hb : args.barrier > 0)
    (hki : (args.barrierType = .DownIn ∧ process.x0 ≤ args.barrier) ∨
      (args.barrierType = .UpIn ∧ process.x0 ≥ args.barrier)) :
    calculate ops process args vanilla eta0 results =
      copyVanilla (vanilla args.payoff) results := by
  unfold calculate
  cases hpay : args.payoff.asStriked with
  | none => cases h : args.payoff <;> simp_all [Payoff.asStriked]
  | some p =>
    have hno : ¬ ((args.barrierType = .DownOut ∧ process.x0 ≤ args.barrier) ∨
        (args.barrierType = .UpOut ∧ process.x0 ≥ args.barrier)) := by
      rcases hki with ⟨h, _⟩ | ⟨h, _⟩ <;> simp [h]
    simp only [hs, hb, not_true_eq_false, if_false, hno, hki, if_true]

theorem copyVanilla_ok {R : Type} (opt : VanillaOption R) (results : Results R)
    (v d g ve th rh dr : R)
    (h1 : opt.NPV = .ok v) (h2 : opt.delta = .ok d) (h3 : opt.gamma = .ok g)
    (h4 : opt.vega = .ok ve) (h5 : opt.theta = .ok th) (h6 : opt.rho = .ok rh)
    (h7 : opt.dividendRho = .ok dr) :
    copyVanilla opt results =
      (.ok (), { value := v, delta := d, gamma := g, vega := ve, theta := th, rho := rh,
                 dividendRho := dr }) := by
  simp [copyVanilla, h1, h2, h3, h4, h5, h6, h7]

theorem copyVanilla_value {R : Type} (opt : VanillaOption R) (results : Results R)
    (v : R) (h1 : opt.NPV = .ok v) :
    (copyVanilla opt results).2.value = v := by
  unfold copyVanilla
  rw [h1]
  cases opt.delta <;> cases opt.gamma <;> cases opt.vega <;> cases opt.theta <;>
    cases opt.rho <;> cases opt.dividendRho <;> rfl

/-- Claim C1 (in-out parity).  With `payAtExpiry = true`, a striked payoff, positive spot and
barrier, and the barrier not yet breached (spot above it for the down pair, below it for the up
pair), the knock-in and the knock-out call both return a value, and the two values add up to
the European binary value `B1(phi)` (cash-or-nothing) or `A1(phi)` (otherwise), whichever of
the two strike-vs-barrier branches is taken. -/
theorem C1_in_out_parity {R : Type} [LinearOrderedField R] (ops : MathOps R)
    (process : GeneralizedBlackScholesProcess R) (vanilla : Payoff R → VanillaOption R)
    (eta0 : R) (results : Results R) (payoff : Payoff R) (H rebate : R)
    (inType outType : BarrierType)
    (hp : payoff ≠ .NonStriked) (hs : process.x0 > 0) (hb : H > 0)
    (hpair : (inType = .DownIn ∧ outType = .DownOut ∧ process.x0 > H) ∨
        (inType = .UpIn ∧ outType = .UpOut ∧ process.x0 < H)) :
    ∃ vIn vOut : R,
      calculate ops process ⟨payoff, inType, H, rebate, true⟩ vanilla eta0 results =
        (.ok (), { results with value := vIn }) ∧
      calculate ops process ⟨payoff, outType, H, rebate, true⟩ vanilla eta0 results =
        (.ok (), { results with value := vOut }) ∧
      europeanBinary ops process ⟨payoff, inType, H, rebate, true⟩ = .ok (vIn + vOut) := by
  have hb' : ¬ H ≤ 0 := not_le.mpr hb
  rcases hpair with ⟨rfl, rfl, h⟩ | ⟨rfl, rfl, h⟩
  all_goals
    have h1 := not_le.mpr h
    have h2 := le_of_lt h
    cases payoff with
    | NonStriked => exact absurd rfl hp
    | CashOrNothingPayoff type k cash =>
      cases type <;> by_cases hk : k ≥ H <;>
        simp [calculate, caseTable, europeanBinary, Payoff.asStriked, Payoff.asCashOrNothing,
          hs, hb, h1, h2, hk, A1, A2, A3, A4, B1, B2, B3, B4,
          AnalyticBinaryBarrierEngine.strike, AnalyticBinaryBarrierEngine.barrier, variance,
          stdDeviation, mu, log_S_X, log_S_H, log_H_S, log_H2_SX, H_S_2mu, H_S_2mu_1, bind,
          Except.bind, pure, Except.pure, spot, dividendDiscount, riskFreeDiscount]
    | AssetOrNothingPayoff type k =>
      cases type <;> by_cases hk : k ≥ H <;>
        simp [calculate, caseTable, europeanBinary, Payoff.asStriked, Payoff.asCashOrNothing,
          hs, hb, h1, h2, hk, A1, A2, A3, A4, B1, B2, B3, B4,
          AnalyticBinaryBarrierEngine.strike, AnalyticBinaryBarrierEngine.barrier, variance,
          stdDeviation, mu, log_S_X, log_S_H, log_H_S, log_H2_SX, H_S_2mu, H_S_2mu_1, bind,
          Except.bind, pure, Except.pure, spot, dividendDiscount, riskFreeDiscount]
    | PlainVanillaPayoff type k =>
      cases type <;> by_cases hk : k ≥ H <;>
        simp [calculate, caseTable, europeanBinary, Payoff.asStriked, Payoff.asCashOrNothing,
          hs, hb, h1, h2, hk, A1, A2, A3, A4, B1, B2, B3, B4,
          AnalyticBinaryBarrierEngine.strike, AnalyticBinaryBarrierEngine.barrier, variance,
          stdDeviation, mu, log_S_X, log_S_H, log_H_S, log_H2_SX, H_S_2mu, H_S_2mu_1, bind,
          Except.bind, pure, Except.pure, spot, dividendDiscount, riskFreeDiscount]

/-- Witness for C1: a cash-or-nothing call, strike 102, barrier 100, spot 105, down pair. -/
theorem C1_in_out_parity_witness :
    cashCall102 ≠ .NonStriked ∧ process105.x0 > 100 ∧
    ∃ vIn vOut : ℚ,
      calculate ratOps process105 ⟨cashCall102, .DownIn, 100, 0, true⟩ vanillaCount 0 results0 =
        (.ok (), { results0 with value := vIn }) ∧
      calculate ratOps process105 ⟨cashCall102, .DownOut, 100, 0, true⟩ vanillaCount 0 results0 =
        (.ok (), { results0 with value := vOut }) ∧
      europeanBinary ratOps process105 ⟨cashCall102, .DownIn, 100, 0, true⟩ =
        .ok (vIn + vOut) :=
  ⟨by decide, by decide,
    C1_in_out_parity ratOps process105 vanillaCount 0 results0 cashCall102 100 0 .DownIn .DownOut
      (by decide) (by decide) (by decide) (Or.inl ⟨rfl, rfl, by decide⟩)⟩

/-- Claim C2 (knocked-out degenerate case).  For `DownOut` with spot at or below the barrier,
or `UpOut` with spot at or above it, with positive spot and barrier and any striked payoff,
`calculate` returns normally and value, delta, gamma, vega, theta, rho and dividendRho are all
exactly 0, whatever the strike, option type, payoff kind, pay-at-expiry flag, market data and
previous content of the results. -/
theorem C2_knocked_out_all_zero {R : Type} [LinearOrderedField R] (ops : MathOps R)
    (process : GeneralizedBlackScholesProcess R) (args : BarrierArguments R)
    (vanilla : Payoff R → VanillaOption R) (eta0 : R) (results : Results R)
    (hp : args.payoff ≠ .NonStriked) (hs : process.x0 > 0) (hb : args.barrier > 0)
    (hko : (args.barrierType = .DownOut ∧ process.x0 ≤ args.barrier) ∨
      (args.barrierType = .UpOut ∧ process.x0 ≥ args.barrier)) :
    calculate ops process args vanilla eta0 results =
      (.ok (), { value := 0, delta := 0, gamma := 0, vega := 0, theta := 0, rho := 0,
                 dividendRho := 0 }) :=
  calculate_knockedOut ops process args vanilla eta0 results hp hs hb hko

/-- Witness for C2: up-and-out with spot equal to the barrier, pay-at-hit flag. -/
theorem C2_knocked_out_all_zero_witness :
    (100 : ℚ) ≥ 100 ∧
    calculate ratOps { process105 with x0 := 100 } ⟨cashCall98, .UpOut, 100, 0, false⟩
      vanillaCount 0 results0 =
      (.ok (), { value := 0, delta := 0, gamma := 0, vega := 0, theta := 0, rho := 0,
                 dividendRho := 0 }) :=
  ⟨by decide,
    C2_knocked_out_all_zero ratOps { process105 with x0 := 100 }
      ⟨cashCall98, .UpOut, 100, 0, false⟩ vanillaCount 0 results0
      (by decide) (by decide) (by decide) (Or.inr ⟨rfl, by decide⟩)⟩

/-- Claim C3 (knocked-in degenerate case).  For `DownIn` with spot at or below the barrier, or
`UpIn` with spot at or above it, with positive spot and barrier and a striked payoff, when the
seven accessors of the European vanilla option return `v, d, g, ve, th, rh, dr`, `calculate`
returns normally with exactly these numbers as value, delta, gamma, vega, theta, rho and
dividendRho; the outcome is the same for either pay-at-expiry flag and does not depend on the
table's ingredients (the math functions and the content of `eta`). -/
theorem C3_knocked_in_delegates {R : Type} [LinearOrderedField R]
    (process : GeneralizedBlackScholesProcess R) (args : BarrierArguments R)
    (vanilla : Payoff R → VanillaOption R) (results : Results R)
    (v d g ve th rh dr : R)
    (hp : args.payoff ≠ .NonStriked) (hs : process.x0 > 0) (hb : args.barrier > 0)
    (hki : (args.barrierType = .DownIn ∧ process.x0 ≤ args.barrier) ∨
      (args.barrierType = .UpIn ∧ process.x0 ≥ args.barrier))
    (h1 : (vanilla args.payoff).NPV = .ok v) (h2 : (vanilla args.payoff).delta = .ok d)
    (h3 : (vanilla args.payoff).gamma = .ok g) (h4 : (vanilla args.payoff).vega = .ok ve)
    (h5 : (vanilla args.payoff).theta = .ok th) (h6 : (vanilla args.payoff).rho = .ok rh)
    (h7 : (vanilla args.payoff).dividendRho = .ok dr) :
    ∀ (flag : Bool) (ops2 : MathOps R) (eta2 : R),
      calculate ops2 process { args with payAtExpiry := flag } vanilla eta2 results =
        (.ok (), { value := v, delta := d, gamma := g, vega := ve, theta := th, rho := rh,
                   dividendRho := dr }) := by
  intro flag ops2 eta2
  rw [calculate_knockedIn ops2 process { args with payAtExpiry := flag } vanilla eta2 results
    hp hs hb hki]
  exact copyVanilla_ok _ results v d g ve th rh dr h1 h2 h3 h4 h5 h6 h7

/-- Witness for C3: down-and-in with spot 95 below the barrier 100. -/
theorem C3_knocked_in_delegates_witness :
    process95.x0 ≤ 100 ∧
    ∀ (flag : Bool) (ops2 : MathOps ℚ) (eta2 : ℚ),
      calculate ops2 process95
        { (⟨cashCall98, .DownIn, 100, 0, true⟩ : BarrierArguments ℚ) with payAtExpiry := flag }
        vanillaCount eta2 results0 =
        (.ok (), { value := 1, delta := 2, gamma := 3, vega := 4, theta := 5, rho := 6,
                   dividendRho := 7 }) :=
  ⟨by decide,
    C3_knocked_in_delegates process95 ⟨cashCall98, .DownIn, 100, 0, true⟩ vanillaCount
      results0 1 2 3 4 5 6 7 (by decide) (by decide) (by decide) (Or.inl ⟨rfl, by decide⟩)
      rfl rfl rfl rfl rfl rfl rfl⟩

/-- Counterexample to C4 as stated: a down-and-out cash-or-nothing call (cash 15, strike 98,
barrier 100) at spot 95 is breached; the pre-check gives value 0, while the European digital of
the same payoff is worth 7.4926. -/
theorem C4_counterexample :
    process95.x0 ≤ 100 ∧
    (vanillaRef cashCall98).NPV = .ok (74926 / 10000) ∧
    (calculate ratOps process95 ⟨cashCall98, .DownOut, 100, 0, true⟩ vanillaRef 0 results0).1 =
      .ok () ∧
    (calculate ratOps process95 ⟨cashCall98, .DownOut, 100, 0, true⟩ vanillaRef 0
      results0).2.value = 0 ∧
    (calculate ratOps process95 ⟨cashCall98, .DownOut, 100, 0, true⟩ vanillaRef 0
      results0).2.value ≠ 74926 / 10000 := by
  refine ⟨by decide, rfl, rfl, rfl, ?_⟩
  show (0 : ℚ) ≠ 74926 / 10000
  norm_num

/-- Claim C4, amended.  When the barrier is already breached at valuation time (positive spot
and barrier, striked payoff): for the knock-in types `DownIn` and `UpIn` the value written by
the pre-check is the value `v` of the European vanilla option with the same payoff; for the
knock-out types `DownOut` and `UpOut` the call returns with value 0. -/
theorem C4_breached_values {R : Type} [LinearOrderedField R] (ops : MathOps R)
    (process : GeneralizedBlackScholesProcess R) (args : BarrierArguments R)
    (vanilla : Payoff R → VanillaOption R) (eta0 : R) (results : Results R) (v : R)
    (hp : args.payoff ≠ .NonStriked) (hs : process.x0 > 0) (hb : args.barrier > 0)
    (hv : (vanilla args.payoff).NPV = .ok v) :
    (((args.barrierType = .DownIn ∧ process.x0 ≤ args.barrier) ∨
        (args.barrierType = .UpIn ∧ process.x0 ≥ args.barrier)) →
      (calculate ops process args vanilla eta0 results).2.value = v) ∧
    (((args.barrierType = .DownOut ∧ process.x0 ≤ args.barrier) ∨
        (args.barrierType = .UpOut ∧ process.x0 ≥ args.barrier)) →
      (calculate ops process args vanilla eta0 results).1 = .ok () ∧
      (calculate ops process args vanilla eta0 results).2.value = 0) := by
  constructor
  · intro hki
    rw [calculate_knockedIn ops process args vanilla eta0 results hp hs hb hki]
    exact copyVanilla_value _ results v hv
  · intro hko
    rw [calculate_knockedOut ops process args vanilla eta0 results hp hs hb hko]
    exact ⟨rfl, rfl⟩

/-- Witness for the amended C4: the breached down-and-in and down-and-out contracts at spot
95 below the barrier 100. -/
theorem C4_breached_values_witness :
    process95.x0 ≤ 100 ∧
    (calculate ratOps process95 ⟨cashCall98, .DownIn, 100, 0, true⟩ vanillaRef 0
      results0).2.value = 74926 / 10000 :=
  ⟨by decide,
    (C4_breached_values ratOps process95 ⟨cashCall98, .DownIn, 100, 0, true⟩ vanillaRef 0
      results0 (74926 / 10000) (by decide) (by decide) (by decide) rfl).1
      (Or.inl ⟨rfl, by decide⟩)⟩

end AnalyticTheorems

section TableTheorems

open AnalyticBinaryBarrierEngine Examples

theorem calculate_payAtHit {R : Type} [LinearOrderedField R] (ops : MathOps R)
    (process : GeneralizedBlackScholesProcess R) (vanilla : Payoff R → VanillaOption R)
    (eta0 : R) (results : Results R) (payoff : Payoff R) (bt : BarrierType) (H rebate : R)
    (type : OptionType) (k : R)
    (hp : payoff.asStriked = some (type, k)) (hs : process.x0 > 0) (hb : H > 0)
    (hnot : (bt = .DownIn ∨ bt = .DownOut) ∧ process.x0 > H ∨
      (bt = .UpIn ∨ bt = .UpOut) ∧ process.x0 < H) :
    calculate ops process ⟨payoff, bt, H, rebate, false⟩ vanilla eta0 results =
      (.ok (),
        { results with
          value := payAtHitFormula ops
            (payAtHitAmount payoff H)
            H process.x0 process.dividendDiscount process.riskFreeDiscount
            (process.blackVariance k)
            (if bt = .UpIn then -1 else if bt = .DownIn then 1 else eta0) }) := by
  rcases hnot with ⟨hbt, h⟩ | ⟨hbt, h⟩
  all_goals
    have h1 := not_le.mpr h
    have h2 := le_of_lt h
    rcases hbt with rfl | rfl <;> cases hc : payoff.asCashOrNothing <;>
      simp [calculate, caseTable, payAtHitFormula, payAtHitAmount, hp, hc, hs, hb, h1, h2, A5,
        AnalyticBinaryBarrierEngine.strike, AnalyticBinaryBarrierEngine.barrier, variance,
        stdDeviation, mu, log_H_S, bind, Except.bind, pure, Except.pure, spot,
        dividendDiscount, riskFreeDiscount]

/-- Claim C5, evaluated on the code.  For a knock-out barrier type (`DownOut` or `UpOut`) with
`payAtExpiry = false` and the barrier not yet breached, `calculate` does not fail: it returns
normally and writes as value the pay-at-hit formula `A5(eta)` evaluated at the indeterminate
content `eta0` of the never-assigned local `eta`. -/
theorem C5_knock_out_pay_at_hit_returns_value {R : Type} [LinearOrderedField R]
    (ops : MathOps R)
    (process : GeneralizedBlackScholesProcess R) (vanilla : Payoff R → VanillaOption R)
    (eta0 : R) (results : Results R) (payoff : Payoff R) (bt : BarrierType) (H rebate : R)
    (type : OptionType) (k : R)
    (hp : payoff.asStriked = some (type, k)) (hs : process.x0 > 0) (hb : H > 0)
    (hko : (bt = .DownOut ∧ process.x0 > H) ∨ (bt = .UpOut ∧ process.x0 < H)) :
    calculate ops process ⟨payoff, bt, H, rebate, false⟩ vanilla eta0 results =
      (.ok (),
        { results with
          value := payAtHitFormula ops
            (payAtHitAmount payoff H)
            H process.x0 process.dividendDiscount process.riskFreeDiscount
            (process.blackVariance k) eta0 }) ∧
    (calculate ops process ⟨payoff, bt, H, rebate, false⟩ vanilla eta0 results).1 ≠
      .error (.error "Not supported") := by
  have hnot : (bt = .DownIn ∨ bt = .DownOut) ∧ process.x0 > H ∨
      (bt = .UpIn ∨ bt = .UpOut) ∧ process.x0 < H := by
    rcases hko with ⟨h, h'⟩ | ⟨h, h'⟩
    · exact Or.inl ⟨Or.inr h, h'⟩
    · exact Or.inr ⟨Or.inr h, h'⟩
  have hcalc := calculate_payAtHit ops process vanilla eta0 results payoff bt H rebate type k
    hp hs hb hnot
  have heta : (if bt = .UpIn then (-1 : R) else if bt = .DownIn then 1 else eta0) = eta0 := by
    rcases hko with ⟨h, _⟩ | ⟨h, _⟩ <;> simp [h]
  rw [heta] at hcalc
  refine ⟨hcalc, ?_⟩
  rw [hcalc]
  simp

/-- Witness for C5: the down-and-out cash-or-nothing call (cash 15, strike 102, barrier 100)
at spot 105 with `payAtExpiry = false`; two different contents of `eta` give two different
values. -/
theorem C5_knock_out_pay_at_hit_returns_value_witness :
    process105.x0 > 100 ∧
    (calculate ratOps process105 ⟨cashCall102, .DownOut, 100, 0, false⟩ vanillaCount 0
      results0).1 ≠ .error (.error "Not supported") ∧
    (calculate ratOps process105 ⟨cashCall102, .DownOut, 100, 0, false⟩ vanillaCount 0
      results0).1 = .ok () :=
  ⟨by decide,
    (C5_knock_out_pay_at_hit_returns_value ratOps process105 vanillaCount 0 results0 cashCall102
      .DownOut 100 0 .Call 102 rfl (by decide) (by decide) (Or.inl ⟨rfl, by decide⟩)).2,
    rfl⟩

/-- Claim C6 (pay-at-hit knock-in).  With `payAtExpiry = false`, a striked payoff, positive
spot and barrier and a knock-in barrier not yet breached, `calculate` returns normally and the
value is `K*((H/S)^(mu+lambda)*N(eta*z) + (H/S)^(mu-lambda)*N(eta*z - 2*eta*lambda*sd))` with
`z = ln(H/S)/sd + lambda*sd`, `eta = 1` for `DownIn` and `-1` for `UpIn`, `K` the cash amount of
a cash-or-nothing payoff and the barrier `H` otherwise; any other striked payoff with the same
cash-or-nothing content and the same variance at its strike (call or put, any strike) gets the
same value. -/
theorem C6_pay_at_hit_value {R : Type} [LinearOrderedField R] (ops : MathOps R)
    (process : GeneralizedBlackScholesProcess R) (vanilla : Payoff R → VanillaOption R)
    (eta0 : R) (results : Results R) (payoff : Payoff R) (bt : BarrierType) (H rebate : R)
    (type : OptionType) (k : R)
    (hp : payoff.asStriked = some (type, k)) (hs : process.x0 > 0) (hb : H > 0)
    (hin : (bt = .DownIn ∧ process.x0 > H) ∨ (bt = .UpIn ∧ process.x0 < H)) :
    calculate ops process ⟨payoff, bt, H, rebate, false⟩ vanilla eta0 results =
      (.ok (),
        { results with
          value := payAtHitFormula ops
            (payAtHitAmount payoff H)
            H process.x0 process.dividendDiscount process.riskFreeDiscount
            (process.blackVariance k) (if bt = .DownIn then 1 else -1) }) ∧
    ∀ (payoff2 : Payoff R) (type2 : OptionType) (k2 : R),
      payoff2.asStriked = some (type2, k2) →
      payoff2.asCashOrNothing = payoff.asCashOrNothing →
      process.blackVariance k2 = process.blackVariance k →
      calculate ops process ⟨payoff2, bt, H, rebate, false⟩ vanilla eta0 results =
        calculate ops process ⟨payoff, bt, H, rebate, false⟩ vanilla eta0 results := by
  have hnot : (bt = .DownIn ∨ bt = .DownOut) ∧ process.x0 > H ∨
      (bt = .UpIn ∨ bt = .UpOut) ∧ process.x0 < H := by
    rcases hin with ⟨h, h'⟩ | ⟨h, h'⟩
    · exact Or.inl ⟨Or.inl h, h'⟩
    · exact Or.inr ⟨Or.inl h, h'⟩
  have heta : (if bt = .UpIn then (-1 : R) else if bt = .DownIn then 1 else eta0) =
      (if bt = .DownIn then 1 else -1) := by
    rcases hin with ⟨h, _⟩ | ⟨h, _⟩ <;> simp [h]
  constructor
  · rw [calculate_payAtHit ops process vanilla eta0 results payoff bt H rebate type k
      hp hs hb hnot, heta]
  · intro payoff2 type2 k2 hp2 hc2 hv2
    rw [calculate_payAtHit ops process vanilla eta0 results payoff bt H rebate type k
      hp hs hb hnot,
      calculate_payAtHit ops process vanilla eta0 results payoff2 bt H rebate type2 k2
      hp2 hs hb hnot, hv2]
    have hK : payAtHitAmount payoff2 H = payAtHitAmount payoff H := by
      simp only [payAtHitAmount, hc2]
    rw [hK]

/-- Witness for C6: the down-and-in cash-or-nothing call at spot 105, strike 102, against the
put with strike 98 and the same cash. -/
theorem C6_pay_at_hit_value_witness :
    process105.x0 > 100 ∧
    calculate ratOps process105 ⟨.CashOrNothingPayoff .Put 98 15, .DownIn, 100, 0, false⟩
      vanillaCount 0 results0 =
    calculate ratOps process105 ⟨cashCall102, .DownIn, 100, 0, false⟩ vanillaCount 0 results0 :=
  ⟨by decide,
    (C6_pay_at_hit_value ratOps process105 vanillaCount 0 results0 cashCall102 .DownIn 100 0
      .Call 102 rfl (by decide) (by decide) (Or.inl ⟨rfl, by decide⟩)).2
      (.CashOrNothingPayoff .Put 98 15) .Put 98 rfl rfl rfl⟩

/-- Claim C9 (zero cases of the table).  With `payAtExpiry = true`, positive spot and barrier
and the barrier not yet breached, `calculate` returns normally with value exactly 0 for an
up-and-out call with strike at or above the barrier and for a down-and-out put with strike
below the barrier, for cash-or-nothing and every other striked payoff and all market data. -/
theorem C9_zero_cases {R : Type} [LinearOrderedField R] (ops : MathOps R)
    (process : GeneralizedBlackScholesProcess R) (args : BarrierArguments R)
    (vanilla : Payoff R → VanillaOption R) (eta0 : R) (results : Results R)
    (type : OptionType) (k : R)
    (hp : args.payoff.asStriked = some (type, k)) (hs : process.x0 > 0) (hb : args.barrier > 0)
    (hpay : args.payAtExpiry = true)
    (hcase : (args.barrierType = .UpOut ∧ process.x0 < args.barrier ∧ type = .Call ∧
          k ≥ args.barrier) ∨
        (args.barrierType = .DownOut ∧ process.x0 > args.barrier ∧ type = .Put ∧
          k < args.barrier)) :
    calculate ops process args vanilla eta0 results = (.ok (), { results with value := 0 }) := by
  obtain ⟨payoff, bt, H, rebate, pae⟩ := args
  simp only at hp hs hb hpay hcase
  subst hpay
  rcases hcase with ⟨rfl, h, rfl, hk⟩ | ⟨rfl, h, rfl, hk⟩
  · have h1 := not_le.mpr h
    cases hc : payoff.asCashOrNothing <;>
      simp [calculate, caseTable, hp, hc, hs, hb, h1, hk,
        AnalyticBinaryBarrierEngine.strike, bind, Except.bind, pure, Except.pure]
  · have h1 := not_le.mpr h
    have hk1 := not_le.mpr hk
    cases hc : payoff.asCashOrNothing <;>
      simp [calculate, caseTable, hp, hc, hs, hb, h1, hk1,
        AnalyticBinaryBarrierEngine.strike, bind, Except.bind, pure, Except.pure]

/-- Witness for C9: the up-and-out cash-or-nothing call with strike 102 above the barrier 100
at spot 95. -/
theorem C9_zero_cases_witness :
    process95.x0 < 100 ∧ (102 : ℚ) ≥ 100 ∧
    calculate ratOps process95 ⟨cashCall102, .UpOut, 100, 0, true⟩ vanillaCount 0 results0 =
      (.ok (), { results0 with value := 0 }) :=
  ⟨by decide, by decide,
    C9_zero_cases ratOps process95 ⟨cashCall102, .UpOut, 100, 0, true⟩ vanillaCount 0 results0
      .Call 102 rfl (by decide) (by decide) rfl
      (Or.inl ⟨rfl, by decide, rfl, by decide⟩)⟩

end TableTheorems

/-! ## Autocall path pricer -/

section PathPricerTheorems

open AutocallPathPricer Examples

theorem walk_prefix {R : Type} [LinearOrderedField R] (ops : MathOps R)
    (pricer : AutocallPathPricer R) (path : Path R) (u : List R) :
    ∀ (a b i : Nat) (s s' : WalkState R),
      walk ops pricer path u a i s = .ok s' → s'.isKnockOut = false →
      walk ops pricer path u (a + b) i s = walk ops pricer path u b (i + a) s' := by
  intro a
  induction a with
  | zero =>
    intro b i s s' h _
    simp only [walk, pure, Except.pure, Except.ok.injEq] at h
    simp [h]
  | succ a ih =>
    intro b i s s' h hk
    rw [Nat.succ_add]
    simp only [walk, bind, Except.bind] at h ⊢
    cases hstep : step ops pricer path u i s with
    | error e => simp [hstep] at h
    | ok s1 =>
      simp only [hstep] at h ⊢
      by_cases h1 : s1.isKnockOut = true
      · simp only [h1, if_true, pure, Except.pure, Except.ok.injEq] at h
        rw [← h, h1] at hk
        exact absurd hk (by simp)
      · have h1' : s1.isKnockOut = false := by simpa using h1
        simp only [h1', Bool.false_eq_true, if_false] at h ⊢
        rw [ih b (i + 1) s1 s' h hk]
        have hi : i + 1 + a = i + (a + 1) := by omega
        rw [hi]

theorem walk_break {R : Type} [LinearOrderedField R] (ops : MathOps R)
    (pricer : AutocallPathPricer R) (path : Path R) (u : List R)
    (b i : Nat) (s s' : WalkState R)
    (h : step ops pricer path u i s = .ok s') (hk : s'.isKnockOut = true) :
    walk ops pricer path u (b + 1) i s = .ok s' := by
  simp [walk, bind, Except.bind, h, hk, pure, Except.pure]

/-- Claim C10 (knock-out amount).  Let `i` be a loop index of a path of at least two nodes.
If the walk completes steps `0 .. i-1` without knocking out (reaching the locals `s`), step `i`
is monitored and its bridge-corrected price `y` is at least `koBarrier_` (so `i` is the first
monitored step with that property), and `timeGrid[i] = t` and `discounts_[i] = d` exist, then
`operator()` returns `(rebate_ * t + margin_) * d`. -/
theorem C10_knock_out_amount {R : Type} [LinearOrderedField R] (ops : MathOps R)
    (pricer : AutocallPathPricer R) (gen : SequenceGenerator R) (path : Path R)
    (i : Nat) (front y t d : R) (s : WalkState R)
    (hi : i + 1 < path.length)
    (hfront : readAt "path.front()" path.values 0 = .ok front)
    (hreach : walk ops pricer path (gen.sequences gen.drawn) i 0 (initial front) = .ok s)
    (hno : s.isKnockOut = false)
    (hmon : monitored pricer path i s.knockNode = .ok true)
    (hy : (bridgePrice ops pricer path (gen.sequences gen.drawn) i s.asset_price).map Prod.snd
      = .ok y)
    (hko : y ≥ pricer.koBarrier_)
    (ht : path.timeGrid.times[i]? = some t) (hd : pricer.discounts_[i]? = some d) :
    (operator ops pricer gen path).1 = .ok ((pricer.rebate_ * t + pricer.margin_) * d) := by
  have hn : path.length > 1 := by omega
  cases hb : bridgePrice ops pricer path (gen.sequences gen.drawn) i s.asset_price with
  | error e => simp [hb, Except.map] at hy
  | ok p =>
    obtain ⟨q, y'⟩ := p
    simp only [hb, Except.map, Except.ok.injEq] at hy
    subst hy
    have hstep : step ops pricer path (gen.sequences gen.drawn) i s =
        .ok { s with isKnockOut := true, ko := i } := by
      simp [step, hb, hmon, hko, bind, Except.bind, pure, Except.pure]
    have hsplit : path.length - 1 = i + ((path.length - 2 - i) + 1) := by omega
    have hwalk : walk ops pricer path (gen.sequences gen.drawn) (path.length - 1) 0
        (initial front) = .ok { s with isKnockOut := true, ko := i } := by
      rw [hsplit, walk_prefix ops pricer path _ i _ 0 (initial front) s hreach hno]
      rw [Nat.zero_add]
      exact walk_break ops pricer path _ _ i s _ hstep rfl
    have hsettle : settle pricer path { s with isKnockOut := true, ko := i } =
        .ok ((pricer.rebate_ * t + pricer.margin_) * d) := by
      simp [settle, readAt, ht, hd, bind, Except.bind, pure, Except.pure]
    simp [operator, hn, hfront, SequenceGenerator.nextSequence, hwalk, hsettle,
      bind, Except.bind]

/-- Witness for C10: on the five-node example path step 0 is not monitored, step 1 is, and its
bridge-corrected price exceeds the knock-out barrier 103; the amount is
`(1/10 * 1/4 + 1) * 98/100`. -/
theorem C10_knock_out_amount_witness :
    monitored pricer1 path1 1 0 = .ok true ∧
    (operator ratOps pricer1 gen1 path1).1 = .ok ((1 / 10 * (1 / 4) + 1) * (98 / 100)) :=
  ⟨by
      simp only [monitored, readAt, path1, pricer1, List.getElem?_cons_succ,
        List.getElem?_cons_zero, bind]
      simp only [Except.bind, pure, Except.pure]
      norm_num,
    C10_knock_out_amount ratOps pricer1 gen1 path1 1 100 (5172201 / 40400) (1 / 4) (98 / 100)
      ⟨false, false, 0, 0, 101⟩ (by decide) (by rfl)
      (by
        simp only [walk, step, bridgePrice, monitored, readAt, path1, gen1, initial,
          List.getElem?_cons_succ, List.getElem?_cons_zero, bind]
        simp only [Except.bind, pure, Except.pure]
        norm_num [ratOps, pricer1, finishStep])
      (by rfl)
      (by
        simp only [monitored, readAt, path1, pricer1, List.getElem?_cons_succ,
          List.getElem?_cons_zero, bind]
        simp only [Except.bind, pure, Except.pure]
        norm_num)
      (by
        simp only [bridgePrice, readAt, path1, gen1, List.getElem?_cons_succ,
          List.getElem?_cons_zero, bind]
        simp only [Except.bind, pure, Except.pure, Except.map]
        norm_num [ratOps, pricer1])
      (by norm_num [pricer1]) (by rfl) (by rfl)⟩

end PathPricerTheorems

section WalkInvariants

open AutocallPathPricer Examples

theorem readAt_ok_iff {R : Type} (what : String) (xs : List R) (i : Nat) (x : R) :
    readAt what xs i = .ok x ↔ xs[i]? = some x := by
  unfold readAt
  cases h : xs[i]? <;> simp

theorem readAt_error {R : Type} (what : String) (xs : List R) (i : Nat) (e : Failure) :
    readAt what xs i = .error e → e = .undefined what := by
  unfold readAt
  cases h : xs[i]? <;> simp
  exact fun h => h.symm

theorem readBack_error {R : Type} (what : String) (xs : List R) (e : Failure) :
    readBack what xs = .error e → e = .undefined what := by
  unfold readBack
  cases h : xs.getLast? <;> simp
  exact fun h => h.symm

theorem bridgePrice_ok {R : Type} [LinearOrderedField R] (ops : MathOps R)
    (pricer : AutocallPathPricer R) (path : Path R) (u : List R) (i : Nat) (p q y : R)
    (h : bridgePrice ops pricer path u i p = .ok (q, y)) : path.values[i + 1]? = some q := by
  unfold bridgePrice at h
  cases h1 : readAt "path[i+1]" path.values (i + 1) with
  | error e => simp [h1, bind, Except.bind] at h
  | ok v1 =>
    cases h2 : readAt "timeGrid[i]" path.timeGrid.times i with
    | error e => simp [h1, h2, bind, Except.bind] at h
    | ok v2 =>
      cases h3 : readAt "timeGrid.dt(i)" path.timeGrid.dt i with
      | error e => simp [h1, h2, h3, bind, Except.bind] at h
      | ok v3 =>
        cases h4 : readAt "u[i]" u i with
        | error e => simp [h1, h2, h3, h4, bind, Except.bind] at h
        | ok v4 =>
          simp only [h1, h2, h3, h4, bind, Except.bind, pure, Except.pure, Except.ok.injEq,
            Prod.mk.injEq] at h
          rw [← h.1]
          exact (readAt_ok_iff _ _ _ _).mp h1

theorem bridgePrice_error {R : Type} [LinearOrderedField R] (ops : MathOps R)
    (pricer : AutocallPathPricer R) (path : Path R) (u : List R) (i : Nat) (p : R)
    (e : Failure) (h : bridgePrice ops pricer path u i p = .error e) :
    ∃ what, e = .undefined what := by
  unfold bridgePrice at h
  cases h1 : readAt "path[i+1]" path.values (i + 1) with
  | error e1 =>
    simp only [h1, bind, Except.bind, Except.error.injEq] at h
    exact ⟨_, h ▸ readAt_error _ _ _ _ h1⟩
  | ok v1 =>
    cases h2 : readAt "timeGrid[i]" path.timeGrid.times i with
    | error e2 =>
      simp only [h1, h2, bind, Except.bind, Except.error.injEq] at h
      exact ⟨_, h ▸ readAt_error _ _ _ _ h2⟩
    | ok v2 =>
      cases h3 : readAt "timeGrid.dt(i)" path.timeGrid.dt i with
      | error e3 =>
        simp only [h1, h2, h3, bind, Except.bind, Except.error.injEq] at h
        exact ⟨_, h ▸ readAt_error _ _ _ _ h3⟩
      | ok v3 =>
        cases h4 : readAt "u[i]" u i with
        | error e4 =>
          simp only [h1, h2, h3, h4, bind, Except.bind, Except.error.injEq] at h
          exact ⟨_, h ▸ readAt_error _ _ _ _ h4⟩
        | ok v4 => simp [h1, h2, h3, h4, bind, Except.bind, pure, Except.pure] at h

theorem monitored_error {R : Type} [LinearOrderedField R]
    (pricer : AutocallPathPricer R) (path : Path R) (i k : Nat)
    (e : Failure) (h : monitored pricer path i k = .error e) :
    ∃ what, e = .undefined what := by
  unfold monitored at h
  cases h1 : readAt "timeGrid[i]" path.timeGrid.times i with
  | error e1 =>
    simp only [h1, bind, Except.bind, Except.error.injEq] at h
    exact ⟨_, h ▸ readAt_error _ _ _ _ h1⟩
  | ok v1 =>
    cases h2 : readAt "fixings_[knockNode]" pricer.fixings_ k with
    | error e2 =>
      simp only [h1, h2, bind, Except.bind, Except.error.injEq] at h
      exact ⟨_, h ▸ readAt_error _ _ _ _ h2⟩
    | ok v2 =>
      by_cases hgt : v1 > v2
      · cases h3 : readAt "fixings_[knockNode + 1]" pricer.fixings_ (k + 1) with
        | error e3 =>
          simp only [h1, h2, h3, hgt, if_true, bind, Except.bind, Except.error.injEq] at h
          exact ⟨_, h ▸ readAt_error _ _ _ _ h3⟩
        | ok v3 => simp [h1, h2, h3, hgt, bind, Except.bind, pure, Except.pure] at h
      · simp [h1, h2, hgt, bind, Except.bind, pure, Except.pure] at h

/-- What a successful iteration does: either it breaks (monitored, `y ≥ koBarrier_`) and only
sets `isKnockOut` and `ko`, or it completes and ends with `finishStep`. -/
theorem step_ok {R : Type} [LinearOrderedField R] (ops : MathOps R)
    (pricer : AutocallPathPricer R) (path : Path R) (u : List R) (i : Nat)
    (s s1 : WalkState R) (h : step ops pricer path u i s = .ok s1) :
    ∃ q y m, bridgePrice ops pricer path u i s.asset_price = .ok (q, y) ∧
      monitored pricer path i s.knockNode = .ok m ∧
      ((m = true ∧ y ≥ pricer.koBarrier_ ∧ s1 = { s with isKnockOut := true, ko := i }) ∨
       (¬ (m = true ∧ y ≥ pricer.koBarrier_) ∧
        s1 = finishStep pricer q y
          (if m = true then
            (if (!s.isKnockOut) = true then { s with knockNode := s.knockNode + 1 } else s)
           else s))) := by
  unfold step at h
  cases hb : bridgePrice ops pricer path u i s.asset_price with
  | error e => simp [hb, bind, Except.bind] at h
  | ok p =>
    obtain ⟨q, y⟩ := p
    cases hm : monitored pricer path i s.knockNode with
    | error e => simp [hb, hm, bind, Except.bind] at h
    | ok m =>
      refine ⟨q, y, m, rfl, rfl, ?_⟩
      simp only [hb, hm, bind, Except.bind, pure, Except.pure] at h
      cases m with
      | true =>
        by_cases hy : y ≥ pricer.koBarrier_
        · left
          simp only [hy, if_true, Except.ok.injEq] at h
          exact ⟨rfl, hy, h.symm⟩
        · right
          simp only [hy, if_true, if_false, Except.ok.injEq] at h
          exact ⟨fun hh => hy hh.2, by simpa using h.symm⟩
      | false =>
        right
        simp only [Bool.false_eq_true, if_false, Except.ok.injEq] at h
        exact ⟨fun hh => by simp at hh, by simpa using h.symm⟩

theorem step_error {R : Type} [LinearOrderedField R] (ops : MathOps R)
    (pricer : AutocallPathPricer R) (path : Path R) (u : List R) (i : Nat)
    (s : WalkState R) (e : Failure) (h : step ops pricer path u i s = .error e) :
    ∃ what, e = .undefined what := by
  unfold step at h
  cases hb : bridgePrice ops pricer path u i s.asset_price with
  | error e1 =>
    simp only [hb, bind, Except.bind, Except.error.injEq] at h
    exact h ▸ bridgePrice_error ops pricer path u i _ e1 hb
  | ok p =>
    obtain ⟨q, y⟩ := p
    cases hm : monitored pricer path i s.knockNode with
    | error e2 =>
      simp only [hb, hm, bind, Except.bind, Except.error.injEq] at h
      exact h ▸ monitored_error pricer path i _ e2 hm
    | ok m =>
      simp only [hb, hm, bind, Except.bind, pure, Except.pure] at h
      split at h
      · split at h <;> simp at h
      · simp at h

theorem walk_error {R : Type} [LinearOrderedField R] (ops : MathOps R)
    (pricer : AutocallPathPricer R) (path : Path R) (u : List R) :
    ∀ (k i : Nat) (s : WalkState R) (e : Failure),
      walk ops pricer path u k i s = .error e → ∃ what, e = .undefined what := by
  intro k
  induction k with
  | zero => intro i s e h; simp [walk, pure, Except.pure] at h
  | succ k ih =>
    intro i s e h
    simp only [walk, bind, Except.bind] at h
    cases hstep : step ops pricer path u i s with
    | error e1 =>
      simp only [hstep, Except.error.injEq] at h
      exact h ▸ step_error ops pricer path u i s e1 hstep
    | ok s1 =>
      simp only [hstep] at h
      by_cases h1 : s1.isKnockOut = true
      · simp [h1, pure, Except.pure] at h
      · have h1' : s1.isKnockOut = false := by simpa using h1
        simp only [h1', Bool.false_eq_true, if_false] at h
        exact ih (i + 1) s1 e h

theorem settle_error {R : Type} [LinearOrderedField R]
    (pricer : AutocallPathPricer R) (path : Path R) (s : WalkState R) (e : Failure)
    (h : settle pricer path s = .error e) : ∃ what, e = .undefined what := by
  unfold settle at h
  split at h
  · cases h1 : readBack "timeGrid.back()" path.timeGrid.times with
    | error e1 =>
      simp only [h1, bind, Except.bind, Except.error.injEq] at h
      exact ⟨_, h ▸ readBack_error _ _ _ h1⟩
    | ok v1 =>
      cases h2 : readBack "discounts_.back()" pricer.discounts_ with
      | error e2 =>
        simp only [h1, h2, bind, Except.bind, Except.error.injEq] at h
        exact ⟨_, h ▸ readBack_error _ _ _ h2⟩
      | ok v2 => simp [h1, h2, bind, Except.bind, pure, Except.pure] at h
  · split at h
    · cases h1 : readAt "timeGrid[ko]" path.timeGrid.times s.ko with
      | error e1 =>
        simp only [h1, bind, Except.bind, Except.error.injEq] at h
        exact ⟨_, h ▸ readAt_error _ _ _ _ h1⟩
      | ok v1 =>
        cases h2 : readAt "discounts_[ko]" pricer.discounts_ s.ko with
        | error e2 =>
          simp only [h1, h2, bind, Except.bind, Except.error.injEq] at h
          exact ⟨_, h ▸ readAt_error _ _ _ _ h2⟩
        | ok v2 => simp [h1, h2, bind, Except.bind, pure, Except.pure] at h
    · split at h
      · cases h1 : readBack "discounts_.back()" pricer.discounts_ with
        | error e1 =>
          simp only [h1, bind, Except.bind, Except.error.injEq] at h
          exact ⟨_, h ▸ readBack_error _ _ _ h1⟩
        | ok v1 => simp [h1, bind, Except.bind, pure, Except.pure] at h
      · simp [pure, Except.pure] at h

end WalkInvariants

section PathPricerPayoffs

open AutocallPathPricer Examples

/-- Along a walk that does not knock out, `asset_price` tracks the path node, and the knock-in
flag stays off as long as every bridge-corrected price of the steps taken is above
`kiBarrier_`. -/
theorem walk_tracks {R : Type} [LinearOrderedField R] (ops : MathOps R)
    (pricer : AutocallPathPricer R) (path : Path R) (u : List R) :
    ∀ (k i : Nat) (s s' : WalkState R),
      walk ops pricer path u k i s = .ok s' → s'.isKnockOut = false →
      path.values[i]? = some s.asset_price →
      path.values[i + k]? = some s'.asset_price ∧
      (s.isOptionActive = false →
        (∀ j p q y, i ≤ j → j < i + k → path.values[j]? = some p →
          bridgePrice ops pricer path u j p = .ok (q, y) → pricer.kiBarrier_ < y) →
        s'.isOptionActive = false) := by
  intro k
  induction k with
  | zero =>
    intro i s s' h _ hv
    simp only [walk, pure, Except.pure, Except.ok.injEq] at h
    subst h
    exact ⟨by simpa using hv, fun ha _ => ha⟩
  | succ k ih =>
    intro i s s' h hk hv
    simp only [walk, bind, Except.bind] at h
    cases hstep : step ops pricer path u i s with
    | error e => simp [hstep] at h
    | ok s1 =>
      simp only [hstep] at h
      by_cases h1 : s1.isKnockOut = true
      · simp only [h1, if_true, pure, Except.pure, Except.ok.injEq] at h
        rw [← h, h1] at hk
        exact absurd hk (by simp)
      · have h1' : s1.isKnockOut = false := by simpa using h1
        simp only [h1', Bool.false_eq_true, if_false] at h
        obtain ⟨q, y, m, hb, _, hcase⟩ := step_ok ops pricer path u i s s1 hstep
        have hq := bridgePrice_ok ops pricer path u i _ q y hb
        rcases hcase with ⟨_, _, hs1⟩ | ⟨_, hs1⟩
        · rw [hs1] at h1'
          simp at h1'
        · have hprice : s1.asset_price = q := by rw [hs1]; rfl
          have hv1 : path.values[i + 1]? = some s1.asset_price := by rw [hprice]; exact hq
          obtain ⟨ihv, iha⟩ := ih (i + 1) s1 s' h hk hv1
          have hidx : i + 1 + k = i + (k + 1) := by omega
          refine ⟨by rw [← hidx]; exact ihv, fun ha hall => ?_⟩
          apply iha
          · have hy : pricer.kiBarrier_ < y :=
              hall i s.asset_price q y (le_refl i) (by omega) hv hb
            have hy' : ¬ y ≤ pricer.kiBarrier_ := not_le.mpr hy
            rw [hs1]
            cases m <;> cases hko : s.isKnockOut <;> simp [finishStep, hy', ha]
          · intro j p q' y' hij hjk
            exact hall j p q' y' (by omega) (by omega)

theorem operator_of_walk {R : Type} [LinearOrderedField R] (ops : MathOps R)
    (pricer : AutocallPathPricer R) (gen : SequenceGenerator R) (path : Path R)
    (front : R) (s : WalkState R)
    (hn : path.length > 1) (hfront : path.values[0]? = some front)
    (hwalk : walk ops pricer path (gen.sequences gen.drawn) (path.length - 1) 0
      (initial front) = .ok s) :
    (operator ops pricer gen path).1 = settle pricer path s := by
  have hf : readAt "path.front()" path.values 0 = .ok front := (readAt_ok_iff _ _ _ _).mpr hfront
  simp [operator, hn, hf, SequenceGenerator.nextSequence, hwalk, bind, Except.bind]

/-- Knock-out at step `i`: the walk stops with the locals of step `i` (only `isKnockOut` and
`ko` changed) and the payoff is `(rebate_ * timeGrid[i] + margin_) * discounts_[i]`. -/
theorem operator_knock_out {R : Type} [LinearOrderedField R] (ops : MathOps R)
    (pricer : AutocallPathPricer R) (gen : SequenceGenerator R) (path : Path R)
    (i : Nat) (front y t d : R) (s : WalkState R)
    (hi : i + 1 < path.length)
    (hfront : path.values[0]? = some front)
    (hreach : walk ops pricer path (gen.sequences gen.drawn) i 0 (initial front) = .ok s)
    (hno : s.isKnockOut = false)
    (hmon : monitored pricer path i s.knockNode = .ok true)
    (hy : (bridgePrice ops pricer path (gen.sequences gen.drawn) i s.asset_price).map Prod.snd
      = .ok y)
    (hko : y ≥ pricer.koBarrier_)
    (ht : path.timeGrid.times[i]? = some t) (hd : pricer.discounts_[i]? = some d) :
    walk ops pricer path (gen.sequences gen.drawn) (path.length - 1) 0 (initial front) =
      .ok { s with isKnockOut := true, ko := i } ∧
    (operator ops pricer gen path).1 = .ok ((pricer.rebate_ * t + pricer.margin_) * d) := by
  have hn : path.length > 1 := by omega
  cases hb : bridgePrice ops pricer path (gen.sequences gen.drawn) i s.asset_price with
  | error e => simp [hb, Except.map] at hy
  | ok p =>
    obtain ⟨q, y'⟩ := p
    simp only [hb, Except.map, Except.ok.injEq] at hy
    subst hy
    have hstep : step ops pricer path (gen.sequences gen.drawn) i s =
        .ok { s with isKnockOut := true, ko := i } := by
      simp [step, hb, hmon, hko, bind, Except.bind, pure, Except.pure]
    have hsplit : path.length - 1 = i + ((path.length - 2 - i) + 1) := by omega
    have hwalk : walk ops pricer path (gen.sequences gen.drawn) (path.length - 1) 0
        (initial front) = .ok { s with isKnockOut := true, ko := i } := by
      rw [hsplit, walk_prefix ops pricer path _ i _ 0 (initial front) s hreach hno]
      rw [Nat.zero_add]
      exact walk_break ops pricer path _ _ i s _ hstep rfl
    have hsettle : settle pricer path { s with isKnockOut := true, ko := i } =
        .ok ((pricer.rebate_ * t + pricer.margin_) * d) := by
      simp [settle, readAt, ht, hd, bind, Except.bind, pure, Except.pure]
    exact ⟨hwalk, by rw [operator_of_walk ops pricer gen path front _ hn hfront hwalk, hsettle]⟩

/-- Claim C11 (no knock-out, no knock-in).  For a path of at least two nodes: if the walk runs
through all steps without knocking out and the bridge-corrected price of every step is above
`kiBarrier_`, then `operator()` returns `(coupon_ * T + margin_) * D` with `T` the last time
of the time grid and `D` the last discount factor. -/
theorem C11_coupon_amount {R : Type} [LinearOrderedField R] (ops : MathOps R)
    (pricer : AutocallPathPricer R) (gen : SequenceGenerator R) (path : Path R)
    (front T D : R) (s : WalkState R)
    (hn : path.length > 1) (hfront : path.values[0]? = some front)
    (hwalk : walk ops pricer path (gen.sequences gen.drawn) (path.length - 1) 0
      (initial front) = .ok s)
    (hno : s.isKnockOut = false)
    (hki : ∀ i p q y, i + 1 < path.length → path.values[i]? = some p →
      bridgePrice ops pricer path (gen.sequences gen.drawn) i p = .ok (q, y) →
      pricer.kiBarrier_ < y)
    (hT : path.timeGrid.times.getLast? = some T)
    (hD : pricer.discounts_.getLast? = some D) :
    (operator ops pricer gen path).1 = .ok ((pricer.coupon_ * T + pricer.margin_) * D) := by
  have hinact : s.isOptionActive = false :=
    (walk_tracks ops pricer path _ (path.length - 1) 0 (initial front) s hwalk hno
      (by simpa [initial] using hfront)).2 rfl
      (fun j p q y _ hj hp hb => hki j p q y (by omega) hp hb)
  rw [operator_of_walk ops pricer gen path front s hn hfront hwalk]
  simp [settle, hno, hinact, readBack, hT, hD, bind, Except.bind, pure, Except.pure]

/-- Claim C12 (no knock-out, knock-in active).  For a path of at least two nodes: if the walk
runs through all steps without knocking out and ends with the knock-in flag set, then
`operator()` returns `(margin_ - max(strike - S, 0)) * D` with `S` the price at the last node
of the path and `D` the last discount factor. -/
theorem C12_put_amount {R : Type} [LinearOrderedField R] (ops : MathOps R)
    (pricer : AutocallPathPricer R) (gen : SequenceGenerator R) (path : Path R)
    (front S D : R) (s : WalkState R)
    (hn : path.length > 1) (hfront : path.values[0]? = some front)
    (hwalk : walk ops pricer path (gen.sequences gen.drawn) (path.length - 1) 0
      (initial front) = .ok s)
    (hno : s.isKnockOut = false) (hact : s.isOptionActive = true)
    (hS : path.values[path.length - 1]? = some S)
    (hD : pricer.discounts_.getLast? = some D) :
    (operator ops pricer gen path).1 =
      .ok ((pricer.margin_ - max (pricer.strike - S) 0) * D) := by
  have hprice : path.values[0 + (path.length - 1)]? = some s.asset_price :=
    (walk_tracks ops pricer path _ (path.length - 1) 0 (initial front) s hwalk hno
      (by simpa [initial] using hfront)).1
  rw [Nat.zero_add, hS] at hprice
  have hS' : s.asset_price = S := (Option.some.inj hprice).symm
  rw [operator_of_walk ops pricer gen path front s hn hfront hwalk]
  simp [settle, hno, hact, readBack, hD, payoff_, hS', bind, Except.bind, pure, Except.pure]

/-- Claim C13 (path length check).  For every path of length at most 1, `operator()` throws
"the path cannot be empty" and leaves the sequence generator untouched (no draw is consumed);
for every path of length at least 2 the outcome is not that exception. -/
theorem C13_path_length_check {R : Type} [LinearOrderedField R] (ops : MathOps R)
    (pricer : AutocallPathPricer R) (gen : SequenceGenerator R) (path : Path R) :
    (path.length ≤ 1 →
      operator ops pricer gen path = (.error (.error "the path cannot be empty"), gen)) ∧
    (2 ≤ path.length →
      (operator ops pricer gen path).1 ≠ .error (.error "the path cannot be empty")) := by
  constructor
  · intro h
    have h' : ¬ path.length > 1 := by omega
    simp [operator, h']
  · intro h
    have h' : path.length > 1 := by omega
    unfold operator
    simp only [h', not_true_eq_false, if_false]
    cases hf : readAt "path.front()" path.values 0 with
    | error e =>
      simp only
      rw [readAt_error _ _ _ _ hf]
      simp
    | ok front =>
      simp only [SequenceGenerator.nextSequence, bind, Except.bind]
      cases hw : walk ops pricer path (gen.sequences gen.drawn) (path.length - 1) 0
          (initial front) with
      | error e =>
        obtain ⟨w, hw'⟩ := walk_error ops pricer path _ _ _ _ e hw
        simp [hw']
      | ok s =>
        simp only
        cases hs : settle pricer path s with
        | error e =>
          obtain ⟨w, hs'⟩ := settle_error pricer path s e hs
          simp [hs']
        | ok v => simp

/-- Claim C14 (knock-out precedence).  If knock-out fires at step `i`, the walk stops there:
the final locals are those on entry to step `i` with only `isKnockOut` and `ko` changed, and
the amount is `(rebate_ * t + margin_) * d`.  A second run (any pricer, path, uniforms and math
functions) that also knocks out at step `i` and shares `rebate_`, `margin_`,
`timeGrid[i] = t` and `discounts_[i] = d` returns the same amount, whatever its knock-in flag
on entry to step `i` and whatever its path prices are. -/
theorem C14_knock_out_precedence {R : Type} [LinearOrderedField R] (ops ops2 : MathOps R)
    (pricer pricer2 : AutocallPathPricer R) (gen gen2 : SequenceGenerator R)
    (path path2 : Path R) (i : Nat) (front front2 y y2 t d : R) (s s2 : WalkState R)
    (hi : i + 1 < path.length)
    (hfront : path.values[0]? = some front)
    (hreach : walk ops pricer path (gen.sequences gen.drawn) i 0 (initial front) = .ok s)
    (hno : s.isKnockOut = false)
    (hmon : monitored pricer path i s.knockNode = .ok true)
    (hy : (bridgePrice ops pricer path (gen.sequences gen.drawn) i s.asset_price).map Prod.snd
      = .ok y)
    (hko : y ≥ pricer.koBarrier_)
    (ht : path.timeGrid.times[i]? = some t) (hd : pricer.discounts_[i]? = some d)
    (hi2 : i + 1 < path2.length)
    (hfront2 : path2.values[0]? = some front2)
    (hreach2 : walk ops2 pricer2 path2 (gen2.sequences gen2.drawn) i 0 (initial front2) =
      .ok s2)
    (hno2 : s2.isKnockOut = false)
    (hmon2 : monitored pricer2 path2 i s2.knockNode = .ok true)
    (hy2 : (bridgePrice ops2 pricer2 path2 (gen2.sequences gen2.drawn) i
      s2.asset_price).map Prod.snd = .ok y2)
    (hko2 : y2 ≥ pricer2.koBarrier_)
    (ht2 : path2.timeGrid.times[i]? = some t) (hd2 : pricer2.discounts_[i]? = some d)
    (hrebate : pricer2.rebate_ = pricer.rebate_) (hmargin : pricer2.margin_ = pricer.margin_) :
    walk ops pricer path (gen.sequences gen.drawn) (path.length - 1) 0 (initial front) =
      .ok { s with isKnockOut := true, ko := i } ∧
    (operator ops pricer gen path).1 = .ok ((pricer.rebate_ * t + pricer.margin_) * d) ∧
    (operator ops2 pricer2 gen2 path2).1 = (operator ops pricer gen path).1 := by
  obtain ⟨hw, hv⟩ := operator_knock_out ops pricer gen path i front y t d s hi hfront hreach
    hno hmon hy hko ht hd
  obtain ⟨_, hv2⟩ := operator_knock_out ops2 pricer2 gen2 path2 i front2 y2 t d s2 hi2 hfront2
    hreach2 hno2 hmon2 hy2 hko2 ht2 hd2
  exact ⟨hw, hv, by rw [hv, hv2, hrebate, hmargin]⟩

end PathPricerPayoffs

section PathPricerWitnesses

open AutocallPathPricer Examples

theorem walk_pricerQuiet :
    walk ratOps pricerQuiet path3 (gen3.sequences gen3.drawn) (path3.length - 1) 0
      (initial 100) = .ok ⟨false, false, 0, 1, 90⟩ := by
  simp only [Path.length, path3, List.length_cons, List.length_nil, walk, step, bridgePrice,
    monitored, readAt, gen3, initial, List.getElem?_cons_succ, List.getElem?_cons_zero, bind]
  simp only [Except.bind, pure, Except.pure]
  norm_num [ratOps, pricerQuiet, finishStep]

theorem walk_pricerActive :
    walk ratOps pricerActive path3 (gen3.sequences gen3.drawn) (path3.length - 1) 0
      (initial 100) = .ok ⟨true, false, 0, 1, 90⟩ := by
  simp only [Path.length, path3, List.length_cons, List.length_nil, walk, step, bridgePrice,
    monitored, readAt, gen3, initial, List.getElem?_cons_succ, List.getElem?_cons_zero, bind]
  simp only [Except.bind, pure, Except.pure]
  norm_num [ratOps, pricerActive, pricerQuiet, finishStep]

/-- Witness for C11: on the three-node path with barriers out of reach the amount is
`(2/10 * 1 + 1) * 92/100`. -/
theorem C11_coupon_amount_witness :
    (operator ratOps pricerQuiet gen3 path3).1 = .ok ((2 / 10 * 1 + 1) * (92 / 100)) :=
  C11_coupon_amount ratOps pricerQuiet gen3 path3 100 1 (92 / 100) ⟨false, false, 0, 1, 90⟩
    (by decide) (by rfl) walk_pricerQuiet (by rfl)
    (by
      intro i p q y hi hp hb
      have hlen : path3.length = 3 := rfl
      have hcases : i = 0 ∨ i = 1 := by omega
      rcases hcases with rfl | rfl
      · have hp' : p = 100 := by simpa [path3] using hp.symm
        subst hp'
        simp only [bridgePrice, readAt, path3, gen3, List.getElem?_cons_succ,
          List.getElem?_cons_zero, bind] at hb
        simp only [Except.bind, pure, Except.pure, Except.ok.injEq, Prod.mk.injEq] at hb
        rw [← hb.2]
        norm_num [ratOps, pricerQuiet]
      · have hp' : p = 101 := by simpa [path3] using hp.symm
        subst hp'
        simp only [bridgePrice, readAt, path3, gen3, List.getElem?_cons_succ,
          List.getElem?_cons_zero, bind] at hb
        simp only [Except.bind, pure, Except.pure, Except.ok.injEq, Prod.mk.injEq] at hb
        rw [← hb.2]
        norm_num [ratOps, pricerQuiet])
    (by rfl) (by rfl)

/-- Witness for C12: on the three-node path with the knock-in barrier above every price the
amount is `(1 - max(100 - 90, 0)) * 92/100`. -/
theorem C12_put_amount_witness :
    (operator ratOps pricerActive gen3 path3).1 =
      .ok ((1 - max (100 - 90) 0) * (92 / 100)) :=
  C12_put_amount ratOps pricerActive gen3 path3 100 90 (92 / 100) ⟨true, false, 0, 1, 90⟩
    (by decide) (by rfl) walk_pricerActive (by rfl) (by rfl) (by rfl) (by rfl)

/-- Witness for C13: the empty path is rejected and the generator keeps its draw count; the
three-node path is not rejected with that message. -/
theorem C13_path_length_check_witness :
    operator ratOps pricerQuiet gen3 ⟨⟨[], []⟩, []⟩ =
      (.error (.error "the path cannot be empty"), gen3) ∧
    (operator ratOps pricerQuiet gen3 path3).1 ≠ .error (.error "the path cannot be empty") :=
  ⟨(C13_path_length_check ratOps pricerQuiet gen3 ⟨⟨[], []⟩, []⟩).1 (by decide),
   (C13_path_length_check ratOps pricerQuiet gen3 path3).2 (by decide)⟩

theorem walk_pricer1 :
    walk ratOps pricer1 path1 (gen1.sequences gen1.drawn) 1 0 (initial 100) =
      .ok ⟨false, false, 0, 0, 101⟩ := by
  simp only [walk, step, bridgePrice, monitored, readAt, path1, gen1, initial,
    List.getElem?_cons_succ, List.getElem?_cons_zero, bind]
  simp only [Except.bind, pure, Except.pure]
  norm_num [ratOps, pricer1, finishStep]

theorem walk_pricer1Active :
    walk ratOps pricer1Active path1Tail (gen1.sequences gen1.drawn) 1 0 (initial 100) =
      .ok ⟨true, false, 0, 0, 101⟩ := by
  simp only [walk, step, bridgePrice, monitored, readAt, path1Tail, path1, gen1, initial,
    List.getElem?_cons_succ, List.getElem?_cons_zero, bind]
  simp only [Except.bind, pure, Except.pure]
  norm_num [ratOps, pricer1Active, pricer1, finishStep]

/-- Witness for C14: two runs that knock out at step 1, the second with the knock-in flag
already set at step 0 and other prices after the third node, return the same amount. -/
theorem C14_knock_out_precedence_witness :
    (operator ratOps pricer1 gen1 path1).1 = .ok ((1 / 10 * (1 / 4) + 1) * (98 / 100)) ∧
    (operator ratOps pricer1Active gen1 path1Tail).1 = (operator ratOps pricer1 gen1 path1).1 :=
  (C14_knock_out_precedence ratOps ratOps pricer1 pricer1Active gen1 gen1 path1 path1Tail 1
    100 100 (5172201 / 40400) (5172201 / 40400) (1 / 4) (98 / 100)
    ⟨false, false, 0, 0, 101⟩ ⟨true, false, 0, 0, 101⟩
    (by decide) (by rfl) walk_pricer1 (by rfl)
    (by
      simp only [monitored, readAt, path1, pricer1, List.getElem?_cons_succ,
        List.getElem?_cons_zero, bind]
      simp only [Except.bind, pure, Except.pure]
      norm_num)
    (by
      simp only [bridgePrice, readAt, path1, gen1, List.getElem?_cons_succ,
        List.getElem?_cons_zero, bind]
      simp only [Except.bind, pure, Except.pure, Except.map]
      norm_num [ratOps, pricer1])
    (by norm_num [pricer1]) (by rfl) (by rfl)
    (by decide) (by rfl) walk_pricer1Active (by rfl)
    (by
      simp only [monitored, readAt, path1Tail, path1, pricer1Active, pricer1,
        List.getElem?_cons_succ, List.getElem?_cons_zero, bind]
      simp only [Except.bind, pure, Except.pure]
      norm_num)
    (by
      simp only [bridgePrice, readAt, path1Tail, path1, gen1, List.getElem?_cons_succ,
        List.getElem?_cons_zero, bind]
      simp only [Except.bind, pure, Except.pure, Except.map]
      norm_num [ratOps, pricer1Active, pricer1])
    (by norm_num [pricer1Active, pricer1]) (by rfl) (by rfl) (by rfl) (by rfl)).2

end PathPricerWitnesses

section SetupTheorems

open Examples

/-- Counterexample to C15 as stated: with strike 0 and both barriers positive the constructor
succeeds. -/
theorem C15_counterexample :
    (0 : ℚ) ≤ 0 ∧
    AutocallPathPricer.construct (1 / 10 : ℚ) (2 / 10) [0, 1 / 2, 1] 80 103 0 1
      [1, 98 / 100, 96 / 100] (fun _ _ => 1 / 5) =
    .ok { rebate_ := 1 / 10, coupon_ := 2 / 10, fixings_ := [0, 1 / 2, 1], kiBarrier_ := 80,
          koBarrier_ := 103, strike := 0, margin_ := 1, discounts_ := [1, 98 / 100, 96 / 100],
          diffProcess_ := fun _ _ => 1 / 5 } := by
  refine ⟨le_refl 0, ?_⟩
  simp [AutocallPathPricer.construct]

/-- Claim C15, amended.  Constructing an `AutocallPathPricer` throws whenever `strike < 0`,
`kiBarrier ≤ 0` or `koBarrier ≤ 0`, and succeeds, storing its arguments, when `strike ≥ 0` and
both barriers are strictly positive (a zero strike is accepted). -/
theorem C15_constructor_checks {R : Type} [LinearOrderedField R]
    (rebate coupon : R) (fixings : List R) (kiBarrier koBarrier strike margin : R)
    (discounts : List R) (diffProcess : R → R → R) :
    ((strike < 0 ∨ kiBarrier ≤ 0 ∨ koBarrier ≤ 0) →
      ∃ msg, AutocallPathPricer.construct rebate coupon fixings kiBarrier koBarrier strike
        margin discounts diffProcess = .error (.error msg)) ∧
    ((0 ≤ strike ∧ 0 < kiBarrier ∧ 0 < koBarrier) →
      AutocallPathPricer.construct rebate coupon fixings kiBarrier koBarrier strike
        margin discounts diffProcess =
      .ok { rebate_ := rebate, coupon_ := coupon, fixings_ := fixings,
            kiBarrier_ := kiBarrier, koBarrier_ := koBarrier, strike := strike,
            margin_ := margin, discounts_ := discounts, diffProcess_ := diffProcess }) := by
  constructor
  · intro h
    unfold AutocallPathPricer.construct
    by_cases hs : strike ≥ 0
    · by_cases hki : kiBarrier > 0
      · by_cases hko : koBarrier > 0
        · rcases h with h | h | h
          · exact absurd hs (not_le.mpr h)
          · exact absurd hki (not_lt.mpr h)
          · exact absurd hko (not_lt.mpr h)
        · exact ⟨"kobarrier less/equal zero not allowed", by simp [hs, hki, hko]⟩
      · exact ⟨"kibarrier less/equal zero not allowed", by simp [hs, hki]⟩
    · exact ⟨"strike less than zero not allowed", by simp [hs]⟩
  · rintro ⟨hs, hki, hko⟩
    simp [AutocallPathPricer.construct, hs, hki, hko]

/-- Witness for the amended C15: a negative strike is rejected, a zero strike accepted. -/
theorem C15_constructor_checks_witness :
    (∃ msg, AutocallPathPricer.construct (1 / 10 : ℚ) (2 / 10) [] 80 103 (-1) 1 []
      (fun _ _ => 1 / 5) = .error (.error msg)) ∧
    AutocallPathPricer.construct (1 / 10 : ℚ) (2 / 10) [] 80 103 0 1 [] (fun _ _ => 1 / 5) =
      .ok { rebate_ := 1 / 10, coupon_ := 2 / 10, fixings_ := [], kiBarrier_ := 80,
            koBarrier_ := 103, strike := 0, margin_ := 1, discounts_ := [],
            diffProcess_ := fun _ _ => 1 / 5 } :=
  ⟨(C15_constructor_checks (1 / 10 : ℚ) (2 / 10) [] 80 103 (-1) 1 [] (fun _ _ => 1 / 5)).1
      (Or.inl (by norm_num)),
   (C15_constructor_checks (1 / 10 : ℚ) (2 / 10) [] 80 103 0 1 [] (fun _ _ => 1 / 5)).2
      ⟨le_refl 0, by norm_num, by norm_num⟩⟩

/-- Claim C16 (validation of the autocall arguments).  `validate()` throws whenever one of
`rebate`, `coupon`, `kiBarrier`, `koBarrier` still equals the null sentinel, in particular on
default-constructed arguments; when the base-class validation passes and none of the four is
the sentinel, it returns normally. -/
theorem C16_validate {R : Type} [LinearOrderedField R] (null margin0 : R)
    (base : Except Failure Unit) (a : AutocallArguments R) :
    ((a.rebate = null ∨ a.coupon = null ∨ a.kiBarrier = null ∨ a.koBarrier = null) →
      ∃ e, AutocallArguments.validate null base a = .error e) ∧
    (∃ e, AutocallArguments.validate null base (AutocallArguments.arguments null margin0) =
      .error e) ∧
    ((base = .ok () ∧ a.rebate ≠ null ∧ a.coupon ≠ null ∧ a.kiBarrier ≠ null ∧
        a.koBarrier ≠ null) →
      AutocallArguments.validate null base a = .ok ()) := by
  have key : ∀ b : AutocallArguments R,
      (b.rebate = null ∨ b.coupon = null ∨ b.kiBarrier = null ∨ b.koBarrier = null) →
      ∃ e, AutocallArguments.validate null base b = .error e := by
    intro b h
    unfold AutocallArguments.validate
    cases base with
    | error e => exact ⟨e, rfl⟩
    | ok u =>
      by_cases h1 : b.rebate = null
      · exact ⟨.error "no rebate given", by simp [h1]⟩
      · by_cases h2 : b.coupon = null
        · exact ⟨.error "no coupon given", by simp [h1, h2]⟩
        · by_cases h3 : b.kiBarrier = null
          · exact ⟨.error "no kiBarrier given", by simp [h1, h2, h3]⟩
          · by_cases h4 : b.koBarrier = null
            · exact ⟨.error "no koBarrier given", by simp [h1, h2, h3, h4]⟩
            · rcases h with h | h | h | h <;> contradiction
  refine ⟨key a, key _ (Or.inl rfl), ?_⟩
  rintro ⟨hb, h1, h2, h3, h4⟩
  simp [AutocallArguments.validate, hb, h1, h2, h3, h4]

/-- Witness for C16: with sentinel `-1`, arguments with a missing coupon are rejected and
fully set arguments pass. -/
theorem C16_validate_witness :
    (∃ e, AutocallArguments.validate (-1 : ℚ) (.ok ())
      { rebate := 1 / 10, coupon := -1, kiBarrier := 80, koBarrier := 103, margin := 1,
        fixingDates := [] } = .error e) ∧
    AutocallArguments.validate (-1 : ℚ) (.ok ())
      { rebate := 1 / 10, coupon := 2 / 10, kiBarrier := 80, koBarrier := 103, margin := 1,
        fixingDates := [] } = .ok () :=
  ⟨(C16_validate (-1 : ℚ) 0 (.ok ())
      { rebate := 1 / 10, coupon := -1, kiBarrier := 80, koBarrier := 103, margin := 1,
        fixingDates := [] }).1 (Or.inr (Or.inl rfl)),
   (C16_validate (-1 : ℚ) 0 (.ok ())
      { rebate := 1 / 10, coupon := 2 / 10, kiBarrier := 80, koBarrier := 103, margin := 1,
        fixingDates := [] }).2.2 ⟨rfl, by norm_num, by norm_num, by norm_num, by norm_num⟩⟩

theorem MCAutocallEngine.construct_ok_iff {R : Type} (timeSteps timeStepsPerYear : Nat)
    (brownianBridge antitheticVariate : Bool) (requiredSamples : Nat) (requiredTolerance : R)
    (maxSamples : Nat) (isBiased : Bool) (seed : Nat) :
    (∃ engine, MCAutocallEngine.construct timeSteps timeStepsPerYear brownianBridge
        antitheticVariate requiredSamples requiredTolerance maxSamples isBiased seed =
        .ok engine) ↔
    ((timeSteps ≠ nullSize ∧ timeStepsPerYear = nullSize ∧ 0 < timeSteps) ∨
     (timeSteps = nullSize ∧ timeStepsPerYear ≠ nullSize ∧ 0 < timeStepsPerYear)) := by
  unfold MCAutocallEngine.construct
  by_cases h1 : timeSteps = nullSize <;> by_cases h2 : timeStepsPerYear = nullSize <;>
    by_cases h3 : timeSteps = 0 <;> by_cases h4 : timeStepsPerYear = 0 <;>
    simp [h1, h2, h3, h4, nullSize] <;> simp_all [nullSize] <;> omega

/-- Claim C17 (step-count requirements).  Constructing an `MCAutocallEngine`, and converting
a `MakeMCAutocallEngine` to an engine, succeeds if and only if exactly one of the two step
counts differs from the null sentinel and that one is positive; in particular it fails when
both are the sentinel, when both are given, and when `timeSteps = 0` or
`timeStepsPerYear = 0`. -/
theorem C17_step_counts {R : Type} (timeSteps timeStepsPerYear : Nat)
    (brownianBridge antitheticVariate : Bool) (requiredSamples : Nat) (requiredTolerance : R)
    (maxSamples : Nat) (isBiased : Bool) (seed : Nat) (m : MakeMCAutocallEngine R) :
    ((∃ engine, MCAutocallEngine.construct timeSteps timeStepsPerYear brownianBridge
        antitheticVariate requiredSamples requiredTolerance maxSamples isBiased seed =
        .ok engine) ↔
      ((timeSteps ≠ nullSize ∧ timeStepsPerYear = nullSize ∧ 0 < timeSteps) ∨
       (timeSteps = nullSize ∧ timeStepsPerYear ≠ nullSize ∧ 0 < timeStepsPerYear))) ∧
    ((∃ engine, m.toPricingEngine = .ok engine) ↔
      ((m.steps_ ≠ nullSize ∧ m.stepsPerYear_ = nullSize ∧ 0 < m.steps_) ∨
       (m.steps_ = nullSize ∧ m.stepsPerYear_ ≠ nullSize ∧ 0 < m.stepsPerYear_))) := by
  refine ⟨MCAutocallEngine.construct_ok_iff _ _ _ _ _ _ _ _ _, ?_⟩
  unfold MakeMCAutocallEngine.toPricingEngine
  by_cases hA : m.steps_ ≠ nullSize ∨ m.stepsPerYear_ ≠ nullSize
  · by_cases hB : m.steps_ = nullSize ∨ m.stepsPerYear_ = nullSize
    · simp only [hA, hB, not_true_eq_false, if_false]
      exact MCAutocallEngine.construct_ok_iff _ _ _ _ _ _ _ _ _
    · simp only [hA, hB, not_true_eq_false, not_false_eq_true, if_true, if_false]
      constructor
      · rintro ⟨e, he⟩
        exact absurd he (by simp)
      · rintro (⟨_, h, _⟩ | ⟨h, _, _⟩)
        · exact absurd (Or.inr h) hB
        · exact absurd (Or.inl h) hB
  · simp only [hA, not_false_eq_true, if_true]
    constructor
    · rintro ⟨e, he⟩
      exact absurd he (by simp)
    · rintro (⟨h, _, _⟩ | ⟨_, h, _⟩)
      · exact absurd (Or.inl h) hA
      · exact absurd (Or.inr h) hA

end SetupTheorems

section CalculateGuards

open Examples

/-- Claim C18, evaluated on the code.  `MCAutocallEngine::calculate` tests `spot >= 0.0`:
for a negative spot it throws "negative or null underlying given" without running the
simulation and without writing a result, but for `spot = 0` it does not throw: it runs the
simulation and writes the sample mean as the value. -/
theorem C18_spot_check {R : Type} [LinearOrderedField R] (spot : R)
    (allowsErrorEstimate : Bool) (mcSimulation : Unit → Except Failure (R × R))
    (results : McResults R) :
    (spot < 0 →
      MCAutocallEngine.calculate spot allowsErrorEstimate mcSimulation results =
        (.error (.error "negative or null underlying given"), results)) ∧
    (∀ mean err, spot = 0 → mcSimulation () = .ok (mean, err) →
      (MCAutocallEngine.calculate spot allowsErrorEstimate mcSimulation results).1 = .ok () ∧
      (MCAutocallEngine.calculate spot allowsErrorEstimate mcSimulation results).2.value =
        mean) := by
  constructor
  · intro h
    have h' : ¬ spot ≥ 0 := not_le.mpr h
    simp [MCAutocallEngine.calculate, h']
  · intro mean err h hsim
    subst h
    cases allowsErrorEstimate <;> simp [MCAutocallEngine.calculate, hsim]

/-- Witness for C18: with spot 0 and a simulation whose mean is 5 the call returns normally
with value 5. -/
theorem C18_spot_check_witness :
    (MCAutocallEngine.calculate (0 : ℚ) true (fun _ => .ok (5, 1 / 10)) ⟨-1, -1⟩).1 = .ok () ∧
    (MCAutocallEngine.calculate (0 : ℚ) true (fun _ => .ok (5, 1 / 10)) ⟨-1, -1⟩).2.value = 5 :=
  (C18_spot_check (0 : ℚ) true (fun _ => .ok (5, 1 / 10)) ⟨-1, -1⟩).2 5 (1 / 10) rfl rfl

/-- Claim C19 (input guards of the analytic engine).  `calculate` throws when the payoff is
not a striked-type payoff, when `spot ≤ 0` and when `barrier ≤ 0`; in each case `results_` is
left exactly as it was, and the outcome is the same whatever the math functions, the European
delegate and the content of `eta` are (no pre-check or table formula is evaluated). -/
theorem C19_input_guards {R : Type} [LinearOrderedField R]
    (process : GeneralizedBlackScholesProcess R) (args : BarrierArguments R)
    (results : Results R)
    (hbad : args.payoff = .NonStriked ∨ process.x0 ≤ 0 ∨ args.barrier ≤ 0) :
    ∃ msg,
      msg ∈ ["non-striked payoff given", "negative or null underlying given",
        "positive barrier value required"] ∧
      ∀ (ops2 : MathOps R) (vanilla2 : Payoff R → VanillaOption R) (eta2 : R),
        AnalyticBinaryBarrierEngine.calculate ops2 process args vanilla2 eta2 results =
          (.error (.error msg), results) := by
  unfold AnalyticBinaryBarrierEngine.calculate
  cases hp : args.payoff.asStriked with
  | none => exact ⟨"non-striked payoff given", by simp, fun _ _ _ => rfl⟩
  | some p =>
    by_cases hs : process.x0 > 0
    · by_cases hb : args.barrier > 0
      · rcases hbad with h | h | h
        · rw [h] at hp
          simp [Payoff.asStriked] at hp
        · exact absurd hs (not_lt.mpr h)
        · exact absurd hb (not_lt.mpr h)
      · exact ⟨"positive barrier value required", by simp, fun _ _ _ => by simp [hs, hb]⟩
    · exact ⟨"negative or null underlying given", by simp, fun _ _ _ => by simp [hs]⟩

/-- Witness for C19: spot 0 with a striked payoff. -/
theorem C19_input_guards_witness :
    ∃ msg,
      msg ∈ ["non-striked payoff given", "negative or null underlying given",
        "positive barrier value required"] ∧
      ∀ (ops2 : MathOps ℚ) (vanilla2 : Payoff ℚ → VanillaOption ℚ) (eta2 : ℚ),
        AnalyticBinaryBarrierEngine.calculate ops2 { process105 with x0 := 0 }
          ⟨cashCall102, .DownIn, 100, 0, true⟩ vanilla2 eta2 results0 =
          (.error (.error msg), results0) :=
  C19_input_guards { process105 with x0 := 0 } ⟨cashCall102, .DownIn, 100, 0, true⟩
    results0 (Or.inr (Or.inl (le_refl 0)))

/-- Claim C20, evaluated on the code.  `TouchOption::arguments::validate` rejects nothing: it
returns normally for every touch type and all barrier and rebate vectors, including empty
vectors and non-positive barriers. -/
theorem C20_validate_accepts_all {R : Type} (a : TouchArguments R) :
    TouchArguments.validate a = .ok () ∧
    TouchArguments.validate
      ({ touchType := .OneTouchUp, barrierHigh := [], barrierLow := [], rebateHigh := [],
         rebateLow := [], payoffAtExpiry := a.payoffAtExpiry } : TouchArguments R) = .ok () :=
  ⟨rfl, rfl⟩

end CalculateGuards

section Numerics

open MeasureTheory

theorem gauss_rewrite : (fun t : ℝ => Real.exp (-(t ^ 2) / 2)) = fun t => Real.exp (-(1 / 2) * t ^ 2) := by
  funext t
  congr 1
  ring

theorem gauss_integrable : Integrable (fun t : ℝ => Real.exp (-(t ^ 2) / 2)) := by
  rw [gauss_rewrite]
  exact integrable_exp_neg_mul_sq (by norm_num)

theorem gauss_Iic_zero : ∫ t in Set.Iic (0 : ℝ), Real.exp (-(t ^ 2) / 2) = Real.sqrt (2 * Real.pi) / 2 := by
  have htot : ∫ t : ℝ, Real.exp (-(t ^ 2) / 2) = Real.sqrt (2 * Real.pi) := by
    rw [gauss_rewrite, integral_gaussian]
    congr 1
    ring
  have hIoi : ∫ t in Set.Ioi (0 : ℝ), Real.exp (-(t ^ 2) / 2) = Real.sqrt (2 * Real.pi) / 2 := by
    rw [gauss_rewrite, integral_gaussian_Ioi]
    congr 2
    ring
  have hsplit := integral_add_compl (measurableSet_Ioi (a := (0 : ℝ))) gauss_integrable
  rw [Set.compl_Ioi, hIoi, htot] at hsplit
  linarith

theorem cumulativeNormal_eq (x : ℝ) :
    cumulativeNormal x = 1 / 2 + (Real.sqrt (2 * Real.pi))⁻¹ * ∫ t in (0 : ℝ)..x, Real.exp (-(t ^ 2) / 2) := by
  unfold cumulativeNormal
  rw [MeasureTheory.integral_mul_left]
  have hsub := intervalIntegral.integral_Iic_sub_Iic (μ := volume)
    (gauss_integrable.integrableOn (s := Set.Iic (0 : ℝ)))
    (gauss_integrable.integrableOn (s := Set.Iic x))
  have hpos : 0 < Real.sqrt (2 * Real.pi) := Real.sqrt_pos.mpr (by positivity)
  have h0 := gauss_Iic_zero
  have : ∫ t in Set.Iic x, Real.exp (-(t ^ 2) / 2) =
      Real.sqrt (2 * Real.pi) / 2 + ∫ t in (0 : ℝ)..x, Real.exp (-(t ^ 2) / 2) := by
    linarith
  have hc : (Real.sqrt (2 * Real.pi))⁻¹ * (Real.sqrt (2 * Real.pi) / 2) = 1 / 2 := by
    field_simp
  rw [this, mul_add, hc]

theorem gauss_taylor_bound (n : ℕ) (hn : 0 < n) (t : ℝ) (ht : t ^ 2 ≤ 2) :
    |Real.exp (-(t ^ 2) / 2) - gaussTaylor n t| ≤
      (t ^ 2 / 2) ^ n * ((n + 1 : ℝ) / ((n.factorial : ℝ) * n)) := by
  have hx : |(-(t ^ 2) / 2)| ≤ 1 := by
    rw [abs_le]
    constructor <;> nlinarith [sq_nonneg t]
  have h := Real.exp_bound hx hn
  have habs : |(-(t ^ 2) / 2)| = t ^ 2 / 2 := by
    rw [abs_of_nonpos (by nlinarith [sq_nonneg t])]
    ring
  rw [habs] at h
  simpa [gaussTaylor, Nat.succ_eq_add_one] using h

theorem hasDerivAt_gaussTaylorPrim (n : ℕ) (x : ℝ) :
    HasDerivAt (gaussTaylorPrim n) (gaussTaylor n x) x := by
  unfold gaussTaylorPrim gaussTaylor
  have hterm : ∀ m ∈ Finset.range n,
      HasDerivAt (fun a : ℝ => (-1 / 2) ^ m / (m.factorial : ℝ) * (a ^ (2 * m + 1) / (2 * m + 1)))
        ((-(x ^ 2) / 2) ^ m / (m.factorial : ℝ)) x := by
    intro m _
    have h1 : HasDerivAt (fun a : ℝ => a ^ (2 * m + 1)) (((2 * m + 1 : ℕ) : ℝ) * x ^ (2 * m)) x := by
      simpa using hasDerivAt_pow (2 * m + 1) x
    have h2 := (h1.div_const ((2 : ℝ) * m + 1)).const_mul ((-1 / 2 : ℝ) ^ m / (m.factorial : ℝ))
    convert h2 using 1
    have hne : ((2 : ℝ) * m + 1) ≠ 0 := by positivity
    have hpow : (-(x ^ 2) / 2) ^ m = (-1 / 2) ^ m * x ^ (2 * m) := by
      rw [pow_mul, ← mul_pow]
      congr 1
      ring
    rw [hpow]
    push_cast
    field_simp
  have := HasDerivAt.sum hterm
  convert this using 1

theorem hasDerivAt_gaussErrPrim (n : ℕ) (x : ℝ) :
    HasDerivAt (gaussErrPrim n)
      ((x ^ 2 / 2) ^ n * ((n + 1 : ℝ) / ((n.factorial : ℝ) * n))) x := by
  unfold gaussErrPrim
  have h1 : HasDerivAt (fun a : ℝ => a ^ (2 * n + 1)) (((2 * n + 1 : ℕ) : ℝ) * x ^ (2 * n)) x := by
    simpa using hasDerivAt_pow (2 * n + 1) x
  have h2 := (h1.div_const ((2 : ℝ) ^ n * (2 * n + 1))).const_mul
    ((n + 1 : ℝ) / ((n.factorial : ℝ) * n))
  convert h2 using 1
  have hne : ((2 : ℝ) * n + 1) ≠ 0 := by positivity
  have hpow : (x ^ 2 / 2) ^ n = x ^ (2 * n) / 2 ^ n := by
    rw [div_pow, pow_mul]
  have hq : ((2 * n + 1 : ℕ) : ℝ) * x ^ (2 * n) / ((2 : ℝ) ^ n * (2 * n + 1)) =
      x ^ (2 * n) / 2 ^ n := by
    push_cast
    field_simp
    ring
  rw [hq, hpow]
  ring

theorem gauss_continuous : Continuous (fun t : ℝ => Real.exp (-(t ^ 2) / 2)) := by
  fun_prop

theorem gaussTaylor_continuous (n : ℕ) : Continuous (gaussTaylor n) := by
  unfold gaussTaylor
  fun_prop

theorem gaussErr_continuous (n : ℕ) :
    Continuous (fun t : ℝ => (t ^ 2 / 2) ^ n * ((n + 1 : ℝ) / ((n.factorial : ℝ) * n))) := by
  fun_prop

theorem gaussTaylorPrim_zero (n : ℕ) : gaussTaylorPrim n 0 = 0 := by
  simp [gaussTaylorPrim]

theorem gaussErrPrim_zero (n : ℕ) : gaussErrPrim n 0 = 0 := by
  simp [gaussErrPrim]

/-- Enclosure of the Gaussian integral over `[0, a]`, `0 ≤ a`, `a^2 ≤ 2`. -/
theorem gauss_integral_bounds (n : ℕ) (hn : 0 < n) (a : ℝ) (ha : 0 ≤ a) (ha2 : a ^ 2 ≤ 2) :
    gaussTaylorPrim n a - gaussErrPrim n a ≤ ∫ t in (0 : ℝ)..a, Real.exp (-(t ^ 2) / 2) ∧
    ∫ t in (0 : ℝ)..a, Real.exp (-(t ^ 2) / 2) ≤ gaussTaylorPrim n a + gaussErrPrim n a := by
  have hT : ∫ t in (0 : ℝ)..a, gaussTaylor n t = gaussTaylorPrim n a := by
    rw [intervalIntegral.integral_eq_sub_of_hasDerivAt
      (fun x _ => hasDerivAt_gaussTaylorPrim n x)
      ((gaussTaylor_continuous n).intervalIntegrable _ _), gaussTaylorPrim_zero, sub_zero]
  have hE : ∫ t in (0 : ℝ)..a, (t ^ 2 / 2) ^ n * ((n + 1 : ℝ) / ((n.factorial : ℝ) * n)) =
      gaussErrPrim n a := by
    rw [intervalIntegral.integral_eq_sub_of_hasDerivAt
      (fun x _ => hasDerivAt_gaussErrPrim n x)
      ((gaussErr_continuous n).intervalIntegrable _ _), gaussErrPrim_zero, sub_zero]
  have hpt : ∀ t ∈ Set.Icc (0 : ℝ) a,
      |Real.exp (-(t ^ 2) / 2) - gaussTaylor n t| ≤
        (t ^ 2 / 2) ^ n * ((n + 1 : ℝ) / ((n.factorial : ℝ) * n)) := by
    intro t ht
    apply gauss_taylor_bound n hn t
    have h1 : t ≤ a := ht.2
    have h0 : 0 ≤ t := ht.1
    nlinarith
  constructor
  · have hmono := intervalIntegral.integral_mono_on ha
      (((gaussTaylor_continuous n).sub (gaussErr_continuous n)).intervalIntegrable (μ := volume) 0 a)
      (gauss_continuous.intervalIntegrable (μ := volume) 0 a)
      (fun t ht => by
        have := (abs_le.mp (hpt t ht)).1
        show gaussTaylor n t - (t ^ 2 / 2) ^ n * ((n + 1 : ℝ) / ((n.factorial : ℝ) * n)) ≤ _
        linarith)
    have hsub : ∫ t in (0 : ℝ)..a, (gaussTaylor n t -
        (t ^ 2 / 2) ^ n * ((n + 1 : ℝ) / ((n.factorial : ℝ) * n))) =
        gaussTaylorPrim n a - gaussErrPrim n a := by
      rw [intervalIntegral.integral_sub ((gaussTaylor_continuous n).intervalIntegrable _ _)
        ((gaussErr_continuous n).intervalIntegrable _ _), hT, hE]
    rw [← hsub]
    exact hmono
  · have hmono := intervalIntegral.integral_mono_on ha
      (gauss_continuous.intervalIntegrable (μ := volume) 0 a)
      (((gaussTaylor_continuous n).add (gaussErr_continuous n)).intervalIntegrable (μ := volume) 0 a)
      (fun t ht => by
        have := (abs_le.mp (hpt t ht)).2
        show _ ≤ gaussTaylor n t + (t ^ 2 / 2) ^ n * ((n + 1 : ℝ) / ((n.factorial : ℝ) * n))
        linarith)
    have hadd : ∫ t in (0 : ℝ)..a, (gaussTaylor n t +
        (t ^ 2 / 2) ^ n * ((n + 1 : ℝ) / ((n.factorial : ℝ) * n))) =
        gaussTaylorPrim n a + gaussErrPrim n a := by
      rw [intervalIntegral.integral_add ((gaussTaylor_continuous n).intervalIntegrable _ _)
        ((gaussErr_continuous n).intervalIntegrable _ _), hT, hE]
    rw [← hadd]
    exact hmono

theorem gauss_integral_nonneg (a : ℝ) (ha : 0 ≤ a) :
    0 ≤ ∫ t in (0 : ℝ)..a, Real.exp (-(t ^ 2) / 2) :=
  intervalIntegral.integral_nonneg ha (fun _ _ => (Real.exp_pos _).le)

theorem gauss_integral_mono (a b : ℝ) (hab : a ≤ b) :
    ∫ t in (0 : ℝ)..a, Real.exp (-(t ^ 2) / 2) ≤ ∫ t in (0 : ℝ)..b, Real.exp (-(t ^ 2) / 2) := by
  have hadd := intervalIntegral.integral_add_adjacent_intervals
    (gauss_continuous.intervalIntegrable (μ := volume) 0 a)
    (gauss_continuous.intervalIntegrable (μ := volume) a b)
  have hnn : 0 ≤ ∫ t in a..b, Real.exp (-(t ^ 2) / 2) :=
    intervalIntegral.integral_nonneg hab (fun _ _ => (Real.exp_pos _).le)
  linarith

theorem gauss_integral_neg (a : ℝ) :
    ∫ t in (0 : ℝ)..(-a), Real.exp (-(t ^ 2) / 2) = -∫ t in (0 : ℝ)..a, Real.exp (-(t ^ 2) / 2) := by
  have h := intervalIntegral.integral_comp_neg (a := 0) (b := a)
    (fun t : ℝ => Real.exp (-(t ^ 2) / 2))
  simp only [neg_sq, neg_zero] at h
  rw [intervalIntegral.integral_symm, ← h]

theorem invSqrtTwoPi_bounds :
    (1000000 / 2506629 : ℝ) ≤ (Real.sqrt (2 * Real.pi))⁻¹ ∧
    (Real.sqrt (2 * Real.pi))⁻¹ ≤ 1000000 / 2506628 := by
  have h1 := Real.pi_gt_d6
  have h2 := Real.pi_lt_d6
  have hlo : (2506628 / 1000000 : ℝ) ≤ Real.sqrt (2 * Real.pi) := by
    apply Real.le_sqrt_of_sq_le
    norm_num at h1 ⊢
    linarith
  have hhi : Real.sqrt (2 * Real.pi) ≤ (2506629 / 1000000 : ℝ) := by
    apply Real.sqrt_le_iff.mpr
    constructor
    · norm_num
    · norm_num at h2 ⊢
      linarith
  have hpos : (0 : ℝ) < Real.sqrt (2 * Real.pi) := by linarith
  constructor
  · rw [show (1000000 / 2506629 : ℝ) = (2506629 / 1000000 : ℝ)⁻¹ by norm_num]
    exact inv_anti₀ hpos hhi
  · rw [show (1000000 / 2506628 : ℝ) = (2506628 / 1000000 : ℝ)⁻¹ by norm_num]
    exact inv_anti₀ (by norm_num) hlo

/-- Upper bound of `N` at a point of `[0, b]`. -/
theorem cumulativeNormal_le_of_nonneg (n : ℕ) (hn : 0 < n) (x b : ℝ) (hx : 0 ≤ x) (hxb : x ≤ b)
    (hb2 : b ^ 2 ≤ 2) :
    cumulativeNormal x ≤ 1 / 2 + 1000000 / 2506628 * (gaussTaylorPrim n b + gaussErrPrim n b) := by
  rw [cumulativeNormal_eq]
  have hI := gauss_integral_mono x b hxb
  have hU := (gauss_integral_bounds n hn b (hx.trans hxb) hb2).2
  have h0 := gauss_integral_nonneg x hx
  have hc := invSqrtTwoPi_bounds.2
  have hcpos : (0 : ℝ) ≤ (Real.sqrt (2 * Real.pi))⁻¹ := by positivity
  nlinarith [mul_le_mul hc (hI.trans hU) h0 (by norm_num : (0 : ℝ) ≤ 1000000 / 2506628)]

/-- Lower bound of `N` at a point `x ≥ a ≥ 0`. -/
theorem le_cumulativeNormal_of_nonneg (n : ℕ) (hn : 0 < n) (x a : ℝ) (ha : 0 ≤ a) (hax : a ≤ x)
    (ha2 : a ^ 2 ≤ 2) (hL : 0 ≤ gaussTaylorPrim n a - gaussErrPrim n a) :
    1 / 2 + 1000000 / 2506629 * (gaussTaylorPrim n a - gaussErrPrim n a) ≤ cumulativeNormal x := by
  rw [cumulativeNormal_eq]
  have hI := gauss_integral_mono a x hax
  have hLb := (gauss_integral_bounds n hn a ha ha2).1
  have hc := invSqrtTwoPi_bounds.1
  nlinarith [mul_le_mul hc (hLb.trans hI) hL (by positivity : (0 : ℝ) ≤ (Real.sqrt (2 * Real.pi))⁻¹)]

/-- Upper bound of `N` at `-x` for `x ≥ a ≥ 0`. -/
theorem cumulativeNormal_neg_le (n : ℕ) (hn : 0 < n) (x a : ℝ) (ha : 0 ≤ a) (hax : a ≤ x)
    (ha2 : a ^ 2 ≤ 2) (hL : 0 ≤ gaussTaylorPrim n a - gaussErrPrim n a) :
    cumulativeNormal (-x) ≤ 1 / 2 - 1000000 / 2506629 * (gaussTaylorPrim n a - gaussErrPrim n a) := by
  rw [cumulativeNormal_eq, gauss_integral_neg]
  have hI := gauss_integral_mono a x hax
  have hLb := (gauss_integral_bounds n hn a ha ha2).1
  have hc := invSqrtTwoPi_bounds.1
  nlinarith [mul_le_mul hc (hLb.trans hI) hL (by positivity : (0 : ℝ) ≤ (Real.sqrt (2 * Real.pi))⁻¹)]

/-- Lower bound of `N` at `-x` for `0 ≤ x ≤ b`. -/
theorem le_cumulativeNormal_neg (n : ℕ) (hn : 0 < n) (x b : ℝ) (hx : 0 ≤ x) (hxb : x ≤ b)
    (hb2 : b ^ 2 ≤ 2) :
    1 / 2 - 1000000 / 2506628 * (gaussTaylorPrim n b + gaussErrPrim n b) ≤ cumulativeNormal (-x) := by
  rw [cumulativeNormal_eq, gauss_integral_neg]
  have hI := gauss_integral_mono x b hxb
  have hU := (gauss_integral_bounds n hn b (hx.trans hxb) hb2).2
  have h0 := gauss_integral_nonneg x hx
  have hc := invSqrtTwoPi_bounds.2
  nlinarith [mul_le_mul hc (hI.trans hU) h0 (by norm_num : (0 : ℝ) ≤ 1000000 / 2506628)]

theorem log_20_21_bounds :
    (-1951607 / 40000000 : ℝ) ≤ Real.log (20 / 21) ∧
    Real.log (20 / 21) ≤ -48790149 / 1000000000 := by
  have h := Real.abs_log_sub_add_sum_range_le (x := (1 / 21 : ℝ)) (by norm_num [abs_lt]) 5
  have hx : (1 : ℝ) - 1 / 21 = 20 / 21 := by norm_num
  rw [hx, abs_le] at h
  norm_num [Finset.sum_range_succ, abs_of_pos] at h
  constructor <;> linarith [h.1, h.2]

theorem log_20_19_bounds :
    (51293275 / 1000000000 : ℝ) ≤ Real.log (20 / 19) ∧
    Real.log (20 / 19) ≤ 51293309 / 1000000000 := by
  have h := Real.abs_log_sub_add_sum_range_le (x := (1 / 20 : ℝ)) (by norm_num [abs_lt]) 5
  have hx : (1 : ℝ) - 1 / 20 = 19 / 20 := by norm_num
  have hinv : Real.log (20 / 19) = -Real.log (19 / 20) := by
    rw [← Real.log_inv]
    norm_num
  rw [hx, abs_le] at h
  norm_num [Finset.sum_range_succ, abs_of_pos] at h
  rw [hinv]
  constructor <;> linarith [h.1, h.2]

theorem sqrt_fiftieth_bounds :
    (1414213 / 10000000 : ℝ) ≤ Real.sqrt (1 / 50) ∧ Real.sqrt (1 / 50) ≤ 1414214 / 10000000 := by
  constructor
  · apply Real.le_sqrt_of_sq_le
    norm_num
  · apply Real.sqrt_le_iff.mpr
    constructor <;> norm_num

/-- Enclosure of `N(x)` for `0 ≤ a ≤ x ≤ b` by rational numbers checked on the order-6
polynomials. -/
theorem cumulativeNormal_enclosure_pos (x a b lo hi : ℝ) (ha : 0 ≤ a) (hax : a ≤ x) (hxb : x ≤ b)
    (hb2 : b ^ 2 ≤ 2)
    (hlo : lo ≤ 1 / 2 + 1000000 / 2506629 * (gaussTaylorPrim 6 a - gaussErrPrim 6 a))
    (hL : 0 ≤ gaussTaylorPrim 6 a - gaussErrPrim 6 a)
    (hhi : 1 / 2 + 1000000 / 2506628 * (gaussTaylorPrim 6 b + gaussErrPrim 6 b) ≤ hi) :
    lo ≤ cumulativeNormal x ∧ cumulativeNormal x ≤ hi :=
  ⟨hlo.trans (le_cumulativeNormal_of_nonneg 6 (by norm_num) x a ha hax
      (by nlinarith) hL),
   (cumulativeNormal_le_of_nonneg 6 (by norm_num) x b (ha.trans hax) hxb hb2).trans hhi⟩

/-- Enclosure of `N(-x)` for `0 ≤ a ≤ x ≤ b`. -/
theorem cumulativeNormal_enclosure_neg (x a b lo hi : ℝ) (ha : 0 ≤ a) (hax : a ≤ x) (hxb : x ≤ b)
    (hb2 : b ^ 2 ≤ 2)
    (hlo : lo ≤ 1 / 2 - 1000000 / 2506628 * (gaussTaylorPrim 6 b + gaussErrPrim 6 b))
    (hL : 0 ≤ gaussTaylorPrim 6 a - gaussErrPrim 6 a)
    (hhi : 1 / 2 - 1000000 / 2506629 * (gaussTaylorPrim 6 a - gaussErrPrim 6 a) ≤ hi) :
    lo ≤ cumulativeNormal (-x) ∧ cumulativeNormal (-x) ≤ hi :=
  ⟨hlo.trans (le_cumulativeNormal_neg 6 (by norm_num) x b (ha.trans hax) hxb hb2),
   (cumulativeNormal_neg_le 6 (by norm_num) x a ha hax (by nlinarith) hL).trans hhi⟩

theorem zDown_bounds :
    (396327 / 5000000 : ℝ) ≤ Real.log (20 / 21) / Real.sqrt (1 / 50) + 3 * Real.sqrt (1 / 50) ∧
    Real.log (20 / 21) / Real.sqrt (1 / 50) + 3 * Real.sqrt (1 / 50) ≤ 792657 / 10000000 := by
  obtain ⟨hl1, hl2⟩ := log_20_21_bounds
  obtain ⟨hs1, hs2⟩ := sqrt_fiftieth_bounds
  have hpos : (0 : ℝ) < Real.sqrt (1 / 50) := by linarith
  have hsq : Real.sqrt (1 / 50) * Real.sqrt (1 / 50) = 1 / 50 :=
    Real.mul_self_sqrt (by norm_num)
  have hz : Real.log (20 / 21) / Real.sqrt (1 / 50) + 3 * Real.sqrt (1 / 50) =
      (Real.log (20 / 21) + 3 / 50) / Real.sqrt (1 / 50) := by
    rw [eq_div_iff hpos.ne', add_mul, div_mul_cancel₀ _ hpos.ne', mul_assoc, hsq]
    ring
  rw [hz]
  constructor
  · rw [le_div_iff₀ hpos]
    nlinarith
  · rw [div_le_iff₀ hpos]
    nlinarith

theorem zUp_bounds :
    (393481 / 500000 : ℝ) ≤ Real.log (20 / 19) / Real.sqrt (1 / 50) + 3 * Real.sqrt (1 / 50) ∧
    Real.log (20 / 19) / Real.sqrt (1 / 50) + 3 * Real.sqrt (1 / 50) ≤ 7869629 / 10000000 := by
  obtain ⟨hl1, hl2⟩ := log_20_19_bounds
  obtain ⟨hs1, hs2⟩ := sqrt_fiftieth_bounds
  have hpos : (0 : ℝ) < Real.sqrt (1 / 50) := by linarith
  have hsq : Real.sqrt (1 / 50) * Real.sqrt (1 / 50) = 1 / 50 :=
    Real.mul_self_sqrt (by norm_num)
  have hz : Real.log (20 / 19) / Real.sqrt (1 / 50) + 3 * Real.sqrt (1 / 50) =
      (Real.log (20 / 19) + 3 / 50) / Real.sqrt (1 / 50) := by
    rw [eq_div_iff hpos.ne', add_mul, div_mul_cancel₀ _ hpos.ne', mul_assoc, hsq]
    ring
  rw [hz]
  constructor
  · rw [le_div_iff₀ hpos]
    nlinarith
  · rw [div_le_iff₀ hpos]
    nlinarith

/-- The two normal probabilities of the down-and-in reference case. -/
theorem normal_down_bounds (z sd : ℝ) (hsd : sd = Real.sqrt (1 / 50))
    (hz : z = Real.log (20 / 21) / sd + 3 * sd) :
    ((26579461 / 50000000 : ℝ) ≤ cumulativeNormal z ∧ cumulativeNormal z ≤ 6644867 / 12500000) ∧
    ((2760857 / 12500000 : ℝ) ≤ cumulativeNormal (-(6 * sd - z)) ∧
      cumulativeNormal (-(6 * sd - z)) ≤ 220869 / 1000000) := by
  subst hsd
  obtain ⟨hz1, hz2⟩ := zDown_bounds
  obtain ⟨hs1, hs2⟩ := sqrt_fiftieth_bounds
  rw [← hz] at hz1 hz2
  constructor
  · apply cumulativeNormal_enclosure_pos z (396327 / 5000000) (792657 / 10000000) _ _
      (by norm_num) hz1 hz2 (by norm_num)
    · norm_num [gaussTaylorPrim, gaussErrPrim, Finset.sum_range_succ, Nat.factorial]
    · norm_num [gaussTaylorPrim, gaussErrPrim, Finset.sum_range_succ, Nat.factorial]
    · norm_num [gaussTaylorPrim, gaussErrPrim, Finset.sum_range_succ, Nat.factorial]
  · apply cumulativeNormal_enclosure_neg (6 * Real.sqrt (1 / 50) - z) (7692621 / 10000000)
      (769263 / 1000000) _ _ (by norm_num) (by linarith) (by linarith) (by norm_num)
    · norm_num [gaussTaylorPrim, gaussErrPrim, Finset.sum_range_succ, Nat.factorial]
    · norm_num [gaussTaylorPrim, gaussErrPrim, Finset.sum_range_succ, Nat.factorial]
    · norm_num [gaussTaylorPrim, gaussErrPrim, Finset.sum_range_succ, Nat.factorial]

/-- The two normal probabilities of the up-and-in reference case. -/
theorem normal_up_bounds (z sd : ℝ) (hsd : sd = Real.sqrt (1 / 50))
    (hz : z = Real.log (20 / 19) / sd + 3 * sd) :
    ((862607 / 4000000 : ℝ) ≤ cumulativeNormal (-z) ∧
      cumulativeNormal (-z) ≤ 21565221 / 100000000) ∧
    ((13113633 / 25000000 : ℝ) ≤ cumulativeNormal (6 * sd - z) ∧
      cumulativeNormal (6 * sd - z) ≤ 26227297 / 50000000) := by
  subst hsd
  obtain ⟨hz1, hz2⟩ := zUp_bounds
  obtain ⟨hs1, hs2⟩ := sqrt_fiftieth_bounds
  rw [← hz] at hz1 hz2
  constructor
  · apply cumulativeNormal_enclosure_neg z (393481 / 500000) (7869629 / 10000000) _ _
      (by norm_num) hz1 hz2 (by norm_num)
    · norm_num [gaussTaylorPrim, gaussErrPrim, Finset.sum_range_succ, Nat.factorial]
    · norm_num [gaussTaylorPrim, gaussErrPrim, Finset.sum_range_succ, Nat.factorial]
    · norm_num [gaussTaylorPrim, gaussErrPrim, Finset.sum_range_succ, Nat.factorial]
  · apply cumulativeNormal_enclosure_pos (6 * Real.sqrt (1 / 50) - z) (615649 / 10000000)
      (38479 / 625000) _ _ (by norm_num) (by linarith) (by linarith) (by norm_num)
    · norm_num [gaussTaylorPrim, gaussErrPrim, Finset.sum_range_succ, Nat.factorial]
    · norm_num [gaussTaylorPrim, gaussErrPrim, Finset.sum_range_succ, Nat.factorial]
    · norm_num [gaussTaylorPrim, gaussErrPrim, Finset.sum_range_succ, Nat.factorial]

end Numerics

section ReferenceValues

open AnalyticBinaryBarrierEngine

/-- The pay-at-hit formula in the reference market (`q = 0`, `r = 0.10`, `t = 0.5`,
`v = 0.20`, barrier 100): `mu = 2`, `lambda = 3`, so the powers are `(100/S)^5` and
`(100/S)⁻¹`. -/
theorem payAtHit_reference (K S eta : ℝ) :
    payAtHitFormula realOps K 100 S (Real.exp (-(0 * 0.5))) (Real.exp (-(0.10 * 0.5)))
      (0.20 * 0.20 * 0.5) eta =
    K * ((100 / S) ^ 5 *
        cumulativeNormal (eta * (Real.log (100 / S) / Real.sqrt (1 / 50) +
          3 * Real.sqrt (1 / 50))) +
      (100 / S)⁻¹ *
        cumulativeNormal (eta * (Real.log (100 / S) / Real.sqrt (1 / 50) +
          3 * Real.sqrt (1 / 50)) - 2 * eta * 3 * Real.sqrt (1 / 50))) := by
  have hvar : (0.20 * 0.20 * 0.5 : ℝ) = 1 / 50 := by norm_num
  have hsq : Real.sqrt (1 / 50) * Real.sqrt (1 / 50) = 1 / 50 :=
    Real.mul_self_sqrt (by norm_num)
  have hmu : Real.log (Real.exp (-(0 * 0.5)) / Real.exp (-(0.10 * 0.5))) / (1 / 50) - 1 / 2 =
      (2 : ℝ) := by
    rw [Real.log_div (Real.exp_ne_zero _) (Real.exp_ne_zero _), Real.log_exp, Real.log_exp]
    norm_num
  have hlam : Real.sqrt ((2 : ℝ) * 2 - 2 * Real.log (Real.exp (-(0.10 * 0.5))) /
      (Real.sqrt (1 / 50) * Real.sqrt (1 / 50))) = 3 := by
    rw [hsq, Real.log_exp]
    rw [show (2 : ℝ) * 2 - 2 * -(0.10 * 0.5) / (1 / 50) = 3 ^ 2 by norm_num]
    exact Real.sqrt_sq (by norm_num)
  have hp5 : (100 / S : ℝ) ^ ((2 : ℝ) + 3) = (100 / S) ^ 5 := by
    rw [show ((2 : ℝ) + 3) = ((5 : ℕ) : ℝ) by norm_num, Real.rpow_natCast]
  have hp1 : (100 / S : ℝ) ^ ((2 : ℝ) - 3) = (100 / S)⁻¹ := by
    rw [show ((2 : ℝ) - 3) = -1 by norm_num, Real.rpow_neg_one]
  simp only [payAtHitFormula, realOps, hvar, hmu, hlam, hp5, hp1]

/-- Value written by `calculate` for a pay-at-hit knock-in in the reference market. -/
theorem calculate_reference (vanilla : Payoff ℝ → VanillaOption ℝ) (eta0 : ℝ)
    (results : Results ℝ) (payoff : Payoff ℝ) (bt : BarrierType) (S : ℝ)
    (type : OptionType) (k : ℝ)
    (hp : payoff.asStriked = some (type, k)) (hS : 0 < S)
    (hin : (bt = .DownIn ∧ S > 100) ∨ (bt = .UpIn ∧ S < 100)) :
    calculate realOps (flatMarket realOps S 0 0.10 0.5 0.20) ⟨payoff, bt, 100, 0, false⟩
      vanilla eta0 results =
      (.ok (),
        { results with
          value := payAtHitAmount payoff 100 *
            ((100 / S) ^ 5 *
              cumulativeNormal ((if bt = .DownIn then 1 else -1) *
                (Real.log (100 / S) / Real.sqrt (1 / 50) + 3 * Real.sqrt (1 / 50))) +
            (100 / S)⁻¹ *
              cumulativeNormal ((if bt = .DownIn then 1 else -1) *
                (Real.log (100 / S) / Real.sqrt (1 / 50) + 3 * Real.sqrt (1 / 50)) -
                2 * (if bt = .DownIn then 1 else -1) * 3 * Real.sqrt (1 / 50))) }) := by
  have hnot : (bt = .DownIn ∨ bt = .DownOut) ∧ (flatMarket realOps S 0 0.10 0.5 0.20).x0 > 100 ∨
      (bt = .UpIn ∨ bt = .UpOut) ∧ (flatMarket realOps S 0 0.10 0.5 0.20).x0 < 100 := by
    rcases hin with ⟨h, h'⟩ | ⟨h, h'⟩
    · exact Or.inl ⟨Or.inl h, h'⟩
    · exact Or.inr ⟨Or.inl h, h'⟩
  have heta : (if bt = .UpIn then (-1 : ℝ) else if bt = .DownIn then 1 else eta0) =
      (if bt = .DownIn then 1 else -1) := by
    rcases hin with ⟨h, _⟩ | ⟨h, _⟩ <;> simp [h]
  rw [calculate_payAtHit realOps (flatMarket realOps S 0 0.10 0.5 0.20) vanilla eta0 results
    payoff bt 100 0 type k hp hS (by norm_num) hnot, heta]
  simp only [flatMarket]
  have hexp : realOps.exp = Real.exp := rfl
  rw [hexp, payAtHit_reference]

/-- The bracket of the down-and-in reference case (spot 105) lies in
`[0.6484260, 0.6484267]`. -/
theorem bracket_down :
    (6484260 / 10000000 : ℝ) ≤
      (100 / 105 : ℝ) ^ 5 * cumulativeNormal (1 * (Real.log (100 / 105) / Real.sqrt (1 / 50) +
        3 * Real.sqrt (1 / 50))) +
      (100 / 105 : ℝ)⁻¹ * cumulativeNormal (1 * (Real.log (100 / 105) / Real.sqrt (1 / 50) +
        3 * Real.sqrt (1 / 50)) - 2 * 1 * 3 * Real.sqrt (1 / 50)) ∧
    (100 / 105 : ℝ) ^ 5 * cumulativeNormal (1 * (Real.log (100 / 105) / Real.sqrt (1 / 50) +
        3 * Real.sqrt (1 / 50))) +
      (100 / 105 : ℝ)⁻¹ * cumulativeNormal (1 * (Real.log (100 / 105) / Real.sqrt (1 / 50) +
        3 * Real.sqrt (1 / 50)) - 2 * 1 * 3 * Real.sqrt (1 / 50)) ≤ 6484267 / 10000000 := by
  have hq : (100 / 105 : ℝ) = 20 / 21 := by norm_num
  obtain ⟨⟨h1, h2⟩, ⟨h3, h4⟩⟩ := normal_down_bounds
    (Real.log (20 / 21) / Real.sqrt (1 / 50) + 3 * Real.sqrt (1 / 50)) (Real.sqrt (1 / 50))
    rfl rfl
  rw [hq, one_mul]
  have harg : Real.log (20 / 21) / Real.sqrt (1 / 50) + 3 * Real.sqrt (1 / 50) -
      2 * 1 * 3 * Real.sqrt (1 / 50) =
      -(6 * Real.sqrt (1 / 50) - (Real.log (20 / 21) / Real.sqrt (1 / 50) +
        3 * Real.sqrt (1 / 50))) := by ring
  rw [harg]
  norm_num at h1 h2 h3 h4 ⊢
  constructor <;> linarith

/-- The bracket of the up-and-in reference case (spot 95) lies in
`[0.7770167, 0.7770180]`. -/
theorem bracket_up :
    (7770167 / 10000000 : ℝ) ≤
      (100 / 95 : ℝ) ^ 5 * cumulativeNormal (-1 * (Real.log (100 / 95) / Real.sqrt (1 / 50) +
        3 * Real.sqrt (1 / 50))) +
      (100 / 95 : ℝ)⁻¹ * cumulativeNormal (-1 * (Real.log (100 / 95) / Real.sqrt (1 / 50) +
        3 * Real.sqrt (1 / 50)) - 2 * -1 * 3 * Real.sqrt (1 / 50)) ∧
    (100 / 95 : ℝ) ^ 5 * cumulativeNormal (-1 * (Real.log (100 / 95) / Real.sqrt (1 / 50) +
        3 * Real.sqrt (1 / 50))) +
      (100 / 95 : ℝ)⁻¹ * cumulativeNormal (-1 * (Real.log (100 / 95) / Real.sqrt (1 / 50) +
        3 * Real.sqrt (1 / 50)) - 2 * -1 * 3 * Real.sqrt (1 / 50)) ≤ 7770180 / 10000000 := by
  have hq : (100 / 95 : ℝ) = 20 / 19 := by norm_num
  obtain ⟨⟨h1, h2⟩, ⟨h3, h4⟩⟩ := normal_up_bounds
    (Real.log (20 / 19) / Real.sqrt (1 / 50) + 3 * Real.sqrt (1 / 50)) (Real.sqrt (1 / 50))
    rfl rfl
  rw [hq, neg_one_mul]
  have harg : -(Real.log (20 / 19) / Real.sqrt (1 / 50) + 3 * Real.sqrt (1 / 50)) -
      2 * -1 * 3 * Real.sqrt (1 / 50) =
      6 * Real.sqrt (1 / 50) - (Real.log (20 / 19) / Real.sqrt (1 / 50) +
        3 * Real.sqrt (1 / 50)) := by ring
  rw [harg]
  norm_num at h1 h2 h3 h4 ⊢
  constructor <;> linarith

/-- Claim C7 (reference values of the cash-at-hit knock-in).  In the reference market
(`q = 0`, `r = 0.10`, `t = 0.5`, `vol = 0.20`, continuously compounded flat curves) with
barrier 100, cash 15 and `payAtExpiry = false`, over the real numbers: for strike 102 and for
strike 98 the engine values the down-and-in cash-or-nothing call at spot 105 within `1e-4` of
9.7264 and the up-and-in cash-or-nothing call at spot 95 within `1e-4` of 11.6553. -/
theorem C7_cash_at_hit_reference_values (vanilla : Payoff ℝ → VanillaOption ℝ) (eta0 : ℝ)
    (results : Results ℝ) :
    (∃ v, calculate realOps (flatMarket realOps 105 0 0.10 0.5 0.20)
        ⟨.CashOrNothingPayoff .Call 102 15, .DownIn, 100, 0, false⟩ vanilla eta0 results =
        (.ok (), { results with value := v }) ∧ |v - 9.7264| ≤ 0.0001) ∧
    (∃ v, calculate realOps (flatMarket realOps 105 0 0.10 0.5 0.20)
        ⟨.CashOrNothingPayoff .Call 98 15, .DownIn, 100, 0, false⟩ vanilla eta0 results =
        (.ok (), { results with value := v }) ∧ |v - 9.7264| ≤ 0.0001) ∧
    (∃ v, calculate realOps (flatMarket realOps 95 0 0.10 0.5 0.20)
        ⟨.CashOrNothingPayoff .Call 102 15, .UpIn, 100, 0, false⟩ vanilla eta0 results =
        (.ok (), { results with value := v }) ∧ |v - 11.6553| ≤ 0.0001) ∧
    (∃ v, calculate realOps (flatMarket realOps 95 0 0.10 0.5 0.20)
        ⟨.CashOrNothingPayoff .Call 98 15, .UpIn, 100, 0, false⟩ vanilla eta0 results =
        (.ok (), { results with value := v }) ∧ |v - 11.6553| ≤ 0.0001) := by
  obtain ⟨hd1, hd2⟩ := bracket_down
  obtain ⟨hu1, hu2⟩ := bracket_up
  refine ⟨⟨_, calculate_reference vanilla eta0 results _ .DownIn 105 .Call 102 rfl
      (by norm_num) (Or.inl ⟨rfl, by norm_num⟩), ?_⟩,
    ⟨_, calculate_reference vanilla eta0 results _ .DownIn 105 .Call 98 rfl
      (by norm_num) (Or.inl ⟨rfl, by norm_num⟩), ?_⟩,
    ⟨_, calculate_reference vanilla eta0 results _ .UpIn 95 .Call 102 rfl
      (by norm_num) (Or.inr ⟨rfl, by norm_num⟩), ?_⟩,
    ⟨_, calculate_reference vanilla eta0 results _ .UpIn 95 .Call 98 rfl
      (by norm_num) (Or.inr ⟨rfl, by norm_num⟩), ?_⟩⟩
  · simp only [payAtHitAmount, Payoff.asCashOrNothing, if_true]
    rw [abs_le]
    constructor <;> linarith
  · simp only [payAtHitAmount, Payoff.asCashOrNothing, if_true]
    rw [abs_le]
    constructor <;> linarith
  · simp only [payAtHitAmount, Payoff.asCashOrNothing, reduceCtorEq, if_false]
    rw [abs_le]
    constructor <;> linarith
  · simp only [payAtHitAmount, Payoff.asCashOrNothing, reduceCtorEq, if_false]
    rw [abs_le]
    constructor <;> linarith

/-- Claim C8, evaluated on the code.  In the reference market with barrier 100 and
`payAtExpiry = false`, for an asset-or-nothing call (strike 102 or 98) the engine takes
`K = barrier = 100`: over the real numbers the down-and-in value at spot 105 lies in
`[64.8426, 64.8427]` and the up-and-in value at spot 95 in `[77.7016, 77.7018]`, so neither is
within `1e-4` of the test-suite values 68.0848 and 11.6553. -/
theorem C8_asset_at_hit_values (vanilla : Payoff ℝ → VanillaOption ℝ) (eta0 : ℝ)
    (results : Results ℝ) :
    (∀ k : ℝ, ∃ v, calculate realOps (flatMarket realOps 105 0 0.10 0.5 0.20)
        ⟨.AssetOrNothingPayoff .Call k, .DownIn, 100, 0, false⟩ vanilla eta0 results =
        (.ok (), { results with value := v }) ∧
        64.8426 ≤ v ∧ v ≤ 64.8427 ∧ ¬ |v - 68.0848| ≤ 0.0001) ∧
    (∀ k : ℝ, ∃ v, calculate realOps (flatMarket realOps 95 0 0.10 0.5 0.20)
        ⟨.AssetOrNothingPayoff .Call k, .UpIn, 100, 0, false⟩ vanilla eta0 results =
        (.ok (), { results with value := v }) ∧
        77.7016 ≤ v ∧ v ≤ 77.7018 ∧ ¬ |v - 11.6553| ≤ 0.0001) := by
  obtain ⟨hd1, hd2⟩ := bracket_down
  obtain ⟨hu1, hu2⟩ := bracket_up
  constructor
  · intro k
    refine ⟨_, calculate_reference vanilla eta0 results _ .DownIn 105 .Call k rfl
      (by norm_num) (Or.inl ⟨rfl, by norm_num⟩), ?_⟩
    simp only [payAtHitAmount, Payoff.asCashOrNothing, if_true]
    refine ⟨by linarith, by linarith, ?_⟩
    rw [abs_le, not_and_or, not_le]
    left
    linarith
  · intro k
    refine ⟨_, calculate_reference vanilla eta0 results _ .UpIn 95 .Call k rfl
      (by norm_num) (Or.inr ⟨rfl, by norm_num⟩), ?_⟩
    simp only [payAtHitAmount, Payoff.asCashOrNothing, reduceCtorEq, if_false]
    refine ⟨by linarith, by linarith, ?_⟩
    rw [abs_le, not_and_or, not_le, not_le]
    right
    linarith

end ReferenceValues

/-! ## Finite-difference touch engine -/

section TouchEngineTheorems

open FdBlackScholesTouchEngine Examples

theorem FdBlackScholesTouchEngine.stdMax_eq_max {R : Type} [LinearOrderedField R] (a b : R) :
    stdMax a b = max a b := by
  unfold stdMax
  split_ifs with h
  · exact (max_eq_right (le_of_lt h)).symm
  · exact (max_eq_left (not_lt.mp h)).symm

theorem FdBlackScholesTouchEngine.foldl_largest {R : Type} [LinearOrderedField R] :
    ∀ (rest : List R) (x : R),
      rest.foldl (fun largest b => if largest < b then b else largest) x ∈ x :: rest ∧
      ∀ b ∈ x :: rest, b ≤ rest.foldl (fun largest b => if largest < b then b else largest) x := by
  intro rest
  induction rest with
  | nil => intro x; simp
  | cons y ys ih =>
    intro x
    simp only [List.foldl_cons]
    obtain ⟨hmem, hle⟩ := ih (if x < y then y else x)
    constructor
    · rcases List.mem_cons.mp hmem with h | h
      · rw [h]
        split_ifs <;> simp
      · exact List.mem_cons_of_mem _ (List.mem_cons_of_mem _ h)
    · intro b hb
      rcases List.mem_cons.mp hb with h | h
      · have := hle (if x < y then y else x) (List.mem_cons_self _ _)
        have hx : x ≤ (if x < y then y else x) := by
          split_ifs with hxy
          · exact le_of_lt hxy
          · exact le_refl x
        rw [h]
        exact le_trans hx (hle _ (List.mem_cons_self _ _))
      · rcases List.mem_cons.mp h with h1 | h1
        · have hy : y ≤ (if x < y then y else x) := by
            split_ifs with hxy
            · exact le_refl y
            · exact not_lt.mp hxy
          rw [h1]
          exact le_trans hy (hle _ (List.mem_cons_self _ _))
        · exact hle b (List.mem_cons_of_mem _ h1)

theorem FdBlackScholesTouchEngine.maxElement_spec {R : Type} [LinearOrderedField R]
    (what : String) (xs : List R) (hne : xs ≠ []) :
    ∃ m, maxElement what xs = .ok m ∧ m ∈ xs ∧ ∀ b ∈ xs, b ≤ m := by
  cases xs with
  | nil => exact absurd rfl hne
  | cons x rest =>
    exact ⟨_, rfl, (foldl_largest rest x).1, (foldl_largest rest x).2⟩

theorem FdBlackScholesTouchEngine.meshBounds_unhandled {R : Type} [LinearOrderedField R]
    (ops : MathOps R) (null spot : R) (a : TouchArguments R)
    (h1 : a.touchType ≠ .OneTouchUp) (h2 : a.touchType ≠ .OneTouchDown)
    (h3 : a.touchType ≠ .DoubleOneTouch) :
    meshBounds ops null spot a = .ok (null, null) := by
  simp [meshBounds, h1, h2, h3, bind, Except.bind, pure, Except.pure]

theorem FdBlackScholesTouchEngine.boundaries_unhandled {R C : Type}
    (rTS : C) (maturity : R) (a : TouchArguments R)
    (h1 : a.touchType ≠ .OneTouchUp) (h2 : a.touchType ≠ .OneTouchDown)
    (h3 : a.touchType ≠ .DoubleOneTouch) :
    boundaries rTS maturity a = .ok [] := by
  simp [boundaries, h1, h2, h3, bind, Except.bind, pure, Except.pure]

/-- When the bounds, the mesher and the boundary set are obtained, `calculate()` is the
reading of the solver built from them. -/
theorem FdBlackScholesTouchEngine.calculate_of_parts {R C M : Type} [LinearOrderedField R]
    (ops : MathOps R) (null : R) (process : GeneralizedBlackScholesProcess R)
    (maturity : R) (rTS : C) (mesher : R → R → Except Failure M)
    (solver : M → List (FdmBoundaryCondition R C) → FdmBlackScholesSolver R)
    (a : TouchArguments R) (results : Results R) (xMin xMax : R) (m : M)
    (bs : List (FdmBoundaryCondition R C))
    (hb : meshBounds ops null process.x0 a = .ok (xMin, xMax))
    (hm : mesher xMin xMax = .ok m)
    (hbs : boundaries rTS maturity a = .ok bs) :
    calculate ops null process maturity rTS mesher solver a results =
      readSolver (solver m bs) process.x0 results := by
  simp only [calculate, hb, hm, hbs]

theorem FdBlackScholesTouchEngine.readSolver_ok {R : Type} [LinearOrderedField R]
    (solver : FdmBlackScholesSolver R) (spot : R) (results : Results R) (v d g t : R)
    (hv : solver.valueAt 100 = .ok v) (hd : solver.deltaAt spot = .ok d)
    (hg : solver.gammaAt spot = .ok g) (ht : solver.thetaAt spot = .ok t) :
    readSolver solver spot results =
      (.ok (), { results with value := v, delta := d, gamma := g, theta := t }) := by
  simp only [readSolver, hv, hd, hg, ht]

/-- Claim C21, evaluated on the code.  For the touch types that no branch of `calculate()`
tests (`NoTouchUp`, `NoTouchDown`, `DoubleNoTouch` and the unset `Touch::Type(-1)`) the
engine does not fail: it builds the mesher with both bounds unset, an empty boundary set, and
returns the four numbers of the solver as the result. -/
theorem C21_unhandled_types_return_value {R C M : Type} [LinearOrderedField R]
    (ops : MathOps R) (null : R) (process : GeneralizedBlackScholesProcess R)
    (maturity : R) (rTS : C) (mesher : R → R → Except Failure M)
    (solver : M → List (FdmBoundaryCondition R C) → FdmBlackScholesSolver R)
    (a : TouchArguments R) (results : Results R) (m : M) (v d g t : R)
    (htype : a.touchType = .NoTouchUp ∨ a.touchType = .NoTouchDown ∨
      a.touchType = .DoubleNoTouch ∨ a.touchType = .Unset)
    (hm : mesher null null = .ok m)
    (hv : (solver m []).valueAt 100 = .ok v)
    (hd : (solver m []).deltaAt process.x0 = .ok d)
    (hg : (solver m []).gammaAt process.x0 = .ok g)
    (ht : (solver m []).thetaAt process.x0 = .ok t) :
    calculate ops null process maturity rTS mesher solver a results =
      (.ok (), { results with value := v, delta := d, gamma := g, theta := t }) := by
  have h1 : a.touchType ≠ .OneTouchUp := by rcases htype with h | h | h | h <;> simp [h]
  have h2 : a.touchType ≠ .OneTouchDown := by rcases htype with h | h | h | h <;> simp [h]
  have h3 : a.touchType ≠ .DoubleOneTouch := by rcases htype with h | h | h | h <;> simp [h]
  rw [calculate_of_parts ops null process maturity rTS mesher solver a results null null m []
    (meshBounds_unhandled ops null _ a h1 h2 h3) hm (boundaries_unhandled rTS maturity a h1 h2 h3)]
  exact readSolver_ok _ _ _ v d g t hv hd hg ht

theorem C21_unhandled_types_return_value_witness :
    noTouchUp.touchType = .NoTouchUp ∧
    calculate ratOps nullReal process105 (1 / 2) () boundsMesher forwardSolver noTouchUp results0 =
      (.ok (), { results0 with value := 100, delta := 1, gamma := 0, theta := 0 }) ∧
    calculate ratOps nullReal process105 (1 / 2) () boundsMesher forwardSolver
      (TouchArguments.arguments true) results0 =
      (.ok (), { results0 with value := 100, delta := 1, gamma := 0, theta := 0 }) :=
  ⟨rfl,
    C21_unhandled_types_return_value ratOps nullReal process105 (1 / 2) () boundsMesher
      forwardSolver noTouchUp results0 (nullReal, nullReal) 100 1 0 0 (Or.inl rfl) rfl rfl rfl
      rfl rfl,
    C21_unhandled_types_return_value ratOps nullReal process105 (1 / 2) () boundsMesher
      forwardSolver (TouchArguments.arguments true) results0 (nullReal, nullReal) 100 1 0 0
      (Or.inr (Or.inr (Or.inr rfl))) rfl rfl rfl rfl rfl⟩

/-- Claim C22, evaluated on the code.  Whenever the bounds, the mesher, the boundary set and
the four solver accessors succeed, `calculate()` stores `delta`, `gamma` and `theta` read at
the process spot, and `value` read at the constant 100: `value = solver.valueAt(100)`, for
every spot. -/
theorem C22_value_read_at_100 {R C M : Type} [LinearOrderedField R]
    (ops : MathOps R) (null : R) (process : GeneralizedBlackScholesProcess R)
    (maturity : R) (rTS : C) (mesher : R → R → Except Failure M)
    (solver : M → List (FdmBoundaryCondition R C) → FdmBlackScholesSolver R)
    (a : TouchArguments R) (results : Results R) (xMin xMax : R) (m : M)
    (bs : List (FdmBoundaryCondition R C)) (v d g t : R)
    (hb : meshBounds ops null process.x0 a = .ok (xMin, xMax))
    (hm : mesher xMin xMax = .ok m)
    (hbs : boundaries rTS maturity a = .ok bs)
    (hv : (solver m bs).valueAt 100 = .ok v)
    (hd : (solver m bs).deltaAt process.x0 = .ok d)
    (hg : (solver m bs).gammaAt process.x0 = .ok g)
    (ht : (solver m bs).thetaAt process.x0 = .ok t) :
    calculate ops null process maturity rTS mesher solver a results =
      (.ok (), { results with value := v, delta := d, gamma := g, theta := t }) := by
  rw [calculate_of_parts ops null process maturity rTS mesher solver a results xMin xMax m bs
    hb hm hbs]
  exact readSolver_ok _ _ _ v d g t hv hd hg ht

theorem C22_value_read_at_100_witness :
    process95.x0 = 95 ∧
    (forwardSolver (0, 102) [.FdmDirichletBoundary 2 0 .Upper]).valueAt process95.x0 = .ok 95 ∧
    calculate ratOps nullReal process95 1 () boundsMesher forwardSolver touchUp results0 =
      (.ok (), { results0 with value := 100, delta := 1, gamma := 0, theta := 0 }) :=
  ⟨rfl, rfl,
    C22_value_read_at_100 ratOps nullReal process95 1 () boundsMesher forwardSolver touchUp
      results0 0 102 (0, 102) [.FdmDirichletBoundary 2 0 .Upper] 100 1 0 0
      (by simp [meshBounds, touchUp, readAt, ratOps, bind, Except.bind, pure, Except.pure]; norm_num)
      rfl
      (by simp [boundaries, touchUp, readAt, bind, Except.bind, pure, Except.pure])
      rfl rfl rfl rfl⟩

/-- Claim C23 (mesh bounds).  The pair `(xMin, xMax)` of `calculate()` is `(0, ln b)` for
`OneTouchUp` with the single upper barrier `b`; `(0, ln(4 * max(m, spot)))` with `m` the
greatest upper barrier for `OneTouchUp` with two or more upper barriers;
`(ln barrierLow[0], Null)` for `OneTouchDown`; `(ln barrierLow[0], ln barrierHigh[0])` for
`DoubleOneTouch`; and the mesher is built with exactly this pair. -/
theorem C23_mesh_bounds {R C M : Type} [LinearOrderedField R]
    (ops : MathOps R) (null : R) (process : GeneralizedBlackScholesProcess R)
    (a : TouchArguments R) :
    (∀ b, a.touchType = .OneTouchUp → a.barrierHigh = [b] →
      meshBounds ops null process.x0 a = .ok (0, ops.log b)) ∧
    (a.touchType = .OneTouchUp → 2 ≤ a.barrierHigh.length →
      ∃ m, m ∈ a.barrierHigh ∧ (∀ b ∈ a.barrierHigh, b ≤ m) ∧
        meshBounds ops null process.x0 a = .ok (0, ops.log (4 * max m process.x0))) ∧
    (∀ l, a.touchType = .OneTouchDown → a.barrierLow[0]? = some l →
      meshBounds ops null process.x0 a = .ok (ops.log l, null)) ∧
    (∀ l h, a.touchType = .DoubleOneTouch → a.barrierHigh[0]? = some h →
      a.barrierLow[0]? = some l →
      meshBounds ops null process.x0 a = .ok (ops.log l, ops.log h)) ∧
    (∀ (maturity : R) (rTS : C) (mesher : R → R → Except Failure M)
      (solver : M → List (FdmBoundaryCondition R C) → FdmBlackScholesSolver R)
      (results : Results R) (xMin xMax : R),
      meshBounds ops null process.x0 a = .ok (xMin, xMax) →
      calculate ops null process maturity rTS mesher solver a results =
        calculate ops null process maturity rTS (fun _ _ => mesher xMin xMax) solver a
          results) := by
  refine ⟨?_, ?_, ?_, ?_, ?_⟩
  · intro b ht hb
    simp [meshBounds, ht, hb, readAt, bind, Except.bind, pure, Except.pure]
  · intro ht hlen
    have hne : a.barrierHigh ≠ [] := by
      intro h
      rw [h] at hlen
      simp at hlen
    obtain ⟨m, hm, hmem, hle⟩ := maxElement_spec "*max_barrier" a.barrierHigh hne
    refine ⟨m, hmem, hle, ?_⟩
    have h1 : ¬ a.barrierHigh.length = 1 := by omega
    simp [meshBounds, ht, h1, hm, stdMax_eq_max, bind, Except.bind, pure, Except.pure]
  · intro l ht hl
    have hr : readAt "barrierLow[0]" a.barrierLow 0 = .ok l := (readAt_ok_iff _ _ _ _).mpr hl
    simp [meshBounds, ht, hr, bind, Except.bind, pure, Except.pure]
  · intro l h ht hh hl
    have hr : readAt "barrierLow[0]" a.barrierLow 0 = .ok l := (readAt_ok_iff _ _ _ _).mpr hl
    have hr2 : readAt "barrierHigh[0]" a.barrierHigh 0 = .ok h := (readAt_ok_iff _ _ _ _).mpr hh
    simp [meshBounds, ht, hr, hr2, bind, Except.bind, pure, Except.pure]
  · intro maturity rTS mesher solver results xMin xMax hb
    simp only [calculate, hb]

theorem C23_mesh_bounds_witness :
    meshBounds ratOps nullReal process105.x0 touchUp = .ok (0, ratOps.log 103) ∧
    (∃ m, m ∈ touchUpLadder.barrierHigh ∧ (∀ b ∈ touchUpLadder.barrierHigh, b ≤ m) ∧
      meshBounds ratOps nullReal process105.x0 touchUpLadder =
        .ok (0, ratOps.log (4 * max m process105.x0))) ∧
    meshBounds ratOps nullReal process105.x0 touchDown = .ok (ratOps.log 95, nullReal) ∧
    meshBounds ratOps nullReal process105.x0 touchDouble =
      .ok (ratOps.log 95, ratOps.log 103) :=
  ⟨(C23_mesh_bounds (C := Unit) (M := Unit) ratOps nullReal process105 touchUp).1 103 rfl rfl,
    (C23_mesh_bounds (C := Unit) (M := Unit) ratOps nullReal process105 touchUpLadder).2.1 rfl
      (by decide),
    (C23_mesh_bounds (C := Unit) (M := Unit) ratOps nullReal process105 touchDown).2.2.1 95 rfl
      rfl,
    (C23_mesh_bounds (C := Unit) (M := Unit) ratOps nullReal process105 touchDouble).2.2.2.1 95
      103 rfl rfl rfl⟩

/-- Claim C24 (boundary conditions).  The boundary set of `calculate()` is: for `OneTouchUp`
one upper condition with value `rebateHigh[0]`, a plain Dirichlet when `payoffAtExpiry` is
false and a discounted Dirichlet on the risk-free curve and the maturity when it is true; for
`OneTouchDown` one plain lower Dirichlet with value `rebateLow[0]`; for `DoubleOneTouch` that
upper condition followed by that lower one; empty for every other touch type; and the solver
is built with exactly this set. -/
theorem C24_boundary_set {R C M : Type} [LinearOrderedField R]
    (rTS : C) (maturity : R) (a : TouchArguments R) :
    (∀ v, a.touchType = .OneTouchUp → a.rebateHigh[0]? = some v →
      boundaries rTS maturity a =
        .ok [if a.payoffAtExpiry = true then
            FdmBoundaryCondition.FdmDiscountDirichletBoundary rTS maturity v 0 .Upper
          else FdmBoundaryCondition.FdmDirichletBoundary v 0 .Upper]) ∧
    (∀ w, a.touchType = .OneTouchDown → a.rebateLow[0]? = some w →
      boundaries rTS maturity a = .ok [FdmBoundaryCondition.FdmDirichletBoundary w 0 .Lower]) ∧
    (∀ v w, a.touchType = .DoubleOneTouch → a.rebateHigh[0]? = some v →
      a.rebateLow[0]? = some w →
      boundaries rTS maturity a =
        .ok [if a.payoffAtExpiry = true then
            FdmBoundaryCondition.FdmDiscountDirichletBoundary rTS maturity v 0 .Upper
          else FdmBoundaryCondition.FdmDirichletBoundary v 0 .Upper,
          FdmBoundaryCondition.FdmDirichletBoundary w 0 .Lower]) ∧
    (a.touchType ≠ .OneTouchUp → a.touchType ≠ .OneTouchDown →
      a.touchType ≠ .DoubleOneTouch → boundaries rTS maturity a = .ok []) ∧
    (∀ (ops : MathOps R) (null : R) (process : GeneralizedBlackScholesProcess R)
      (mesher : R → R → Except Failure M)
      (solver : M → List (FdmBoundaryCondition R C) → FdmBlackScholesSolver R)
      (results : Results R) (bs : List (FdmBoundaryCondition R C)),
      boundaries rTS maturity a = .ok bs →
      calculate ops null process maturity rTS mesher solver a results =
        calculate ops null process maturity rTS mesher (fun m _ => solver m bs) a results) := by
  refine ⟨?_, ?_, ?_, ?_, ?_⟩
  · intro v ht hv
    have hr : readAt "rebateHigh[0]" a.rebateHigh 0 = .ok v := (readAt_ok_iff _ _ _ _).mpr hv
    cases hp : a.payoffAtExpiry <;>
      simp [boundaries, ht, hr, hp, bind, Except.bind, pure, Except.pure]
  · intro w ht hw
    have hr : readAt "rebateLow[0]" a.rebateLow 0 = .ok w := (readAt_ok_iff _ _ _ _).mpr hw
    simp [boundaries, ht, hr, bind, Except.bind, pure, Except.pure]
  · intro v w ht hv hw
    have hr : readAt "rebateHigh[0]" a.rebateHigh 0 = .ok v := (readAt_ok_iff _ _ _ _).mpr hv
    have hr2 : readAt "rebateLow[0]" a.rebateLow 0 = .ok w := (readAt_ok_iff _ _ _ _).mpr hw
    cases hp : a.payoffAtExpiry <;>
      simp [boundaries, ht, hr, hr2, hp, bind, Except.bind, pure, Except.pure]
  · intro h1 h2 h3
    exact boundaries_unhandled rTS maturity a h1 h2 h3
  · intro ops null process mesher solver results bs hbs
    simp only [calculate, hbs]

theorem C24_boundary_set_witness :
    boundaries () (1 : ℚ) touchUp = .ok [FdmBoundaryCondition.FdmDirichletBoundary 2 0 .Upper] ∧
    boundaries () (1 : ℚ) touchDown =
      .ok [FdmBoundaryCondition.FdmDirichletBoundary 3 0 .Lower] ∧
    boundaries () (1 : ℚ) touchDouble =
      .ok [FdmBoundaryCondition.FdmDiscountDirichletBoundary () 1 2 0 .Upper,
        FdmBoundaryCondition.FdmDirichletBoundary 3 0 .Lower] ∧
    boundaries () (1 : ℚ) noTouchUp = .ok [] :=
  ⟨(C24_boundary_set (M := Unit) () (1 : ℚ) touchUp).1 2 rfl rfl,
    (C24_boundary_set (M := Unit) () (1 : ℚ) touchDown).2.1 3 rfl rfl,
    (C24_boundary_set (M := Unit) () (1 : ℚ) touchDouble).2.2.1 2 3 rfl rfl rfl,
    (C24_boundary_set (M := Unit) () (1 : ℚ) noTouchUp).2.2.2.1 (by decide) (by decide)
      (by decide)⟩

end TouchEngineTheorems

/-! ## Knock-out step condition -/

section KnockoutTheorems

open FdmKnockoutCondition Examples

/-- The loop over the indices `j, ..., j + k - 1` of an array that contains them: it ends,
keeps the size, and replaces exactly the entries of those indices whose inner value is
positive. -/
theorem FdmKnockoutCondition.loop_spec {R : Type} [LinearOrderedField R]
    (c : FdmKnockoutCondition R) (t : R) :
    ∀ (k j : Nat) (a : List R), j + k ≤ a.length →
      ∃ a1, loop c t k j a = .ok a1 ∧ a1.length = a.length ∧
        ∀ i, a1[i]? = if j ≤ i ∧ i < j + k ∧ c.innerValue i t > 0
          then some (c.innerValue i t) else a[i]? := by
  intro k
  induction k with
  | zero =>
    intro j a _
    refine ⟨a, rfl, rfl, fun i => ?_⟩
    have : ¬ (j ≤ i ∧ i < j + 0 ∧ c.innerValue i t > 0) := by
      intro h
      omega
    rw [if_neg this]
  | succ k ih =>
    intro j a hlen
    have hj : j < a.length := by omega
    by_cases hpos : c.innerValue j t > 0
    · obtain ⟨a1, h1, h2, h3⟩ := ih (j + 1) (a.set j (c.innerValue j t))
        (by rw [List.length_set]; omega)
      refine ⟨a1, ?_, ?_, fun i => ?_⟩
      · simp only [loop, writeAt, hpos, hj, if_true, bind, Except.bind]
        exact h1
      · rw [h2, List.length_set]
      · rw [h3 i, List.getElem?_set]
        by_cases hij : j = i
        · subst hij
          have hc1 : ¬ (j + 1 ≤ j ∧ j < j + 1 + k ∧ c.innerValue j t > 0) := by
            intro h
            omega
          have hc2 : j ≤ j ∧ j < j + (k + 1) ∧ c.innerValue j t > 0 :=
            ⟨le_refl j, by omega, hpos⟩
          rw [if_neg hc1, if_pos hc2, if_pos rfl, if_pos hj]
        · rw [if_neg hij]
          by_cases hc : j + 1 ≤ i ∧ i < j + 1 + k ∧ c.innerValue i t > 0
          · have hc2 : j ≤ i ∧ i < j + (k + 1) ∧ c.innerValue i t > 0 :=
              ⟨by omega, by omega, hc.2.2⟩
            rw [if_pos hc, if_pos hc2]
          · have hc2 : ¬ (j ≤ i ∧ i < j + (k + 1) ∧ c.innerValue i t > 0) := by
              intro h
              exact hc ⟨by omega, by omega, h.2.2⟩
            rw [if_neg hc, if_neg hc2]
    · obtain ⟨a1, h1, h2, h3⟩ := ih (j + 1) a (by omega)
      refine ⟨a1, ?_, h2, fun i => ?_⟩
      · simp only [loop, hpos, if_false, bind, Except.bind, pure, Except.pure]
        exact h1
      · rw [h3 i]
        by_cases hc : j + 1 ≤ i ∧ i < j + 1 + k ∧ c.innerValue i t > 0
        · have hc2 : j ≤ i ∧ i < j + (k + 1) ∧ c.innerValue i t > 0 :=
            ⟨by omega, by omega, hc.2.2⟩
          rw [if_pos hc, if_pos hc2]
        · have hc2 : ¬ (j ≤ i ∧ i < j + (k + 1) ∧ c.innerValue i t > 0) := by
            intro h
            by_cases hij : j = i
            · subst hij
              exact hpos h.2.2
            · exact hc ⟨by omega, by omega, h.2.2⟩
          rw [if_neg hc, if_neg hc2]

/-- Claim C25 (no-op off the observation time).  For every array `a` and every time `t`
different from `obs_`, `applyTo(a, t)` returns normally and leaves `a` as it was; no
dimension check is made. -/
theorem C25_no_op_off_observation {R : Type} [LinearOrderedField R]
    (c : FdmKnockoutCondition R) (a : List R) (t : R) (h : t ≠ c.obs_) :
    applyTo c a t = (.ok (), a) := by
  simp [applyTo, h]

theorem C25_no_op_off_observation_witness :
    (2 : ℚ) ≠ knockout4.obs_ ∧
    applyTo knockout4 [5, 6, 7] 2 = (.ok (), [5, 6, 7]) :=
  ⟨by simp [knockout4], C25_no_op_off_observation knockout4 [5, 6, 7] 2 (by simp [knockout4])⟩

/-- Claim C26 (effect at the observation time).  When the size of `a` equals the layout
size, `applyTo(a, obs_)` returns normally, the size of `a` is unchanged, and every node `j`
holds `innerValue(j, obs_)` if that is positive and its old value otherwise; when the sizes
differ the call fails with "inconsistent array dimensions" and `a` is unchanged. -/
theorem C26_apply_at_observation {R : Type} [LinearOrderedField R]
    (c : FdmKnockoutCondition R) (a : List R) :
    (c.layoutSize = a.length →
      ∃ a1, applyTo c a c.obs_ = (.ok (), a1) ∧ a1.length = a.length ∧
        ∀ j, j < a.length →
          a1[j]? = if c.innerValue j c.obs_ > 0 then some (c.innerValue j c.obs_) else a[j]?) ∧
    (c.layoutSize ≠ a.length →
      applyTo c a c.obs_ = (.error (.error "inconsistent array dimensions"), a)) := by
  constructor
  · intro hsize
    obtain ⟨a1, h1, h2, h3⟩ := loop_spec c c.obs_ a.length 0 a (by omega)
    refine ⟨a1, ?_, h2, fun j hj => ?_⟩
    · simp [applyTo, hsize, h1]
    · rw [h3 j]
      by_cases hpos : c.innerValue j c.obs_ > 0
      · rw [if_pos hpos, if_pos ⟨Nat.zero_le j, by omega, hpos⟩]
      · have hc : ¬ (0 ≤ j ∧ j < 0 + a.length ∧ c.innerValue j c.obs_ > 0) := fun h => hpos h.2.2
        rw [if_neg hpos, if_neg hc]
  · intro hsize
    simp [applyTo, hsize]

theorem C26_apply_at_observation_witness :
    (∃ a1, applyTo knockout4 [5, 6, 7, 8] knockout4.obs_ = (.ok (), a1) ∧
      a1.length = [(5 : ℚ), 6, 7, 8].length ∧
      ∀ j, j < [(5 : ℚ), 6, 7, 8].length →
        a1[j]? = if knockout4.innerValue j knockout4.obs_ > 0
          then some (knockout4.innerValue j knockout4.obs_) else [(5 : ℚ), 6, 7, 8][j]?) ∧
    applyTo knockout4 [5, 6, 7] knockout4.obs_ =
      (.error (.error "inconsistent array dimensions"), [5, 6, 7]) :=
  ⟨(C26_apply_at_observation knockout4 [5, 6, 7, 8]).1 rfl,
    (C26_apply_at_observation knockout4 [5, 6, 7]).2 (by decide)⟩

end KnockoutTheorems

/-! ## Path pricer: monitoring index, knock-in flag and index safety -/

section WalkState

open AutocallPathPricer Examples

theorem readAt_of_lt {R : Type} (what : String) (xs : List R) (i : Nat) (h : i < xs.length) :
    ∃ x, readAt what xs i = .ok x ∧ xs[i]? = some x := by
  refine ⟨xs[i], ?_, List.getElem?_eq_getElem h⟩
  simp [readAt, List.getElem?_eq_getElem h]

theorem readBack_of_ne_nil {R : Type} (what : String) (xs : List R) (h : xs ≠ []) :
    ∃ x, readBack what xs = .ok x := by
  cases hl : xs.getLast? with
  | none => exact absurd (List.getLast?_eq_none_iff.mp hl) h
  | some x => exact ⟨x, by simp [readBack, hl]⟩

/-- What the monitoring test returns: it reads `timeGrid[i]` and `fixings_[knockNode]`, and
it is true exactly when the time lies in `(fixings_[knockNode], fixings_[knockNode + 1]]`. -/
theorem monitored_ok {R : Type} [LinearOrderedField R]
    (pricer : AutocallPathPricer R) (path : Path R) (i k : Nat) (m : Bool)
    (h : monitored pricer path i k = .ok m) :
    ∃ t lower, path.timeGrid.times[i]? = some t ∧ pricer.fixings_[k]? = some lower ∧
      (m = true ↔ lower < t ∧ ∃ upper, pricer.fixings_[k + 1]? = some upper ∧ t ≤ upper) := by
  unfold monitored at h
  cases h1 : readAt "timeGrid[i]" path.timeGrid.times i with
  | error e => simp [h1, bind, Except.bind] at h
  | ok t =>
    cases h2 : readAt "fixings_[knockNode]" pricer.fixings_ k with
    | error e => simp [h1, h2, bind, Except.bind] at h
    | ok lower =>
      refine ⟨t, lower, (readAt_ok_iff _ _ _ _).mp h1, (readAt_ok_iff _ _ _ _).mp h2, ?_⟩
      by_cases hgt : t > lower
      · cases h3 : readAt "fixings_[knockNode + 1]" pricer.fixings_ (k + 1) with
        | error e => simp [h1, h2, h3, hgt, bind, Except.bind] at h
        | ok upper =>
          have hu := (readAt_ok_iff _ _ _ _).mp h3
          simp only [h1, h2, h3, hgt, if_true, bind, Except.bind, pure, Except.pure,
            Except.ok.injEq] at h
          rw [← h]
          constructor
          · intro hm
            exact ⟨hgt, upper, hu, by simpa using hm⟩
          · rintro ⟨_, upper2, hu2, hle⟩
            rw [hu] at hu2
            cases hu2
            simpa using hle
      · simp only [h1, h2, hgt, if_false, bind, Except.bind, pure, Except.pure,
          Except.ok.injEq] at h
        rw [← h]
        constructor
        · intro hm
          simp at hm
        · rintro ⟨hlt, _⟩
          exact absurd hlt hgt

theorem finishStep_active {R : Type} [LinearOrderedField R] (pricer : AutocallPathPricer R)
    (q y : R) (s : WalkState R) :
    ((finishStep pricer q y s).isOptionActive = true ↔
      s.isOptionActive = true ∨ y ≤ pricer.kiBarrier_) ∧
    (finishStep pricer q y s).asset_price = q ∧
    (finishStep pricer q y s).knockNode = s.knockNode ∧
    (finishStep pricer q y s).isKnockOut = s.isKnockOut ∧
    (finishStep pricer q y s).ko = s.ko := by
  unfold finishStep
  by_cases hy : y ≤ pricer.kiBarrier_
  · simp [hy]
  · simp [hy]

/-- Claim C28 as the code has it.  At a step `i` of the walk that returns (entered with
`isKnockOut` false), with `t = timeGrid[i]` and `y` the bridge-corrected price of the step:
`knockNode` is advanced by one exactly when `t` lies in the current interval
`(fixings_[knockNode], fixings_[knockNode + 1]]` and `y < koBarrier_`, and is unchanged
otherwise; the step knocks out (with `ko = i`) exactly when `t` lies in the current interval
and `y >= koBarrier_`. -/
theorem C28_knock_node_advance {R : Type} [LinearOrderedField R] (ops : MathOps R)
    (pricer : AutocallPathPricer R) (path : Path R) (u : List R) (i : Nat)
    (s s1 : WalkState R) (hstep : step ops pricer path u i s = .ok s1)
    (hs : s.isKnockOut = false) :
    ∃ t lower q y, path.timeGrid.times[i]? = some t ∧
      pricer.fixings_[s.knockNode]? = some lower ∧
      bridgePrice ops pricer path u i s.asset_price = .ok (q, y) ∧
      (s1.knockNode = s.knockNode + 1 ↔
        (lower < t ∧ ∃ upper, pricer.fixings_[s.knockNode + 1]? = some upper ∧ t ≤ upper) ∧
          y < pricer.koBarrier_) ∧
      (s1.knockNode = s.knockNode + 1 ∨ s1.knockNode = s.knockNode) ∧
      (s1.isKnockOut = true ↔
        (lower < t ∧ ∃ upper, pricer.fixings_[s.knockNode + 1]? = some upper ∧ t ≤ upper) ∧
          y ≥ pricer.koBarrier_) ∧
      (s1.isKnockOut = true → s1.ko = i) := by
  obtain ⟨q, y, m, hb, hm, hcase⟩ := step_ok ops pricer path u i s s1 hstep
  obtain ⟨t, lower, ht, hl, hiff⟩ := monitored_ok pricer path i s.knockNode m hm
  refine ⟨t, lower, q, y, ht, hl, hb, ?_⟩
  rcases hcase with ⟨hmt, hy, hs1⟩ | ⟨hnot, hs1⟩
  · have hM := hiff.mp hmt
    subst hs1
    refine ⟨?_, Or.inr rfl, ?_, fun _ => rfl⟩
    · constructor
      · intro h
        simp at h
      · rintro ⟨_, hlt⟩
        exact absurd hy (not_le.mpr hlt)
    · constructor
      · intro _
        exact ⟨hM, hy⟩
      · intro _
        rfl
  · obtain ⟨_, _, hkn, hko, _⟩ := finishStep_active pricer q y
      (if m = true then
        (if (!s.isKnockOut) = true then { s with knockNode := s.knockNode + 1 } else s)
       else s)
    rw [← hs1] at hkn hko
    cases m with
    | true =>
      have hM := hiff.mp rfl
      have hylt : y < pricer.koBarrier_ := by
        by_contra hc
        exact hnot ⟨rfl, not_lt.mp hc⟩
      simp only [hs, if_true, Bool.not_false] at hkn hko
      refine ⟨?_, Or.inl hkn, ?_, fun h => ?_⟩
      · exact ⟨fun _ => ⟨hM, hylt⟩, fun _ => hkn⟩
      · constructor
        · intro h
          rw [hko] at h
          simp at h
        · rintro ⟨_, hge⟩
          exact absurd hge (not_le.mpr hylt)
      · rw [hko] at h
        simp at h
    | false =>
      have hM : ¬ (lower < t ∧ ∃ upper, pricer.fixings_[s.knockNode + 1]? = some upper ∧
          t ≤ upper) := fun h => by simpa using hiff.mpr h
      simp only [Bool.false_eq_true, if_false] at hkn hko
      refine ⟨?_, Or.inr hkn, ?_, fun h => ?_⟩
      · constructor
        · intro h
          omega
        · rintro ⟨h, _⟩
          exact absurd h hM
      · constructor
        · intro h
          rw [hko, hs] at h
          simp at h
        · rintro ⟨h, _⟩
          exact absurd h hM
      · rw [hko, hs] at h
        simp at h

/-- The knock-in flag along a walk that does not knock out: it is set at the end exactly when
it was set at the start or some step taken had a bridge-corrected price at or below
`kiBarrier_`. -/
theorem walk_active_iff {R : Type} [LinearOrderedField R] (ops : MathOps R)
    (pricer : AutocallPathPricer R) (path : Path R) (u : List R) :
    ∀ (k i : Nat) (s s' : WalkState R),
      walk ops pricer path u k i s = .ok s' → s'.isKnockOut = false →
      path.values[i]? = some s.asset_price →
      (s'.isOptionActive = true ↔ s.isOptionActive = true ∨
        ∃ j p q y, i ≤ j ∧ j < i + k ∧ path.values[j]? = some p ∧
          bridgePrice ops pricer path u j p = .ok (q, y) ∧ y ≤ pricer.kiBarrier_) := by
  intro k
  induction k with
  | zero =>
    intro i s s' h _ _
    simp only [walk, pure, Except.pure, Except.ok.injEq] at h
    subst h
    constructor
    · intro h
      exact Or.inl h
    · rintro (h | ⟨j, _, _, _, h1, h2, _⟩)
      · exact h
      · omega
  | succ k ih =>
    intro i s s' h hk hv
    simp only [walk, bind, Except.bind] at h
    cases hstep : step ops pricer path u i s with
    | error e => simp [hstep] at h
    | ok s1 =>
      simp only [hstep] at h
      by_cases h1 : s1.isKnockOut = true
      · simp only [h1, if_true, pure, Except.pure, Except.ok.injEq] at h
        rw [← h, h1] at hk
        exact absurd hk (by simp)
      · have h1' : s1.isKnockOut = false := by simpa using h1
        simp only [h1', Bool.false_eq_true, if_false] at h
        obtain ⟨q, y, m, hb, _, hcase⟩ := step_ok ops pricer path u i s s1 hstep
        have hq := bridgePrice_ok ops pricer path u i _ q y hb
        rcases hcase with ⟨_, _, hs1⟩ | ⟨_, hs1⟩
        · rw [hs1] at h1'
          simp at h1'
        · obtain ⟨hact, hprice, _, _, _⟩ := finishStep_active pricer q y
            (if m = true then
              (if (!s.isKnockOut) = true then { s with knockNode := s.knockNode + 1 } else s)
             else s)
          rw [← hs1] at hact hprice
          have hsame : (if m = true then
              (if (!s.isKnockOut) = true then { s with knockNode := s.knockNode + 1 } else s)
             else s).isOptionActive = s.isOptionActive := by
            cases m <;> cases s.isKnockOut <;> rfl
          rw [hsame] at hact
          have hv1 : path.values[i + 1]? = some s1.asset_price := by rw [hprice]; exact hq
          rw [ih (i + 1) s1 s' h hk hv1, hact]
          constructor
          · rintro ((ha | hy) | ⟨j, p, q', y', h1, h2, h3, h4, h5⟩)
            · exact Or.inl ha
            · exact Or.inr ⟨i, s.asset_price, q, y, le_refl i, by omega, hv, hb, hy⟩
            · exact Or.inr ⟨j, p, q', y', by omega, by omega, h3, h4, h5⟩
          · rintro (ha | ⟨j, p, q', y', h1, h2, h3, h4, h5⟩)
            · exact Or.inl (Or.inl ha)
            · by_cases hji : j = i
              · subst hji
                rw [hv] at h3
                cases h3
                rw [hb] at h4
                simp only [Except.ok.injEq, Prod.mk.injEq] at h4
                rw [h4.2]
                exact Or.inl (Or.inr h5)
              · exact Or.inr ⟨j, p, q', y', by omega, by omega, h3, h4, h5⟩

/-- Claim C29 (knock-in flag).  The flag `isOptionActive` is false on entry to the loop, and
after any number `k` of steps that did not knock out (`k = n - 1` at the end of the walk) it
is true if and only if some step `i < k`, taken from the path node `p = path[i]`, had a
bridge-corrected price `y <= kiBarrier_`; so it is set at the first such step and never
reset. -/
theorem C29_knock_in_flag {R : Type} [LinearOrderedField R] (ops : MathOps R)
    (pricer : AutocallPathPricer R) (path : Path R) (u : List R) (k : Nat) (front : R)
    (s' : WalkState R)
    (hfront : path.values[0]? = some front)
    (hwalk : walk ops pricer path u k 0 (initial front) = .ok s')
    (hno : s'.isKnockOut = false) :
    (initial front).isOptionActive = false ∧
    (s'.isOptionActive = true ↔
      ∃ i p q y, i < k ∧ path.values[i]? = some p ∧
        bridgePrice ops pricer path u i p = .ok (q, y) ∧ y ≤ pricer.kiBarrier_) := by
  refine ⟨rfl, ?_⟩
  rw [walk_active_iff ops pricer path u k 0 (initial front) s' hwalk hno hfront]
  constructor
  · rintro (h | ⟨j, p, q, y, _, h2, h3, h4, h5⟩)
    · simp [initial] at h
    · exact ⟨j, p, q, y, by omega, h3, h4, h5⟩
  · rintro ⟨j, p, q, y, h2, h3, h4, h5⟩
    exact Or.inr ⟨j, p, q, y, Nat.zero_le j, by omega, h3, h4, h5⟩

theorem bridgePrice_total {R : Type} [LinearOrderedField R] (ops : MathOps R)
    (pricer : AutocallPathPricer R) (path : Path R) (u : List R) (i : Nat) (p : R)
    (h1 : i + 1 < path.values.length) (h2 : i < path.timeGrid.times.length)
    (h3 : i < path.timeGrid.dt.length) (h4 : i < u.length) :
    ∃ q y, bridgePrice ops pricer path u i p = .ok (q, y) := by
  obtain ⟨v1, hv1, _⟩ := readAt_of_lt "path[i+1]" path.values (i + 1) h1
  obtain ⟨v2, hv2, _⟩ := readAt_of_lt "timeGrid[i]" path.timeGrid.times i h2
  obtain ⟨v3, hv3, _⟩ := readAt_of_lt "timeGrid.dt(i)" path.timeGrid.dt i h3
  obtain ⟨v4, hv4, _⟩ := readAt_of_lt "u[i]" u i h4
  simp [bridgePrice, hv1, hv2, hv3, hv4, bind, Except.bind, pure, Except.pure]

theorem monitored_total {R : Type} [LinearOrderedField R]
    (pricer : AutocallPathPricer R) (path : Path R) (i k : Nat) (L : R)
    (h2 : i < path.timeGrid.times.length) (hk : k < pricer.fixings_.length)
    (hL : pricer.fixings_.getLast? = some L)
    (hle : ∀ t ∈ path.timeGrid.times, t ≤ L) :
    ∃ m, monitored pricer path i k = .ok m ∧ (m = true → k + 1 < pricer.fixings_.length) := by
  obtain ⟨t, ht, ht2⟩ := readAt_of_lt "timeGrid[i]" path.timeGrid.times i h2
  obtain ⟨lower, hl, hl2⟩ := readAt_of_lt "fixings_[knockNode]" pricer.fixings_ k hk
  have htL : t ≤ L := hle t (List.getElem?_mem ht2)
  by_cases hgt : t > lower
  · have hk1 : k + 1 < pricer.fixings_.length := by
      by_contra hc
      have hkl : k = pricer.fixings_.length - 1 := by omega
      rw [List.getLast?_eq_getElem?, ← hkl, hl2] at hL
      cases hL
      exact absurd htL (not_le.mpr hgt)
    obtain ⟨upper, hu, _⟩ := readAt_of_lt "fixings_[knockNode + 1]" pricer.fixings_ (k + 1) hk1
    exact ⟨decide (t ≤ upper), by
      simp only [monitored, ht, hl, hu, hgt, if_true, bind, Except.bind, pure, Except.pure],
      fun _ => hk1⟩
  · exact ⟨false, by
      simp only [monitored, ht, hl, hgt, if_false, bind, Except.bind, pure, Except.pure],
      fun h => by simp at h⟩

theorem step_total {R : Type} [LinearOrderedField R] (ops : MathOps R)
    (pricer : AutocallPathPricer R) (path : Path R) (u : List R) (i : Nat) (s : WalkState R)
    (L : R)
    (h1 : i + 1 < path.values.length) (h2 : i < path.timeGrid.times.length)
    (h3 : i < path.timeGrid.dt.length) (h4 : i < u.length)
    (hk : s.knockNode < pricer.fixings_.length) (hs : s.isKnockOut = false)
    (hL : pricer.fixings_.getLast? = some L)
    (hle : ∀ t ∈ path.timeGrid.times, t ≤ L) :
    ∃ s1, step ops pricer path u i s = .ok s1 ∧ s1.knockNode < pricer.fixings_.length ∧
      (s1.isKnockOut = true → s1.ko = i) := by
  obtain ⟨q, y, hb⟩ := bridgePrice_total ops pricer path u i s.asset_price h1 h2 h3 h4
  obtain ⟨m, hm, hm1⟩ := monitored_total pricer path i s.knockNode L h2 hk hL hle
  cases m with
  | true =>
    have hk1 := hm1 rfl
    by_cases hy : y ≥ pricer.koBarrier_
    · exact ⟨{ s with isKnockOut := true, ko := i }, by
        simp [step, hb, hm, hy, bind, Except.bind, pure, Except.pure], hk, fun _ => rfl⟩
    · refine ⟨finishStep pricer q y { s with knockNode := s.knockNode + 1 }, by
        simp [step, hb, hm, hy, hs, bind, Except.bind, pure, Except.pure], ?_, ?_⟩
      · rw [(finishStep_active pricer q y _).2.2.1]
        exact hk1
      · intro h
        rw [(finishStep_active pricer q y _).2.2.2.1] at h
        simp [hs] at h
  | false =>
    refine ⟨finishStep pricer q y s, by
      simp [step, hb, hm, bind, Except.bind, pure, Except.pure], ?_, ?_⟩
    · rw [(finishStep_active pricer q y _).2.2.1]
      exact hk
    · intro h
      rw [(finishStep_active pricer q y _).2.2.2.1] at h
      simp [hs] at h

/-- The walk over steps `i, ..., i + k - 1` of a path whose nodes and draws exist and whose
times are bounded by the last fixing: it returns, and a knock-out index is one of those
steps. -/
theorem walk_total {R : Type} [LinearOrderedField R] (ops : MathOps R)
    (pricer : AutocallPathPricer R) (path : Path R) (u : List R) (L : R)
    (hL : pricer.fixings_.getLast? = some L)
    (hle : ∀ t ∈ path.timeGrid.times, t ≤ L) :
    ∀ (k i : Nat) (s : WalkState R),
      i + k < path.values.length → i + k ≤ path.timeGrid.times.length →
      i + k ≤ path.timeGrid.dt.length → i + k ≤ u.length →
      s.knockNode < pricer.fixings_.length → s.isKnockOut = false →
      ∃ s1, walk ops pricer path u k i s = .ok s1 ∧ (s1.isKnockOut = true → s1.ko < i + k) := by
  intro k
  induction k with
  | zero =>
    intro i s _ _ _ _ _ hs
    exact ⟨s, rfl, fun h => by simp [hs] at h⟩
  | succ k ih =>
    intro i s h1 h2 h3 h4 hk hs
    obtain ⟨s1, hstep, hk1, hko⟩ := step_total ops pricer path u i s L (by omega) (by omega)
      (by omega) (by omega) hk hs hL hle
    by_cases hout : s1.isKnockOut = true
    · refine ⟨s1, by simp [walk, hstep, hout, bind, Except.bind, pure, Except.pure], fun _ => ?_⟩
      rw [hko hout]
      omega
    · have hout1 : s1.isKnockOut = false := by simpa using hout
      obtain ⟨s2, hwalk, hko2⟩ := ih (i + 1) s1 (by omega) (by omega) (by omega) (by omega)
        hk1 hout1
      refine ⟨s2, by simp [walk, hstep, hout1, hwalk, bind, Except.bind], fun h => ?_⟩
      have := hko2 h
      omega

theorem settle_total {R : Type} [LinearOrderedField R]
    (pricer : AutocallPathPricer R) (path : Path R) (s : WalkState R)
    (ht : path.timeGrid.times ≠ []) (hd : pricer.discounts_ ≠ [])
    (hko : s.isKnockOut = true →
      s.ko < path.timeGrid.times.length ∧ s.ko < pricer.discounts_.length) :
    ∃ v, settle pricer path s = .ok v := by
  obtain ⟨T, hT⟩ := readBack_of_ne_nil "timeGrid.back()" path.timeGrid.times ht
  obtain ⟨D, hD⟩ := readBack_of_ne_nil "discounts_.back()" pricer.discounts_ hd
  cases hout : s.isKnockOut with
  | true =>
    obtain ⟨h1, h2⟩ := hko hout
    obtain ⟨t, ht1, _⟩ := readAt_of_lt "timeGrid[ko]" path.timeGrid.times s.ko h1
    obtain ⟨d, hd1, _⟩ := readAt_of_lt "discounts_[ko]" pricer.discounts_ s.ko h2
    simp [settle, hout, ht1, hd1, bind, Except.bind, pure, Except.pure]
  | false =>
    cases hact : s.isOptionActive <;>
      simp [settle, hout, hact, hT, hD, bind, Except.bind, pure, Except.pure]

/-- Claim C30 (index safety).  For a path of `n >= 2` nodes (with `n` values and `n - 1`
step lengths), a sequence of `n - 1` draws, `n` discount factors and a fixing schedule whose
last entry is at or after every path time, `operator()` returns a value: no read of
`fixings_[knockNode]`, `fixings_[knockNode + 1]`, `u[i]`, `discounts_[ko]` or of the path is
out of range.  (That the schedule is strictly increasing and starts at or before the first
path time is not needed.) -/
theorem C30_reads_within_bounds {R : Type} [LinearOrderedField R] (ops : MathOps R)
    (pricer : AutocallPathPricer R) (gen : SequenceGenerator R) (path : Path R) (L : R)
    (hn : path.length > 1)
    (hvalues : path.values.length = path.length)
    (hdt : path.timeGrid.dt.length = path.length - 1)
    (hu : (gen.sequences gen.drawn).length = path.length - 1)
    (hdisc : pricer.discounts_.length = path.length)
    (hL : pricer.fixings_.getLast? = some L)
    (hle : ∀ t ∈ path.timeGrid.times, t ≤ L) :
    ∃ v, (operator ops pricer gen path).1 = .ok v := by
  have hlen : path.timeGrid.times.length = path.length := rfl
  obtain ⟨front, _, hfront⟩ := readAt_of_lt "path.front()" path.values 0 (by omega)
  have hfix : 0 < pricer.fixings_.length := by
    cases hf : pricer.fixings_ with
    | nil => simp [hf] at hL
    | cons x xs => simp
  obtain ⟨s, hwalk, hko⟩ := walk_total ops pricer path (gen.sequences gen.drawn) L hL hle
    (path.length - 1) 0 (initial front) (by omega) (by omega) (by omega) (by omega) hfix rfl
  have hsettle := settle_total pricer path s
    (by intro h; rw [h] at hlen; simp at hlen; omega)
    (by intro h; rw [h] at hdisc; simp at hdisc; omega)
    (fun h => by have := hko h; omega)
  obtain ⟨v, hv⟩ := hsettle
  exact ⟨v, by rw [operator_of_walk ops pricer gen path front s hn hfront hwalk, hv]⟩

end WalkState

section WalkStateWitnesses

open AutocallPathPricer Examples

theorem walk_pricerOnce_two :
    walk ratOps pricerOnce pathJump (gen1.sequences gen1.drawn) 2 0 (initial 100) =
      .ok ⟨false, false, 0, 1, 100⟩ := by
  simp only [walk, step, bridgePrice, monitored, readAt, pathJump, path1, gen1, initial,
    List.getElem?_cons_succ, List.getElem?_cons_zero, bind]
  simp only [Except.bind, pure, Except.pure]
  norm_num [ratOps, pricerOnce, finishStep]

theorem walk_pricerOnce :
    walk ratOps pricerOnce pathJump (gen1.sequences gen1.drawn) (pathJump.length - 1) 0
      (initial 100) = .ok ⟨false, false, 0, 1, 200⟩ := by
  simp only [Path.length, pathJump, path1, List.length_cons, List.length_nil, walk, step,
    bridgePrice, monitored, readAt, gen1, initial, List.getElem?_cons_succ,
    List.getElem?_cons_zero, bind]
  simp only [Except.bind, pure, Except.pure]
  norm_num [ratOps, pricerOnce, finishStep]

/-- Claim C28 fails as stated.  With the single interval `(0, 1]` on a quarterly grid:
after step 1 the index `knockNode` is 1 although `timeGrid[1] = 1/4` does not exceed
`fixings_[1] = 1`; and step 2, whose time `1/2` lies in `(fixings_[0], fixings_[1]]` and
whose bridge-corrected price 200 is at least `koBarrier_ = 150`, does not knock out: the walk
ends with `isKnockOut` false. -/
theorem C28_counterexample :
    walk ratOps pricerOnce pathJump (gen1.sequences gen1.drawn) 2 0 (initial 100) =
      .ok ⟨false, false, 0, 1, 100⟩ ∧
    pathJump.timeGrid.times[1]? = some (1 / 4) ∧ pricerOnce.fixings_[1]? = some 1 ∧
    ¬ ((1 / 4 : ℚ) > 1) ∧
    pathJump.timeGrid.times[2]? = some (1 / 2) ∧ pricerOnce.fixings_[0]? = some 0 ∧
    (0 : ℚ) < 1 / 2 ∧ (1 / 2 : ℚ) ≤ 1 ∧
    bridgePrice ratOps pricerOnce pathJump (gen1.sequences gen1.drawn) 2 100 = .ok (200, 200) ∧
    (200 : ℚ) ≥ pricerOnce.koBarrier_ ∧
    walk ratOps pricerOnce pathJump (gen1.sequences gen1.drawn) (pathJump.length - 1) 0
      (initial 100) = .ok ⟨false, false, 0, 1, 200⟩ := by
  refine ⟨walk_pricerOnce_two, rfl, rfl, by norm_num, rfl, rfl, by norm_num, by norm_num, ?_,
    by norm_num [pricerOnce], walk_pricerOnce⟩
  simp only [bridgePrice, readAt, pathJump, path1, gen1, List.getElem?_cons_succ,
    List.getElem?_cons_zero, bind]
  simp only [Except.bind, pure, Except.pure]
  norm_num [ratOps, pricerOnce]

/-- Witness for C28: step 1 of the example walk, entered with `knockNode = 0` at time `1/4`
inside `(0, 1]` with a bridge-corrected price below the knock-out barrier. -/
theorem C28_knock_node_advance_witness :
    step ratOps pricerOnce pathJump (gen1.sequences gen1.drawn) 1 ⟨false, false, 0, 0, 100⟩ =
      .ok ⟨false, false, 0, 1, 100⟩ ∧
    ∃ t lower q y, pathJump.timeGrid.times[1]? = some t ∧
      pricerOnce.fixings_[0]? = some lower ∧
      bridgePrice ratOps pricerOnce pathJump (gen1.sequences gen1.drawn) 1 100 = .ok (q, y) ∧
      ((1 : ℕ) = 0 + 1 ↔
        (lower < t ∧ ∃ upper, pricerOnce.fixings_[0 + 1]? = some upper ∧ t ≤ upper) ∧
          y < pricerOnce.koBarrier_) ∧
      ((1 : ℕ) = 0 + 1 ∨ (1 : ℕ) = 0) ∧
      (false = true ↔
        (lower < t ∧ ∃ upper, pricerOnce.fixings_[0 + 1]? = some upper ∧ t ≤ upper) ∧
          y ≥ pricerOnce.koBarrier_) ∧
      (false = true → (0 : ℕ) = 1) :=
  have hstep : step ratOps pricerOnce pathJump (gen1.sequences gen1.drawn) 1
      ⟨false, false, 0, 0, 100⟩ = .ok ⟨false, false, 0, 1, 100⟩ := by
    simp only [step, bridgePrice, monitored, readAt, pathJump, path1, gen1,
      List.getElem?_cons_succ, List.getElem?_cons_zero, bind]
    simp only [Except.bind, pure, Except.pure]
    norm_num [ratOps, pricerOnce, finishStep]
  ⟨hstep, C28_knock_node_advance ratOps pricerOnce pathJump (gen1.sequences gen1.drawn) 1
    ⟨false, false, 0, 0, 100⟩ ⟨false, false, 0, 1, 100⟩ hstep rfl⟩

/-- Witness for C29: on the three-node path with the knock-in barrier above every price the
walk ends with the flag set. -/
theorem C29_knock_in_flag_witness :
    walk ratOps pricerActive path3 (gen3.sequences gen3.drawn) (path3.length - 1) 0
      (initial 100) = .ok ⟨true, false, 0, 1, 90⟩ ∧
    (initial (100 : ℚ)).isOptionActive = false ∧
    ((⟨true, false, 0, 1, 90⟩ : WalkState ℚ).isOptionActive = true ↔
      ∃ i p q y, i < path3.length - 1 ∧ path3.values[i]? = some p ∧
        bridgePrice ratOps pricerActive path3 (gen3.sequences gen3.drawn) i p = .ok (q, y) ∧
        y ≤ pricerActive.kiBarrier_) :=
  ⟨walk_pricerActive,
    C29_knock_in_flag ratOps pricerActive path3 (gen3.sequences gen3.drawn) (path3.length - 1)
      100 ⟨true, false, 0, 1, 90⟩ rfl walk_pricerActive rfl⟩

/-- Witness for C30: the five-node example path with four draws, five discount factors and
fixings ending at 1. -/
theorem C30_reads_within_bounds_witness :
    path1.length > 1 ∧ pricer1.fixings_.getLast? = some 1 ∧
    ∃ v, (operator ratOps pricer1 gen1 path1).1 = .ok v :=
  ⟨by decide, rfl,
    C30_reads_within_bounds ratOps pricer1 gen1 path1 1 (by decide) rfl rfl rfl rfl rfl
      (by
        intro t ht
        simp only [path1, List.mem_cons, List.mem_singleton, List.not_mem_nil, or_false] at ht
        rcases ht with h | h | h | h | h <;> rw [h] <;> norm_num)⟩

end WalkStateWitnesses

/-! ## The two formulas of a case of the analytic table -/

section BranchTheorems

open AnalyticBinaryBarrierEngine Examples

/-- The case table is `caseBranch` at the outcome of its comparison `strike >= barrier`. -/
theorem AnalyticBinaryBarrierEngine.caseTable_eq_caseBranch {R : Type} [LinearOrderedField R]
    (ops : MathOps R) (process : GeneralizedBlackScholesProcess R) (args : BarrierArguments R)
    (eta0 : R) (type : OptionType) (k : R) (hk : strike args = .ok k) :
    caseTable ops process args eta0 type =
      caseBranch ops process args (decide (k ≥ args.barrier)) eta0 type := by
  simp only [caseTable, caseBranch, hk, bind, Except.bind, decide_eq_true_eq]

/-- Closed forms of the four cash blocks for a cash-or-nothing payoff with a positive
barrier. -/
theorem AnalyticBinaryBarrierEngine.cash_blocks {R : Type} [LinearOrderedField R]
    (ops : MathOps R) (process : GeneralizedBlackScholesProcess R) (args : BarrierArguments R)
    (k cash : R) (hk : strike args = .ok k) (hc : args.payoff.asCashOrNothing = some cash)
    (hH : args.barrier > 0) (x : R) :
    B1 ops process args x = .ok (cash * process.riskFreeDiscount *
      ops.f_ (x * (ops.log (process.x0 / k) / ops.sqrt (process.blackVariance k) +
        (ops.log (process.dividendDiscount / process.riskFreeDiscount) /
          process.blackVariance k - 1 / 2) * ops.sqrt (process.blackVariance k)))) ∧
    B2 ops process args x = .ok (cash * process.riskFreeDiscount *
      ops.f_ (x * (ops.log (process.x0 / args.barrier) / ops.sqrt (process.blackVariance k) +
        (ops.log (process.dividendDiscount / process.riskFreeDiscount) /
          process.blackVariance k - 1 / 2) * ops.sqrt (process.blackVariance k)))) ∧
    B3 ops process args x = .ok (cash * process.riskFreeDiscount *
      ops.pow (args.barrier / process.x0)
        (2 * (ops.log (process.dividendDiscount / process.riskFreeDiscount) /
          process.blackVariance k - 1 / 2)) *
      ops.f_ (x * (ops.log (args.barrier * args.barrier / (process.x0 * k)) /
          ops.sqrt (process.blackVariance k) +
        (ops.log (process.dividendDiscount / process.riskFreeDiscount) /
          process.blackVariance k - 1 / 2) * ops.sqrt (process.blackVariance k)))) ∧
    B4 ops process args x = .ok (cash * process.riskFreeDiscount *
      ops.pow (args.barrier / process.x0)
        (2 * (ops.log (process.dividendDiscount / process.riskFreeDiscount) /
          process.blackVariance k - 1 / 2)) *
      ops.f_ (x * (ops.log (args.barrier / process.x0) /
          ops.sqrt (process.blackVariance k) +
        (ops.log (process.dividendDiscount / process.riskFreeDiscount) /
          process.blackVariance k - 1 / 2) * ops.sqrt (process.blackVariance k)))) := by
  refine ⟨?_, ?_, ?_, ?_⟩ <;>
    simp only [B1, B2, B3, B4, hc, hk, hH, if_true, AnalyticBinaryBarrierEngine.barrier,
      log_S_X, log_S_H, log_H_S, log_H2_SX, H_S_2mu, mu, stdDeviation, variance, spot,
      riskFreeDiscount, dividendDiscount, bind, Except.bind, pure, Except.pure]

/-- Closed forms of the four asset blocks for a striked payoff with a positive barrier. -/
theorem AnalyticBinaryBarrierEngine.asset_blocks {R : Type} [LinearOrderedField R]
    (ops : MathOps R) (process : GeneralizedBlackScholesProcess R) (args : BarrierArguments R)
    (k : R) (hk : strike args = .ok k) (hH : args.barrier > 0) (x : R) :
    A1 ops process args x = .ok (process.x0 * process.dividendDiscount *
      ops.f_ (x * (ops.log (process.x0 / k) / ops.sqrt (process.blackVariance k) +
        (ops.log (process.dividendDiscount / process.riskFreeDiscount) /
          process.blackVariance k - 1 / 2 + 1) * ops.sqrt (process.blackVariance k)))) ∧
    A2 ops process args x = .ok (process.x0 * process.dividendDiscount *
      ops.f_ (x * (ops.log (process.x0 / args.barrier) / ops.sqrt (process.blackVariance k) +
        (ops.log (process.dividendDiscount / process.riskFreeDiscount) /
          process.blackVariance k - 1 / 2 + 1) * ops.sqrt (process.blackVariance k)))) ∧
    A3 ops process args x = .ok (process.x0 * process.dividendDiscount *
      ops.pow (args.barrier / process.x0)
        (2 * (ops.log (process.dividendDiscount / process.riskFreeDiscount) /
          process.blackVariance k - 1 / 2 + 1)) *
      ops.f_ (x * (ops.log (args.barrier * args.barrier / (process.x0 * k)) /
          ops.sqrt (process.blackVariance k) +
        (ops.log (process.dividendDiscount / process.riskFreeDiscount) /
          process.blackVariance k - 1 / 2 + 1) * ops.sqrt (process.blackVariance k)))) ∧
    A4 ops process args x = .ok (process.x0 * process.dividendDiscount *
      ops.pow (args.barrier / process.x0)
        (2 * (ops.log (process.dividendDiscount / process.riskFreeDiscount) /
          process.blackVariance k - 1 / 2 + 1)) *
      ops.f_ (x * (ops.log (args.barrier / process.x0) /
          ops.sqrt (process.blackVariance k) +
        (ops.log (process.dividendDiscount / process.riskFreeDiscount) /
          process.blackVariance k - 1 / 2 + 1) * ops.sqrt (process.blackVariance k)))) := by
  refine ⟨?_, ?_, ?_, ?_⟩ <;>
    simp only [A1, A2, A3, A4, hk, hH, if_true, AnalyticBinaryBarrierEngine.barrier,
      log_S_X, log_S_H, log_H_S, log_H2_SX, H_S_2mu_1, mu, stdDeviation, variance, spot,
      riskFreeDiscount, dividendDiscount, bind, Except.bind, pure, Except.pure]

/-- Claim C27 as the code has it.  For a striked payoff, a positive barrier and
`strike = barrier`, the formula of the branch `strike >= barrier` and the formula of the
branch `strike < barrier` give the same value in every case of the table, for every
interpretation of the mathematical functions.  (For `strike ≠ barrier` the two are different
formulas.) -/
theorem C27_branches_agree_at_barrier {R : Type} [LinearOrderedField R]
    (ops : MathOps R) (process : GeneralizedBlackScholesProcess R) (args : BarrierArguments R)
    (eta0 : R) (type : OptionType) (k : R)
    (hk : strike args = .ok k) (hH : args.barrier > 0) (hkH : k = args.barrier) :
    caseBranch ops process args true eta0 type =
      caseBranch ops process args false eta0 type := by
  have hlog : args.barrier * args.barrier / (process.x0 * args.barrier) =
      args.barrier / process.x0 := mul_div_mul_right _ _ (ne_of_gt hH)
  subst hkH
  have hA := asset_blocks ops process args _ hk hH
  cases hc : args.payoff.asCashOrNothing with
  | none =>
    cases hb : args.barrierType <;> cases type <;> cases hp : args.payAtExpiry <;>
      simp [caseBranch, hc, hb, hp, hk, hA, hlog, bind, Except.bind, pure, Except.pure]
  | some cash =>
    have hB := cash_blocks ops process args _ cash hk hc hH
    cases hb : args.barrierType <;> cases type <;> cases hp : args.payAtExpiry <;>
      simp [caseBranch, hc, hb, hp, hk, hB, hlog, bind, Except.bind, pure, Except.pure]

theorem C27_branches_agree_at_barrier_witness :
    caseBranch ratOps process105 ⟨.CashOrNothingPayoff .Call 100 15, .DownIn, 100, 0, true⟩
        true 0 .Call =
      caseBranch ratOps process105 ⟨.CashOrNothingPayoff .Call 100 15, .DownIn, 100, 0, true⟩
        false 0 .Call :=
  C27_branches_agree_at_barrier ratOps process105
    ⟨.CashOrNothingPayoff .Call 100 15, .DownIn, 100, 0, true⟩ 0 .Call 100 rfl
    (by norm_num) rfl

end BranchTheorems

section BranchCounterexample

open AnalyticBinaryBarrierEngine

/-- Case 22 (cash-or-nothing up-and-out call paid at expiry): the formula of the branch
`strike >= barrier` is the constant 0, the formula of the branch `strike < barrier` is
`B1(1) - B2(1) + B3(-1) - B4(-1)`. -/
theorem AnalyticBinaryBarrierEngine.caseBranch_upOutCall {R : Type} [LinearOrderedField R]
    (ops : MathOps R) (process : GeneralizedBlackScholesProcess R) (args : BarrierArguments R)
    (eta0 k cash b1 b2 b3 b4 : R)
    (hk : strike args = .ok k) (hc : args.payoff.asCashOrNothing = some cash)
    (hb : args.barrierType = .UpOut) (hp : args.payAtExpiry = true)
    (h1 : B1 ops process args 1 = .ok b1) (h2 : B2 ops process args 1 = .ok b2)
    (h3 : B3 ops process args (-1) = .ok b3) (h4 : B4 ops process args (-1) = .ok b4) :
    caseBranch ops process args true eta0 .Call = .ok 0 ∧
    caseBranch ops process args false eta0 .Call = .ok (b1 - b2 + b3 - b4) := by
  constructor <;>
    simp [caseBranch, hc, hb, hp, hk, h1, h2, h3, h4, bind, Except.bind, pure, Except.pure]

/-- The four blocks of case 22 in a market with `q = 0`, `r = 0.02`, `t = 25`, `vol = 0.20`
(so that the variance is 1 and `mu = 0`), spot 100, strike 100, cash 15, barrier 165. -/
theorem blocks_longDated (x : ℝ) :
    B1 realOps (flatMarket realOps 100 0 0.02 25 0.2)
        ⟨.CashOrNothingPayoff .Call 100 15, .UpOut, 165, 0, true⟩ x =
      .ok (15 * Real.exp (-(1 / 2)) * cumulativeNormal (x * 0)) ∧
    B2 realOps (flatMarket realOps 100 0 0.02 25 0.2)
        ⟨.CashOrNothingPayoff .Call 100 15, .UpOut, 165, 0, true⟩ x =
      .ok (15 * Real.exp (-(1 / 2)) * cumulativeNormal (x * Real.log (20 / 33))) ∧
    B3 realOps (flatMarket realOps 100 0 0.02 25 0.2)
        ⟨.CashOrNothingPayoff .Call 100 15, .UpOut, 165, 0, true⟩ x =
      .ok (15 * Real.exp (-(1 / 2)) * cumulativeNormal (x * Real.log (1089 / 400))) ∧
    B4 realOps (flatMarket realOps 100 0 0.02 25 0.2)
        ⟨.CashOrNothingPayoff .Call 100 15, .UpOut, 165, 0, true⟩ x =
      .ok (15 * Real.exp (-(1 / 2)) * cumulativeNormal (x * Real.log (33 / 20))) := by
  have hB := cash_blocks realOps (flatMarket realOps 100 0 0.02 25 0.2)
    ⟨.CashOrNothingPayoff .Call 100 15, .UpOut, 165, 0, true⟩ 100 15 rfl rfl (by norm_num) x
  obtain ⟨h1, h2, h3, h4⟩ := hB
  rw [h1, h2, h3, h4]
  norm_num [flatMarket, realOps]

theorem log_33_20_bounds :
    (1 / 2 : ℝ) ≤ Real.log (33 / 20) ∧ Real.log (33 / 20) ≤ 13 / 25 := by
  constructor
  · rw [Real.le_log_iff_exp_le (by norm_num)]
    have h1 := Real.exp_one_lt_d9
    have h2 : Real.exp 1 = Real.exp (1 / 2) * Real.exp (1 / 2) := by
      rw [← Real.exp_add]
      norm_num
    have hpos := Real.exp_pos (1 / 2)
    by_contra hc
    push_neg at hc
    nlinarith
  · rw [Real.log_le_iff_le_exp (by norm_num)]
    have h := Real.quadratic_le_exp_of_nonneg (x := 13 / 25) (by norm_num)
    have h3 : (33 / 20 : ℝ) ≤ 1 + 13 / 25 + (13 / 25) ^ 2 / 2 := by norm_num
    exact h3.trans h

/-- The normal probabilities of the long-dated example: `N(0) = 1/2`,
`N(-d) <= 0.3086` and `N(-2d) >= 0.1491` for `d = ln(33/20)`. -/
theorem normal_longDated :
    cumulativeNormal 0 = 1 / 2 ∧
    cumulativeNormal (-Real.log (33 / 20)) ≤ 3086 / 10000 ∧
    (1491 / 10000 : ℝ) ≤ cumulativeNormal (-(2 * Real.log (33 / 20))) := by
  obtain ⟨hd1, hd2⟩ := log_33_20_bounds
  refine ⟨?_, ?_, ?_⟩
  · have h := cumulativeNormal_enclosure_pos 0 0 0 (1 / 2) (1 / 2) (le_refl 0) (le_refl 0)
      (le_refl 0) (by norm_num)
      (by norm_num [gaussTaylorPrim, gaussErrPrim, Finset.sum_range_succ, Nat.factorial])
      (by norm_num [gaussTaylorPrim, gaussErrPrim, Finset.sum_range_succ, Nat.factorial])
      (by norm_num [gaussTaylorPrim, gaussErrPrim, Finset.sum_range_succ, Nat.factorial])
    exact le_antisymm h.2 h.1
  · exact (cumulativeNormal_enclosure_neg (Real.log (33 / 20)) (1 / 2) (13 / 25) 0
      (3086 / 10000) (by norm_num) hd1 hd2 (by norm_num)
      (by norm_num [gaussTaylorPrim, gaussErrPrim, Finset.sum_range_succ, Nat.factorial])
      (by norm_num [gaussTaylorPrim, gaussErrPrim, Finset.sum_range_succ, Nat.factorial])
      (by norm_num [gaussTaylorPrim, gaussErrPrim, Finset.sum_range_succ, Nat.factorial])).2
  · exact (cumulativeNormal_enclosure_neg (2 * Real.log (33 / 20)) 1 (26 / 25)
      (1491 / 10000) 1 (by norm_num) (by linarith) (by linarith) (by norm_num)
      (by norm_num [gaussTaylorPrim, gaussErrPrim, Finset.sum_range_succ, Nat.factorial])
      (by norm_num [gaussTaylorPrim, gaussErrPrim, Finset.sum_range_succ, Nat.factorial])
      (by norm_num [gaussTaylorPrim, gaussErrPrim, Finset.sum_range_succ, Nat.factorial])).1

/-- Claim C27 fails as stated.  Over the real numbers, in the market `q = 0`, `r = 0.02`,
`t = 25`, `vol = 0.20` with spot 100, strike 100, cash 15 and an up-and-out barrier at 165
(case 22, a cash-or-nothing call paid at expiry), the formula of the branch
`strike < barrier`, which the engine takes here, has a value `v > 0.3 * exp(-1/2)`, while the
formula of the branch `strike >= barrier` evaluated on the same data is 0. -/
theorem C27_counterexample :
    ∃ v : ℝ,
      caseBranch realOps (flatMarket realOps 100 0 0.02 25 0.2)
        ⟨.CashOrNothingPayoff .Call 100 15, .UpOut, 165, 0, true⟩ false 0 .Call = .ok v ∧
      caseBranch realOps (flatMarket realOps 100 0 0.02 25 0.2)
        ⟨.CashOrNothingPayoff .Call 100 15, .UpOut, 165, 0, true⟩ true 0 .Call = .ok 0 ∧
      caseTable realOps (flatMarket realOps 100 0 0.02 25 0.2)
        ⟨.CashOrNothingPayoff .Call 100 15, .UpOut, 165, 0, true⟩ 0 .Call = .ok v ∧
      v ≠ 0 := by
  obtain ⟨h1, h2, _, _⟩ := blocks_longDated 1
  obtain ⟨_, _, h3, h4⟩ := blocks_longDated (-1)
  obtain ⟨hlo, hup⟩ := caseBranch_upOutCall realOps (flatMarket realOps 100 0 0.02 25 0.2)
    ⟨.CashOrNothingPayoff .Call 100 15, .UpOut, 165, 0, true⟩ 0 100 15 _ _ _ _ rfl rfl rfl rfl
    h1 h2 h3 h4
  refine ⟨_, hup, hlo, ?_, ?_⟩
  · rw [caseTable_eq_caseBranch realOps (flatMarket realOps 100 0 0.02 25 0.2)
      ⟨.CashOrNothingPayoff .Call 100 15, .UpOut, 165, 0, true⟩ 0 .Call 100 rfl]
    have hdec : decide ((100 : ℝ) ≥ 165) = false := by
      rw [decide_eq_false_iff_not]
      norm_num
    rw [← hup]
    exact congrArg (fun b => caseBranch realOps (flatMarket realOps 100 0 0.02 25 0.2)
      ⟨.CashOrNothingPayoff .Call 100 15, .UpOut, 165, 0, true⟩ b 0 .Call) hdec
  · obtain ⟨hN0, hN1, hN2⟩ := normal_longDated
    have hinv : Real.log (20 / 33) = -Real.log (33 / 20) := by
      rw [← Real.log_inv]
      norm_num
    have hsq : Real.log (1089 / 400) = 2 * Real.log (33 / 20) := by
      rw [← show ((33 / 20 : ℝ)) ^ 2 = 1089 / 400 by norm_num, Real.log_pow]
      norm_num
    rw [mul_zero, one_mul, hinv, hsq, neg_one_mul, neg_one_mul, hN0]
    have he := Real.exp_pos (-(1 / 2))
    have hq : (0 : ℝ) < 1 / 2 - cumulativeNormal (-Real.log (33 / 20)) +
        cumulativeNormal (-(2 * Real.log (33 / 20))) -
        cumulativeNormal (-Real.log (33 / 20)) := by linarith
    have hv : 15 * Real.exp (-(1 / 2)) * (1 / 2) -
        15 * Real.exp (-(1 / 2)) * cumulativeNormal (-Real.log (33 / 20)) +
        15 * Real.exp (-(1 / 2)) * cumulativeNormal (-(2 * Real.log (33 / 20))) -
        15 * Real.exp (-(1 / 2)) * cumulativeNormal (-Real.log (33 / 20)) =
        15 * Real.exp (-(1 / 2)) * (1 / 2 - cumulativeNormal (-Real.log (33 / 20)) +
        cumulativeNormal (-(2 * Real.log (33 / 20))) -
        cumulativeNormal (-Real.log (33 / 20))) := by ring
    rw [hv]
    positivity

end BranchCounterexample

/-! ## Payoff branches, dispatch, factory and path pricer construction -/

section SettleTheorems

open AutocallPathPricer Examples

/-- Claim C31 (the fallback is unreachable).  For a path of at least two nodes whose walk ends
in the locals `s`, `operator()` returns what the chain of `if`s after the loop returns, and
that chain never reaches the final `return 0`: it returns at the first branch when there is
neither knock-out nor knock-in, at the second when there is a knock-out, at the third when
there is a knock-in without knock-out, and these three conditions exclude each other and
cover every `s`. -/
theorem C31_fallback_unreachable {R : Type} [LinearOrderedField R] (ops : MathOps R)
    (pricer : AutocallPathPricer R) (gen : SequenceGenerator R) (path : Path R)
    (front : R) (s : WalkState R)
    (hn : path.length > 1) (hfront : path.values[0]? = some front)
    (hwalk : walk ops pricer path (gen.sequences gen.drawn) (path.length - 1) 0
      (initial front) = .ok s) :
    (operator ops pricer gen path).1 = settle pricer path s ∧
    settleBranch s ≠ .fallback ∧
    (settleBranch s = .coupon ↔ s.isKnockOut = false ∧ s.isOptionActive = false) ∧
    (settleBranch s = .knockOut ↔ s.isKnockOut = true) ∧
    (settleBranch s = .knockIn ↔ s.isKnockOut = false ∧ s.isOptionActive = true) ∧
    (settleBranch s = .coupon → settle pricer path s = (do
      let T ← readBack "timeGrid.back()" path.timeGrid.times
      let D ← readBack "discounts_.back()" pricer.discounts_
      pure ((pricer.coupon_ * T + pricer.margin_) * D))) ∧
    (settleBranch s = .knockOut → settle pricer path s = (do
      let t ← readAt "timeGrid[ko]" path.timeGrid.times s.ko
      let d ← readAt "discounts_[ko]" pricer.discounts_ s.ko
      pure ((pricer.rebate_ * t + pricer.margin_) * d))) ∧
    (settleBranch s = .knockIn → settle pricer path s = (do
      let D ← readBack "discounts_.back()" pricer.discounts_
      pure ((pricer.margin_ - payoff_ pricer s.asset_price) * D))) := by
  refine ⟨operator_of_walk ops pricer gen path front s hn hfront hwalk, ?_⟩
  cases hko : s.isKnockOut <;> cases hact : s.isOptionActive <;>
    simp [settleBranch, settle, hko, hact]

theorem C31_fallback_unreachable_witness :
    (operator ratOps pricerQuiet gen3 path3).1 =
      settle pricerQuiet path3 ⟨false, false, 0, 1, 90⟩ ∧
    settleBranch (⟨false, false, 0, 1, 90⟩ : WalkState ℚ) ≠ .fallback :=
  ⟨(C31_fallback_unreachable ratOps pricerQuiet gen3 path3 100 ⟨false, false, 0, 1, 90⟩
      (by decide) rfl walk_pricerQuiet).1,
    (C31_fallback_unreachable ratOps pricerQuiet gen3 path3 100 ⟨false, false, 0, 1, 90⟩
      (by decide) rfl walk_pricerQuiet).2.1⟩

end SettleTheorems

section DispatchTheorems

open AnalyticBinaryBarrierEngine Examples

/-- Claim C34 (the dispatch is total).  For `payAtExpiry = true`, a striked payoff and a
positive barrier, for every barrier type and option type: exactly one of the sixteen guards of
the table holds, and the table returns a value, so neither "Not supported" nor the blocks'
"non-cash-or-nothing payoff given" is raised. -/
theorem C34_dispatch_total {R : Type} [LinearOrderedField R]
    (ops : MathOps R) (process : GeneralizedBlackScholesProcess R) (args : BarrierArguments R)
    (eta0 : R) (type : OptionType) (k : R)
    (hk : strike args = .ok k) (hH : args.barrier > 0) (hp : args.payAtExpiry = true) :
    (caseGuards args type).count true = 1 ∧
    ∃ v, caseTable ops process args eta0 type = .ok v := by
  constructor
  · cases hc : args.payoff.asCashOrNothing <;> cases hb : args.barrierType <;> cases type <;>
      simp [caseGuards, hc, hb]
  · rw [caseTable_eq_caseBranch ops process args eta0 type k hk]
    have hA := asset_blocks ops process args k hk hH
    cases hc : args.payoff.asCashOrNothing with
    | none =>
      cases hb : args.barrierType <;> cases type <;>
        cases hd : decide (k ≥ args.barrier) <;>
        simp [caseBranch, hc, hb, hp, hk, hA, bind, Except.bind, pure, Except.pure]
    | some cash =>
      have hB := cash_blocks ops process args k cash hk hc hH
      cases hb : args.barrierType <;> cases type <;>
        cases hd : decide (k ≥ args.barrier) <;>
        simp [caseBranch, hc, hb, hp, hk, hB, bind, Except.bind, pure, Except.pure]

theorem C34_dispatch_total_witness :
    (caseGuards (⟨cashCall102, .UpOut, 100, 0, true⟩ : BarrierArguments ℚ) .Call).count true
      = 1 ∧
    ∃ v, caseTable ratOps process95 ⟨cashCall102, .UpOut, 100, 0, true⟩ 0 .Call = .ok v :=
  C34_dispatch_total ratOps process95 ⟨cashCall102, .UpOut, 100, 0, true⟩ 0 .Call 102 rfl
    (by norm_num) rfl

end DispatchTheorems

section FactoryTheorems

open MakeMCAutocallEngine Examples

theorem MakeMCAutocallEngine.call_keeps_exclusive {R : Type} [DecidableEq R] (null : R)
    (allowsErrorEstimate : Bool) (m m1 : MakeMCAutocallEngine R) (c : BuilderCall R)
    (h : call null allowsErrorEstimate m c = .ok m1)
    (hinv : m.samples_ = nullSize ∨ m.tolerance_ = null) :
    m1.samples_ = nullSize ∨ m1.tolerance_ = null := by
  cases c with
  | withSamples samples =>
    simp only [call, withSamples] at h
    split_ifs at h with h1
    simp only [Except.ok.injEq] at h
    rw [← h]
    exact Or.inr h1
  | withAbsoluteTolerance tolerance =>
    simp only [call, withAbsoluteTolerance] at h
    split_ifs at h with h1 h2
    simp only [Except.ok.injEq] at h
    rw [← h]
    exact Or.inl h1
  | withSteps steps =>
    simp only [call, MakeMCAutocallEngine.withSteps, Except.ok.injEq] at h
    rw [← h]
    exact hinv
  | withStepsPerYear steps =>
    simp only [call, MakeMCAutocallEngine.withStepsPerYear, Except.ok.injEq] at h
    rw [← h]
    exact hinv
  | withBrownianBridge b =>
    simp only [call, withBrownianBridge, Except.ok.injEq] at h
    rw [← h]
    exact hinv
  | withAntitheticVariate b =>
    simp only [call, withAntitheticVariate, Except.ok.injEq] at h
    rw [← h]
    exact hinv
  | withMaxSamples samples =>
    simp only [call, withMaxSamples, Except.ok.injEq] at h
    rw [← h]
    exact hinv
  | withBias b =>
    simp only [call, withBias, Except.ok.injEq] at h
    rw [← h]
    exact hinv
  | withSeed seed =>
    simp only [call, withSeed, Except.ok.injEq] at h
    rw [← h]
    exact hinv

theorem MakeMCAutocallEngine.chain_keeps_exclusive {R : Type} [DecidableEq R] (null : R)
    (allowsErrorEstimate : Bool) :
    ∀ (calls : List (BuilderCall R)) (m m1 : MakeMCAutocallEngine R),
      chain null allowsErrorEstimate m calls = .ok m1 →
      (m.samples_ = nullSize ∨ m.tolerance_ = null) →
      m1.samples_ = nullSize ∨ m1.tolerance_ = null := by
  intro calls
  induction calls with
  | nil =>
    intro m m1 h hinv
    simp only [chain, Except.ok.injEq] at h
    rw [← h]
    exact hinv
  | cons c cs ih =>
    intro m m1 h hinv
    simp only [chain] at h
    cases hc : call null allowsErrorEstimate m c with
    | error e => simp [hc] at h
    | ok m2 =>
      simp only [hc] at h
      exact ih m2 m1 h (call_keeps_exclusive null allowsErrorEstimate m m2 c hc hinv)

/-- Claim C38 (samples and tolerance exclude each other).  `withSamples` fails with
"tolerance already set" when `tolerance_` differs from `Null<Real>()`;
`withAbsoluteTolerance` fails with "number of samples already set" when `samples_` differs
from `Null<Size>()`; and after every chain of named-parameter calls on a newly constructed
factory that returns, `samples_` or `tolerance_` still is the null sentinel. -/
theorem C38_samples_tolerance_exclusive {R : Type} [DecidableEq R] (null : R)
    (allowsErrorEstimate : Bool) (m : MakeMCAutocallEngine R) :
    (∀ samples, m.tolerance_ ≠ null →
      withSamples null m samples = .error (.error "tolerance already set")) ∧
    (∀ tolerance, m.samples_ ≠ nullSize →
      withAbsoluteTolerance allowsErrorEstimate m tolerance =
        .error (.error "number of samples already set")) ∧
    (∀ calls m1, chain null allowsErrorEstimate (construct null) calls = .ok m1 →
      m1.samples_ = nullSize ∨ m1.tolerance_ = null) := by
  refine ⟨?_, ?_, ?_⟩
  · intro samples h
    simp [withSamples, h]
  · intro tolerance h
    simp [withAbsoluteTolerance, h]
  · intro calls m1 h
    exact chain_keeps_exclusive null allowsErrorEstimate calls (construct null) m1 h
      (Or.inl rfl)

theorem C38_samples_tolerance_exclusive_witness :
    withSamples nullReal ({ construct nullReal with tolerance_ := 1 / 100 }) 1000 =
      .error (.error "tolerance already set") ∧
    withAbsoluteTolerance true ({ construct nullReal with samples_ := 1000 }) (1 / 100 : ℚ) =
      .error (.error "number of samples already set") ∧
    chain nullReal true (construct nullReal)
        [.withSteps 10, .withSamples 1000, .withAbsoluteTolerance (1 / 100)] =
      .error (.error "number of samples already set") ∧
    ((1000 : ℕ) = nullSize ∨ nullReal = nullReal) :=
  ⟨(C38_samples_tolerance_exclusive nullReal true
      ({ construct nullReal with tolerance_ := 1 / 100 })).1 1000 (by
        simp only [nullReal]
        norm_num),
    (C38_samples_tolerance_exclusive nullReal true
      ({ construct nullReal with samples_ := 1000 })).2.1 (1 / 100) (by decide),
    by
      simp [chain, call, MakeMCAutocallEngine.withSteps, withSamples, withAbsoluteTolerance,
        construct, nullSize],
    (C38_samples_tolerance_exclusive nullReal true (construct nullReal)).2.2
      [.withSteps 10, .withSamples 1000]
      ({ (construct nullReal).withSteps 10 with samples_ := 1000 })
      (by simp [chain, call, MakeMCAutocallEngine.withSteps, withSamples, construct])⟩

end FactoryTheorems

section PricerConstruction

open MCAutocallEngine Examples

theorem MCAutocallEngine.fixingTimes_length {R : Type} [LinearOrderedField R]
    (env : McEnvironment R) (fixingDates : List Nat) :
    (fixingTimes env fixingDates).length = fixingDates.length := by
  simp [fixingTimes]

theorem MCAutocallEngine.fixingTimes_getElem? {R : Type} [LinearOrderedField R]
    (env : McEnvironment R) (fixingDates : List Nat) (i : Nat) (d : Nat)
    (h : fixingDates[i]? = some d) :
    (fixingTimes env fixingDates)[i]? = some (if i < 1 then 0 else env.time d) := by
  have hi : i < fixingDates.length := (List.getElem?_eq_some.mp h).1
  simp [fixingTimes, List.getElem?_map, List.getElem?_range hi, h]

theorem MCAutocallEngine.fixingTimes_head {R : Type} [LinearOrderedField R]
    (env : McEnvironment R) (d d1 : Nat) (rest : List Nat) :
    fixingTimes env (d1 :: rest) = fixingTimes env (d :: rest) := by
  apply List.ext_getElem?
  intro i
  by_cases hi : i < (d :: rest).length
  · cases i with
    | zero =>
      rw [fixingTimes_getElem? env (d1 :: rest) 0 d1 (by simp),
        fixingTimes_getElem? env (d :: rest) 0 d (by simp)]
      simp
    | succ j =>
      have hj : j < rest.length := by simpa using hi
      have h1 : (d1 :: rest)[j + 1]? = some rest[j] := by simp [List.getElem?_eq_getElem hj]
      have h2 : (d :: rest)[j + 1]? = some rest[j] := by simp [List.getElem?_eq_getElem hj]
      rw [fixingTimes_getElem? env (d1 :: rest) (j + 1) _ h1,
        fixingTimes_getElem? env (d :: rest) (j + 1) _ h2]
  · have h1 : (fixingTimes env (d1 :: rest)).length ≤ i := by
      rw [fixingTimes_length]
      simp at hi ⊢
      omega
    have h2 : (fixingTimes env (d :: rest)).length ≤ i := by
      rw [fixingTimes_length]
      simp at hi ⊢
      omega
    rw [List.getElem?_eq_none h1, List.getElem?_eq_none h2]

/-- What a successful `pathPricer()` returns: the pricer built from the arguments, the
discounts of the grid and `fixingTimes`, with the uniform generator of dimension
`grid.size() - 1` and seed 5. -/
theorem MCAutocallEngine.pathPricer_ok {R : Type} [LinearOrderedField R]
    (e : MCAutocallEngine R) (env : McEnvironment R) (payoff : Payoff R)
    (a : AutocallArguments R) (p : AutocallPathPricer R) (g : SequenceGenerator R)
    (h : pathPricer e env payoff a = .ok (p, g)) :
    ∃ grid, timeGrid e env = .ok grid ∧ g = env.ursg (grid.times.length - 1) 5 ∧
      p.fixings_ = fixingTimes env a.fixingDates ∧
      p.discounts_ = grid.times.map env.discount := by
  cases payoff with
  | PlainVanillaPayoff type strike =>
    simp only [pathPricer, bind, Except.bind] at h
    cases hg : timeGrid e env with
    | error err => simp [hg] at h
    | ok grid =>
      simp only [hg] at h
      cases hc : AutocallPathPricer.construct a.rebate a.coupon
          (fixingTimes env a.fixingDates) a.kiBarrier a.koBarrier strike a.margin
          (grid.times.map env.discount) env.diffusion with
      | error err => simp [hc] at h
      | ok p1 =>
        simp only [hc, pure, Except.pure, Except.ok.injEq, Prod.mk.injEq] at h
        refine ⟨grid, rfl, h.2.symm, ?_, ?_⟩
        · rw [← h.1]
          unfold AutocallPathPricer.construct at hc
          split_ifs at hc
          simp only [Except.ok.injEq] at hc
          rw [← hc]
        · rw [← h.1]
          unfold AutocallPathPricer.construct at hc
          split_ifs at hc
          simp only [Except.ok.injEq] at hc
          rw [← hc]
  | CashOrNothingPayoff type strike cash => simp [pathPricer] at h
  | AssetOrNothingPayoff type strike => simp [pathPricer] at h
  | NonStriked => simp [pathPricer] at h

/-- Claim C36 (the seed of the engine does not reach the path pricer).  `pathPricer()` of two
engines that differ only in `seed_` is the same; its uniform generator is built with
dimension `grid.size() - 1` and the constant seed 5; the generator of `pathGenerator()` is
built with the same dimension and with `seed_`. -/
theorem C36_pricer_seed_fixed {R : Type} [LinearOrderedField R]
    (e : MCAutocallEngine R) (env : McEnvironment R) (payoff : Payoff R)
    (a : AutocallArguments R) (seed : Nat) :
    pathPricer { e with seed_ := seed } env payoff a = pathPricer e env payoff a ∧
    (∀ p g, pathPricer e env payoff a = .ok (p, g) →
      ∃ grid, timeGrid e env = .ok grid ∧ g = env.ursg (grid.times.length - 1) 5) ∧
    (∀ pg, pathGenerator e env = .ok pg →
      ∃ grid, timeGrid e env = .ok grid ∧
        pg.gen = env.make_sequence_generator (grid.times.length - 1) e.seed_) := by
  refine ⟨?_, ?_, ?_⟩
  · cases payoff <;> simp [pathPricer, timeGrid]
  · intro p g h
    obtain ⟨grid, hg, hgen, _, _⟩ := pathPricer_ok e env payoff a p g h
    exact ⟨grid, hg, hgen⟩
  · intro pg h
    simp only [pathGenerator, bind, Except.bind] at h
    cases hg : timeGrid e env with
    | error err => simp [hg] at h
    | ok grid =>
      simp only [hg, pure, Except.pure, Except.ok.injEq] at h
      exact ⟨grid, rfl, by rw [← h]⟩

theorem C36_pricer_seed_fixed_witness :
    pathPricer { engine1 with seed_ := 7 } env1 (.PlainVanillaPayoff .Put 100) autocallArgs1 =
      pathPricer engine1 env1 (.PlainVanillaPayoff .Put 100) autocallArgs1 :=
  (C36_pricer_seed_fixed engine1 env1 (.PlainVanillaPayoff .Put 100) autocallArgs1 7).1

/-- Claim C39 (fixing times).  The vector `fixings` of a path pricer returned by
`pathPricer()` has the length of `fixingDates`, holds `process.time(fixingDates[i])` at
every index `i >= 1` and 0 at index 0; and replacing the first fixing date by any other date
leaves the outcome of `pathPricer()` unchanged. -/
theorem C39_fixing_times {R : Type} [LinearOrderedField R]
    (e : MCAutocallEngine R) (env : McEnvironment R) (payoff : Payoff R)
    (a : AutocallArguments R) (p : AutocallPathPricer R) (g : SequenceGenerator R)
    (h : pathPricer e env payoff a = .ok (p, g)) :
    p.fixings_.length = a.fixingDates.length ∧
    (∀ i d, 1 ≤ i → a.fixingDates[i]? = some d → p.fixings_[i]? = some (env.time d)) ∧
    (0 < a.fixingDates.length → p.fixings_[0]? = some 0) ∧
    (∀ d d1 rest, a.fixingDates = d :: rest →
      pathPricer e env payoff { a with fixingDates := d1 :: rest } =
        pathPricer e env payoff a) := by
  obtain ⟨grid, _, _, hfix, _⟩ := pathPricer_ok e env payoff a p g h
  refine ⟨?_, ?_, ?_, ?_⟩
  · rw [hfix, fixingTimes_length]
  · intro i d hi hd
    rw [hfix, fixingTimes_getElem? env a.fixingDates i d hd]
    have : ¬ i < 1 := by omega
    rw [if_neg this]
  · intro hlen
    obtain ⟨d, hd⟩ : ∃ d, a.fixingDates[0]? = some d :=
      ⟨a.fixingDates[0], List.getElem?_eq_getElem hlen⟩
    rw [hfix, fixingTimes_getElem? env a.fixingDates 0 d hd]
    simp
  · intro d d1 rest hd
    cases payoff <;> simp [pathPricer, hd, fixingTimes_head env d d1 rest]

theorem pathPricer_engine1 :
    pathPricer engine1 env1 (.PlainVanillaPayoff .Put 100) autocallArgs1 =
      .ok (⟨1 / 10, 2 / 10, [0, 1 / 2, 1], 80, 103, 100, 1, [1, 19 / 20, 9 / 10],
        fun _ _ => 1 / 5⟩, env1.ursg 2 5) := by
  simp only [pathPricer, timeGrid, fixingTimes, engine1, env1, nullSize, autocallArgs1,
    AutocallPathPricer.construct, bind, Except.bind, pure, Except.pure, List.range,
    List.range.loop, List.map, List.length]
  norm_num

theorem C39_fixing_times_witness :
    pathPricer engine1 env1 (.PlainVanillaPayoff .Put 100) autocallArgs1 =
      .ok (⟨1 / 10, 2 / 10, [0, 1 / 2, 1], 80, 103, 100, 1, [1, 19 / 20, 9 / 10],
        fun _ _ => 1 / 5⟩, env1.ursg 2 5) ∧
    pathPricer engine1 env1 (.PlainVanillaPayoff .Put 100)
        { autocallArgs1 with fixingDates := [45, 180, 360] } =
      pathPricer engine1 env1 (.PlainVanillaPayoff .Put 100) autocallArgs1 :=
  ⟨pathPricer_engine1,
    (C39_fixing_times engine1 env1 (.PlainVanillaPayoff .Put 100) autocallArgs1 _ _
      pathPricer_engine1).2.2.2 90 45 [180, 360] rfl⟩

end PricerConstruction

section KnockoutIdempotent

open FdmKnockoutCondition Examples

/-- Claim C37 (idempotence).  For every array `a` of the size of the layout and every time
`t`, a second `applyTo(a, t)` returns normally like the first and leaves the array as the
first left it. -/
theorem C37_apply_idempotent {R : Type} [LinearOrderedField R]
    (c : FdmKnockoutCondition R) (a : List R) (t : R) (h : c.layoutSize = a.length) :
    (applyTo c a t).1 = .ok () ∧ applyTo c (applyTo c a t).2 t = applyTo c a t := by
  by_cases ht : t = c.obs_
  · subst ht
    obtain ⟨a1, h1, h2, h3⟩ := loop_spec c c.obs_ a.length 0 a (by omega)
    have hfirst : applyTo c a c.obs_ = (.ok (), a1) := by
      simp only [applyTo, if_true, h, not_true_eq_false, if_false, h1]
    obtain ⟨a2, k1, k2, k3⟩ := loop_spec c c.obs_ a1.length 0 a1 (by omega)
    have hsecond : applyTo c a1 c.obs_ = (.ok (), a2) := by
      have hsize : c.layoutSize = a1.length := by rw [h, h2]
      simp only [applyTo, if_true, hsize, not_true_eq_false, if_false, k1]
    have heq : a2 = a1 := by
      apply List.ext_getElem?
      intro i
      rw [k3 i]
      by_cases hc : 0 ≤ i ∧ i < 0 + a1.length ∧ c.innerValue i c.obs_ > 0
      · rw [if_pos hc, h3 i, if_pos ⟨hc.1, by omega, hc.2.2⟩]
      · rw [if_neg hc]
    rw [hfirst]
    exact ⟨rfl, by rw [hsecond, heq]⟩
  · simp [applyTo, ht]

theorem C37_apply_idempotent_witness :
    (applyTo knockout4 [5, 6, 7, 8] 1).1 = .ok () ∧
    applyTo knockout4 (applyTo knockout4 [5, 6, 7, 8] 1).2 1 =
      applyTo knockout4 [5, 6, 7, 8] 1 :=
  C37_apply_idempotent knockout4 [5, 6, 7, 8] 1 rfl

end KnockoutIdempotent

/-! ## The blocks at strike = barrier, the lambda term and the bridge-corrected price -/

section BlockTheorems

open AnalyticBinaryBarrierEngine Examples

/-- Claim C33 (the blocks coincide at strike = barrier).  For a striked payoff, a positive
barrier and `strike = barrier`: `B1(x) = B2(x)`, `B3(x) = B4(x)`, `A1(x) = A2(x)` and
`A3(x) = A4(x)` for every argument `x`, and the value the table computes (by its
`strike >= barrier` expressions) equals the value of the `strike < barrier` expressions on
the same data, in every case and for every interpretation of the mathematical functions. -/
theorem C33_blocks_coincide_at_barrier {R : Type} [LinearOrderedField R]
    (ops : MathOps R) (process : GeneralizedBlackScholesProcess R) (args : BarrierArguments R)
    (eta0 : R) (type : OptionType) (k : R)
    (hk : strike args = .ok k) (hH : args.barrier > 0) (hkH : k = args.barrier) :
    (∀ x, B1 ops process args x = B2 ops process args x) ∧
    (∀ x, B3 ops process args x = B4 ops process args x) ∧
    (∀ x, A1 ops process args x = A2 ops process args x) ∧
    (∀ x, A3 ops process args x = A4 ops process args x) ∧
    caseTable ops process args eta0 type = caseBranch ops process args false eta0 type := by
  have hlog : args.barrier * args.barrier / (process.x0 * args.barrier) =
      args.barrier / process.x0 := mul_div_mul_right _ _ (ne_of_gt hH)
  subst hkH
  have hA := asset_blocks ops process args _ hk hH
  have hB12 : ∀ x, B1 ops process args x = B2 ops process args x := by
    intro x
    cases hc : args.payoff.asCashOrNothing with
    | none => simp [B1, B2, hc]
    | some cash =>
      obtain ⟨h1, h2, _, _⟩ := cash_blocks ops process args _ cash hk hc hH x
      rw [h1, h2]
  have hB34 : ∀ x, B3 ops process args x = B4 ops process args x := by
    intro x
    cases hc : args.payoff.asCashOrNothing with
    | none => simp [B3, B4, hc]
    | some cash =>
      obtain ⟨_, _, h3, h4⟩ := cash_blocks ops process args _ cash hk hc hH x
      rw [h3, h4, hlog]
  have hA12 : ∀ x, A1 ops process args x = A2 ops process args x := by
    intro x
    obtain ⟨h1, h2, _, _⟩ := hA x
    rw [h1, h2]
  have hA34 : ∀ x, A3 ops process args x = A4 ops process args x := by
    intro x
    obtain ⟨_, _, h3, h4⟩ := hA x
    rw [h3, h4, hlog]
  refine ⟨hB12, hB34, hA12, hA34, ?_⟩
  rw [caseTable_eq_caseBranch ops process args eta0 type _ hk]
  have hdec : decide (args.barrier ≥ args.barrier) = true := by simp
  rw [hdec]
  cases hc : args.payoff.asCashOrNothing with
  | none =>
    cases hb : args.barrierType <;> cases type <;> cases hp : args.payAtExpiry <;>
      simp [caseBranch, hc, hb, hp, hk, hA12, hA34, hA, bind, Except.bind, pure, Except.pure]
  | some cash =>
    have hB := cash_blocks ops process args _ cash hk hc hH
    cases hb : args.barrierType <;> cases type <;> cases hp : args.payAtExpiry <;>
      simp [caseBranch, hc, hb, hp, hk, hB12, hB34, hB, bind, Except.bind, pure, Except.pure]

theorem C33_blocks_coincide_at_barrier_witness :
    B1 ratOps process105 ⟨.CashOrNothingPayoff .Put 100 15, .DownOut, 100, 0, true⟩ (-1) =
      B2 ratOps process105 ⟨.CashOrNothingPayoff .Put 100 15, .DownOut, 100, 0, true⟩ (-1) ∧
    caseTable ratOps process105 ⟨.CashOrNothingPayoff .Put 100 15, .DownOut, 100, 0, true⟩ 0
        .Put =
      caseBranch ratOps process105 ⟨.CashOrNothingPayoff .Put 100 15, .DownOut, 100, 0, true⟩
        false 0 .Put :=
  ⟨(C33_blocks_coincide_at_barrier ratOps process105
      ⟨.CashOrNothingPayoff .Put 100 15, .DownOut, 100, 0, true⟩ 0 .Put 100 rfl (by norm_num)
      rfl).1 (-1),
    (C33_blocks_coincide_at_barrier ratOps process105
      ⟨.CashOrNothingPayoff .Put 100 15, .DownOut, 100, 0, true⟩ 0 .Put 100 rfl (by norm_num)
      rfl).2.2.2.2⟩

/-- The block `A5` written out for a striked payoff and a positive barrier. -/
theorem AnalyticBinaryBarrierEngine.A5_formula {R : Type} [LinearOrderedField R]
    (ops : MathOps R) (process : GeneralizedBlackScholesProcess R) (args : BarrierArguments R)
    (k eta : R) (hk : strike args = .ok k) (hH : args.barrier > 0) :
    A5 ops process args eta =
      .ok (payAtHitFormula ops (payAtHitAmount args.payoff args.barrier) args.barrier
        process.x0 process.dividendDiscount process.riskFreeDiscount
        (process.blackVariance k) eta) := by
  cases hc : args.payoff.asCashOrNothing <;>
    simp [A5, payAtHitFormula, payAtHitAmount, hc, hk, hH,
      AnalyticBinaryBarrierEngine.barrier, variance, stdDeviation, mu, log_H_S, bind,
      Except.bind, pure, Except.pure, spot, dividendDiscount, riskFreeDiscount]

end BlockTheorems

section LambdaTheorems

open AnalyticBinaryBarrierEngine

/-- Claim C40 (the lambda term).  Over the real numbers, for a striked payoff, a positive
barrier, a risk-free discount factor in `(0, 1]` and a positive variance: with
`mu = ln(dividendDiscount / riskFreeDiscount) / variance - 1/2`, the radicand
`mu² - 2 ln(riskFreeDiscount) / variance` is non-negative, `stdDeviation² = variance`, and
`A5` is the pay-at-hit formula with
`lambda = sqrt(mu * mu - 2 ln(riskFreeDiscount) / (stdDeviation * stdDeviation))`, which
satisfies `lambda >= |mu|` and `lambda² = mu² - 2 ln(riskFreeDiscount) / variance`. -/
theorem C40_lambda_real (process : GeneralizedBlackScholesProcess ℝ)
    (args : BarrierArguments ℝ) (k eta : ℝ)
    (hk : strike args = .ok k) (hH : args.barrier > 0)
    (hD0 : 0 < process.riskFreeDiscount) (hD1 : process.riskFreeDiscount ≤ 1)
    (hv : 0 < process.blackVariance k) :
    ∃ m sd lam : ℝ,
      mu realOps process args = .ok m ∧
      m = Real.log (process.dividendDiscount / process.riskFreeDiscount) /
        process.blackVariance k - 1 / 2 ∧
      stdDeviation realOps process args = .ok sd ∧ sd * sd = process.blackVariance k ∧
      lam = Real.sqrt (m * m - 2 * Real.log process.riskFreeDiscount / (sd * sd)) ∧
      0 ≤ m ^ 2 - 2 * Real.log process.riskFreeDiscount / process.blackVariance k ∧
      lam ≥ |m| ∧
      lam ^ 2 = m ^ 2 - 2 * Real.log process.riskFreeDiscount / process.blackVariance k ∧
      A5 realOps process args eta =
        .ok (payAtHitAmount args.payoff args.barrier *
          ((args.barrier / process.x0) ^ (m + lam) *
              cumulativeNormal (eta * (Real.log (args.barrier / process.x0) / sd + lam * sd)) +
            (args.barrier / process.x0) ^ (m - lam) *
              cumulativeNormal (eta * (Real.log (args.barrier / process.x0) / sd + lam * sd) -
                2 * eta * lam * sd))) := by
  have hsd : Real.sqrt (process.blackVariance k) * Real.sqrt (process.blackVariance k) =
      process.blackVariance k := Real.mul_self_sqrt (le_of_lt hv)
  have hlog : Real.log process.riskFreeDiscount ≤ 0 := Real.log_nonpos (le_of_lt hD0) hD1
  have hq : 0 ≤ -(2 * Real.log process.riskFreeDiscount / process.blackVariance k) := by
    rw [neg_nonneg]
    exact div_nonpos_of_nonpos_of_nonneg (by linarith) (le_of_lt hv)
  have hrad : 0 ≤ (Real.log (process.dividendDiscount / process.riskFreeDiscount) /
        process.blackVariance k - 1 / 2) ^ 2 -
      2 * Real.log process.riskFreeDiscount / process.blackVariance k := by
    have := sq_nonneg (Real.log (process.dividendDiscount / process.riskFreeDiscount) /
      process.blackVariance k - 1 / 2)
    linarith
  refine ⟨Real.log (process.dividendDiscount / process.riskFreeDiscount) /
      process.blackVariance k - 1 / 2, Real.sqrt (process.blackVariance k), _, ?_, rfl, ?_,
    hsd, rfl, hrad, ?_, ?_, ?_⟩
  · simp [mu, variance, hk, realOps, dividendDiscount, riskFreeDiscount, bind, Except.bind,
      pure, Except.pure]
  · simp [stdDeviation, hk, realOps, bind, Except.bind, pure, Except.pure]
  · rw [hsd, ← sq, ge_iff_le, ← Real.sqrt_sq_eq_abs]
    exact Real.sqrt_le_sqrt (by linarith)
  · rw [hsd, ← sq, Real.sq_sqrt hrad]
  · rw [A5_formula realOps process args k eta hk hH]
    simp only [payAtHitFormula, realOps]

theorem C40_lambda_real_witness :
    ∃ m sd lam : ℝ,
      mu realOps ⟨105, 1 / 2, 1, fun _ => 1⟩
        ⟨.CashOrNothingPayoff .Call 102 15, .DownIn, 100, 0, false⟩ = .ok m ∧
      m = Real.log (1 / (1 / 2)) / 1 - 1 / 2 ∧
      stdDeviation realOps ⟨105, 1 / 2, 1, fun _ => 1⟩
        ⟨.CashOrNothingPayoff .Call 102 15, .DownIn, 100, 0, false⟩ = .ok sd ∧
      sd * sd = 1 ∧
      lam = Real.sqrt (m * m - 2 * Real.log (1 / 2) / (sd * sd)) ∧
      0 ≤ m ^ 2 - 2 * Real.log (1 / 2) / 1 ∧
      lam ≥ |m| ∧
      lam ^ 2 = m ^ 2 - 2 * Real.log (1 / 2) / 1 ∧
      A5 realOps ⟨105, 1 / 2, 1, fun _ => 1⟩
          ⟨.CashOrNothingPayoff .Call 102 15, .DownIn, 100, 0, false⟩ 1 =
        .ok (payAtHitAmount (.CashOrNothingPayoff .Call 102 15) 100 *
          ((100 / 105 : ℝ) ^ (m + lam) *
              cumulativeNormal (1 * (Real.log (100 / 105) / sd + lam * sd)) +
            (100 / 105 : ℝ) ^ (m - lam) *
              cumulativeNormal (1 * (Real.log (100 / 105) / sd + lam * sd) -
                2 * 1 * lam * sd))) :=
  C40_lambda_real ⟨105, 1 / 2, 1, fun _ => 1⟩
    ⟨.CashOrNothingPayoff .Call 102 15, .DownIn, 100, 0, false⟩ 102 1 rfl
    (by norm_num) (by norm_num) (by norm_num) (by norm_num)

end LambdaTheorems

section BridgeTheorems

open AutocallPathPricer

/-- Claim C32 (the bridge-corrected price dominates both endpoints).  Over the real numbers,
for a step from `prev > 0` to `next > 0` with `vol * vol * dt >= 0` and a draw `u` in
`[0, 1)`: the radicand is non-negative, the loop body computes a price `y >= max(prev, next)`,
with equality when `u = 0` or `vol * vol * dt = 0`; hence `y <= kiBarrier_` only if both
endpoints are at or below `kiBarrier_`, and a monitored step knocks out whenever an endpoint
is at or above `koBarrier_`. -/
theorem C32_bridge_price_bounds (pricer : AutocallPathPricer ℝ) (path : Path ℝ) (u : List ℝ)
    (i : Nat) (prev next t dt ui : ℝ)
    (hnext : path.values[i + 1]? = some next) (ht : path.timeGrid.times[i]? = some t)
    (hdt : path.timeGrid.dt[i]? = some dt) (hu : u[i]? = some ui)
    (hprev : 0 < prev) (hpos : 0 < next)
    (hvar : 0 ≤ pricer.diffProcess_ t prev * pricer.diffProcess_ t prev * dt)
    (hu0 : 0 ≤ ui) (hu1 : ui < 1) :
    ∃ y, bridgePrice realOps pricer path u i prev = .ok (next, y) ∧
      0 ≤ Real.log (next / prev) * Real.log (next / prev) -
        2 * pricer.diffProcess_ t prev * pricer.diffProcess_ t prev * dt * Real.log (1 - ui) ∧
      y ≥ max prev next ∧
      ((ui = 0 ∨ pricer.diffProcess_ t prev * pricer.diffProcess_ t prev * dt = 0) →
        y = max prev next) ∧
      (y ≤ pricer.kiBarrier_ → prev ≤ pricer.kiBarrier_ ∧ next ≤ pricer.kiBarrier_) ∧
      (∀ s : WalkState ℝ, s.asset_price = prev →
        monitored pricer path i s.knockNode = .ok true →
        (prev ≥ pricer.koBarrier_ ∨ next ≥ pricer.koBarrier_) →
        step realOps pricer path u i s = .ok { s with isKnockOut := true, ko := i }) := by
  have h1 : readAt "path[i+1]" path.values (i + 1) = .ok next := (readAt_ok_iff _ _ _ _).mpr hnext
  have h2 : readAt "timeGrid[i]" path.timeGrid.times i = .ok t := (readAt_ok_iff _ _ _ _).mpr ht
  have h3 : readAt "timeGrid.dt(i)" path.timeGrid.dt i = .ok dt := (readAt_ok_iff _ _ _ _).mpr hdt
  have h4 : readAt "u[i]" u i = .ok ui := (readAt_ok_iff _ _ _ _).mpr hu
  have hb : bridgePrice realOps pricer path u i prev = .ok (next, prev * Real.exp (1 / 2 *
      (Real.log (next / prev) + Real.sqrt (Real.log (next / prev) * Real.log (next / prev) -
        2 * pricer.diffProcess_ t prev * pricer.diffProcess_ t prev * dt *
          Real.log (1 - ui))))) := by
    simp only [bridgePrice, h1, h2, h3, h4, realOps, bind, Except.bind, pure, Except.pure]
  have hlog : Real.log (1 - ui) ≤ 0 := Real.log_nonpos (by linarith) (by linarith)
  have hc : 2 * pricer.diffProcess_ t prev * pricer.diffProcess_ t prev * dt *
      Real.log (1 - ui) ≤ 0 := by
    have : 2 * pricer.diffProcess_ t prev * pricer.diffProcess_ t prev * dt *
        Real.log (1 - ui) =
        2 * ((pricer.diffProcess_ t prev * pricer.diffProcess_ t prev * dt) *
          Real.log (1 - ui)) := by ring
    rw [this]
    have := mul_nonpos_of_nonneg_of_nonpos hvar hlog
    linarith
  have hxx : Real.log (next / prev) * Real.log (next / prev) = Real.log (next / prev) ^ 2 := by
    ring
  have hrad : 0 ≤ Real.log (next / prev) * Real.log (next / prev) -
      2 * pricer.diffProcess_ t prev * pricer.diffProcess_ t prev * dt * Real.log (1 - ui) := by
    have := sq_nonneg (Real.log (next / prev))
    rw [hxx]
    linarith
  have habs : |Real.log (next / prev)| ≤ Real.sqrt (Real.log (next / prev) *
      Real.log (next / prev) -
      2 * pricer.diffProcess_ t prev * pricer.diffProcess_ t prev * dt * Real.log (1 - ui)) := by
    rw [← Real.sqrt_sq_eq_abs]
    apply Real.sqrt_le_sqrt
    rw [hxx]
    linarith
  have hratio : prev * Real.exp (Real.log (next / prev)) = next := by
    rw [Real.exp_log (div_pos hpos hprev)]
    field_simp
  have hge0 : prev ≤ prev * Real.exp (1 / 2 * (Real.log (next / prev) +
      Real.sqrt (Real.log (next / prev) * Real.log (next / prev) -
        2 * pricer.diffProcess_ t prev * pricer.diffProcess_ t prev * dt *
          Real.log (1 - ui)))) := by
    have h0 : 0 ≤ 1 / 2 * (Real.log (next / prev) +
        Real.sqrt (Real.log (next / prev) * Real.log (next / prev) -
          2 * pricer.diffProcess_ t prev * pricer.diffProcess_ t prev * dt *
            Real.log (1 - ui))) := by
      have := neg_abs_le (Real.log (next / prev))
      linarith
    have := Real.one_le_exp h0
    nlinarith
  have hge1 : next ≤ prev * Real.exp (1 / 2 * (Real.log (next / prev) +
      Real.sqrt (Real.log (next / prev) * Real.log (next / prev) -
        2 * pricer.diffProcess_ t prev * pricer.diffProcess_ t prev * dt *
          Real.log (1 - ui)))) := by
    have h0 : Real.log (next / prev) ≤ 1 / 2 * (Real.log (next / prev) +
        Real.sqrt (Real.log (next / prev) * Real.log (next / prev) -
          2 * pricer.diffProcess_ t prev * pricer.diffProcess_ t prev * dt *
            Real.log (1 - ui))) := by
      have := le_abs_self (Real.log (next / prev))
      linarith
    have := Real.exp_le_exp.mpr h0
    calc next = prev * Real.exp (Real.log (next / prev)) := hratio.symm
      _ ≤ _ := mul_le_mul_of_nonneg_left this (le_of_lt hprev)
  have hmax := max_le hge0 hge1
  refine ⟨_, hb, hrad, hmax, ?_, ?_, ?_⟩
  · intro hz
    have hzero : 2 * pricer.diffProcess_ t prev * pricer.diffProcess_ t prev * dt *
        Real.log (1 - ui) = 0 := by
      rcases hz with h | h
      · rw [h]
        simp
      · have : 2 * pricer.diffProcess_ t prev * pricer.diffProcess_ t prev * dt *
            Real.log (1 - ui) =
            2 * ((pricer.diffProcess_ t prev * pricer.diffProcess_ t prev * dt) *
              Real.log (1 - ui)) := by ring
        rw [this, h]
        simp
    rw [hzero, sub_zero, hxx, Real.sqrt_sq_eq_abs]
    by_cases hx : 0 ≤ Real.log (next / prev)
    · rw [abs_of_nonneg hx]
      have he : 1 / 2 * (Real.log (next / prev) + Real.log (next / prev)) =
          Real.log (next / prev) := by ring
      rw [he, hratio]
      have hle : prev ≤ next := by
        have := Real.exp_le_exp.mpr hx
        rw [Real.exp_zero] at this
        calc prev = prev * 1 := (mul_one prev).symm
          _ ≤ prev * Real.exp (Real.log (next / prev)) :=
            mul_le_mul_of_nonneg_left this (le_of_lt hprev)
          _ = next := hratio
      exact (max_eq_right hle).symm
    · have hx1 : Real.log (next / prev) < 0 := not_le.mp hx
      rw [abs_of_neg hx1]
      have he : 1 / 2 * (Real.log (next / prev) + -Real.log (next / prev)) = 0 := by ring
      rw [he, Real.exp_zero, mul_one]
      have hle : next ≤ prev := by
        have := Real.exp_le_exp.mpr (le_of_lt hx1)
        rw [Real.exp_zero] at this
        calc next = prev * Real.exp (Real.log (next / prev)) := hratio.symm
          _ ≤ prev * 1 := mul_le_mul_of_nonneg_left this (le_of_lt hprev)
          _ = prev := mul_one prev
      exact (max_eq_left hle).symm
  · intro hki
    exact ⟨hge0.trans hki, hge1.trans hki⟩
  · intro s hs hmon hko
    have hy : prev * Real.exp (1 / 2 * (Real.log (next / prev) +
        Real.sqrt (Real.log (next / prev) * Real.log (next / prev) -
          2 * pricer.diffProcess_ t prev * pricer.diffProcess_ t prev * dt *
            Real.log (1 - ui)))) ≥ pricer.koBarrier_ := by
      rcases hko with h | h
      · exact h.trans hge0
      · exact h.trans hge1
    rw [← hs] at hb hy
    simp only [step, hb, hmon, bind, Except.bind, pure, Except.pure, ↓reduceIte]
    rw [if_pos hy]

theorem C32_bridge_price_bounds_witness :
    ∃ y, bridgePrice realOps
        (⟨1 / 10, 2 / 10, [0, 1], 80, 103, 100, 1, [1, 1], fun _ _ => 1 / 5⟩ :
          AutocallPathPricer ℝ)
        ⟨⟨[0, 1], [1]⟩, [100, 104]⟩ [1 / 2] 0 100 = .ok (104, y) ∧
      y ≥ max 100 104 :=
  have h := C32_bridge_price_bounds
    (⟨1 / 10, 2 / 10, [0, 1], 80, 103, 100, 1, [1, 1], fun _ _ => 1 / 5⟩ :
      AutocallPathPricer ℝ)
    ⟨⟨[0, 1], [1]⟩, [100, 104]⟩ [1 / 2] 0 100 104 0 1 (1 / 2) rfl rfl rfl rfl
    (by norm_num) (by norm_num) (by norm_num) (by norm_num) (by norm_num)
  ⟨h.choose, h.choose_spec.1, h.choose_spec.2.2.1⟩

end BridgeTheorems

/-! ## The knock-out tests of a walk -/

section TraceTheorems

open AutocallPathPricer Examples

theorem koTests_succ {R : Type} [LinearOrderedField R] (ops : MathOps R)
    (pricer : AutocallPathPricer R) (path : Path R) (u : List R) (k i : Nat)
    (s s1 : WalkState R) (m : Bool)
    (hstep : step ops pricer path u i s = .ok s1)
    (hm : monitored pricer path i s.knockNode = .ok m) :
    koTests ops pricer path u (k + 1) i s =
      (if m = true then [(i, s.knockNode)] else []) ++
        (if s1.isKnockOut = true then [] else koTests ops pricer path u k (i + 1) s1) := by
  simp only [koTests, hstep, hm]

/-- The knock-out tests along a walk that returns: the intervals tested are consecutive from
the entry value of `knockNode`, `knockNode` counts the tests (less the one that knocked out),
every test read `fixings_[knockNode + 1]`, and every test was made at a step whose time lies in
the interval tested. -/
theorem koTests_spec {R : Type} [LinearOrderedField R] (ops : MathOps R)
    (pricer : AutocallPathPricer R) (path : Path R) (u : List R) :
    ∀ (k i : Nat) (s s1 : WalkState R),
      walk ops pricer path u k i s = .ok s1 → s.isKnockOut = false →
      (koTests ops pricer path u k i s).map Prod.snd =
        List.range' s.knockNode (koTests ops pricer path u k i s).length ∧
      (s1.isKnockOut = false →
        s1.knockNode = s.knockNode + (koTests ops pricer path u k i s).length) ∧
      (s1.isKnockOut = true →
        s1.knockNode + 1 = s.knockNode + (koTests ops pricer path u k i s).length) ∧
      (koTests ops pricer path u k i s ≠ [] →
        s.knockNode + (koTests ops pricer path u k i s).length < pricer.fixings_.length) ∧
      (∀ j kn, (j, kn) ∈ koTests ops pricer path u k i s →
        i ≤ j ∧ j < i + k ∧ ∃ t lower upper, path.timeGrid.times[j]? = some t ∧
          pricer.fixings_[kn]? = some lower ∧ pricer.fixings_[kn + 1]? = some upper ∧
          lower < t ∧ t ≤ upper) := by
  intro k
  induction k with
  | zero =>
    intro i s s1 h hs
    simp only [walk, pure, Except.pure, Except.ok.injEq] at h
    subst h
    simp [koTests, hs]
  | succ k ih =>
    intro i s s2 h hs
    simp only [walk, bind, Except.bind] at h
    cases hstep : step ops pricer path u i s with
    | error e => simp [hstep] at h
    | ok s1 =>
      simp only [hstep] at h
      obtain ⟨q, y, m, hb, hm, hcase⟩ := step_ok ops pricer path u i s s1 hstep
      obtain ⟨t, lower, ht, hl, hiff⟩ := monitored_ok pricer path i s.knockNode m hm
      rw [koTests_succ ops pricer path u k i s s1 m hstep hm]
      rcases hcase with ⟨hmt, hy, hs1⟩ | ⟨hnot, hs1⟩
      · have hout : s1.isKnockOut = true := by rw [hs1]
        simp only [hout, if_true, pure, Except.pure, Except.ok.injEq] at h
        obtain ⟨hlt, upper, hu, hle⟩ := hiff.mp hmt
        have hlen : s.knockNode + 1 < pricer.fixings_.length :=
          (List.getElem?_eq_some.mp hu).1
        have htr : (if m = true then [(i, s.knockNode)] else []) ++
            (if s1.isKnockOut = true then []
              else koTests ops pricer path u k (i + 1) s1) = [(i, s.knockNode)] := by
          simp [hmt, hout]
        rw [htr]
        refine ⟨by simp, fun hc => ?_, fun _ => ?_, fun _ => by simpa using hlen, ?_⟩
        · rw [← h, hout] at hc
          simp at hc
        · rw [← h, hs1]
          simp
        · intro j kn hmem
          simp only [List.mem_singleton, Prod.mk.injEq] at hmem
          obtain ⟨rfl, rfl⟩ := hmem
          exact ⟨le_refl _, by omega, t, lower, upper, ht, hl, hu, hlt, hle⟩
      · obtain ⟨_, _, hkn, hko, _⟩ := finishStep_active pricer q y
          (if m = true then
            (if (!s.isKnockOut) = true then { s with knockNode := s.knockNode + 1 } else s)
           else s)
        rw [← hs1] at hkn hko
        have hout : s1.isKnockOut = false := by
          rw [hko]
          cases m <;> simp [hs]
        simp only [hout, Bool.false_eq_true, if_false] at h ⊢
        obtain ⟨i1, i2, i3, i4, i5⟩ := ih (i + 1) s1 s2 h hout
        cases m with
        | true =>
          have hkn1 : s1.knockNode = s.knockNode + 1 := by
            rw [hkn]
            simp [hs]
          obtain ⟨hlt, upper, hu, hle⟩ := hiff.mp rfl
          have hlen : s.knockNode + 1 < pricer.fixings_.length :=
            (List.getElem?_eq_some.mp hu).1
          rw [hkn1] at i1 i2 i3 i4
          simp only [if_true, List.singleton_append, List.map_cons, List.length_cons,
            List.mem_cons, Prod.mk.injEq]
          refine ⟨?_, fun hc => ?_, fun hc => ?_, fun _ => ?_, ?_⟩
          · rw [i1, List.range'_succ]
          · rw [i2 hc]
            omega
          · have := i3 hc
            omega
          · by_cases hnil : koTests ops pricer path u k (i + 1) s1 = []
            · rw [hnil]
              simpa using hlen
            · have := i4 hnil
              omega
          · rintro j kn (⟨rfl, rfl⟩ | hmem)
            · exact ⟨le_refl _, by omega, t, lower, upper, ht, hl, hu, hlt, hle⟩
            · obtain ⟨h1, h2, h3⟩ := i5 j kn hmem
              exact ⟨by omega, by omega, h3⟩
        | false =>
          have hkn1 : s1.knockNode = s.knockNode := by
            rw [hkn]
            simp
          rw [hkn1] at i1 i2 i3 i4
          simp only [Bool.false_eq_true, if_false, List.nil_append]
          refine ⟨i1, i2, i3, i4, ?_⟩
          intro j kn hmem
          obtain ⟨h1, h2, h3⟩ := i5 j kn hmem
          exact ⟨by omega, by omega, h3⟩

/-- With non-decreasing path times and fixings, a knock-out test on an interval is made at
the first step of the walk whose time lies in that interval. -/
theorem koTests_first_node {R : Type} [LinearOrderedField R] (ops : MathOps R)
    (pricer : AutocallPathPricer R) (path : Path R) (u : List R)
    (hT : ∀ (a b : Nat) (ta tb : R), a ≤ b → path.timeGrid.times[a]? = some ta →
      path.timeGrid.times[b]? = some tb → ta ≤ tb)
    (hF : ∀ (a b : Nat) (fa fb : R), a ≤ b → pricer.fixings_[a]? = some fa →
      pricer.fixings_[b]? = some fb → fa ≤ fb) :
    ∀ (k i : Nat) (s s1 : WalkState R),
      walk ops pricer path u k i s = .ok s1 → s.isKnockOut = false →
      ∀ j kn, (j, kn) ∈ koTests ops pricer path u k i s →
        ∀ j2 t2 lower upper, i ≤ j2 → j2 < j → path.timeGrid.times[j2]? = some t2 →
          pricer.fixings_[kn]? = some lower → pricer.fixings_[kn + 1]? = some upper →
          ¬ (lower < t2 ∧ t2 ≤ upper) := by
  intro k
  induction k with
  | zero =>
    intro i s s1 _ _ j kn hmem
    simp [koTests] at hmem
  | succ k ih =>
    intro i s s2 h hs j kn hmem j2 t2 lower2 upper2 hij hjj ht2 hl2 hu2
    simp only [walk, bind, Except.bind] at h
    cases hstep : step ops pricer path u i s with
    | error e => simp [hstep] at h
    | ok s1 =>
      simp only [hstep] at h
      obtain ⟨q, y, m, hb, hm, hcase⟩ := step_ok ops pricer path u i s s1 hstep
      obtain ⟨t, lower, ht, hl, hiff⟩ := monitored_ok pricer path i s.knockNode m hm
      rw [koTests_succ ops pricer path u k i s s1 m hstep hm] at hmem
      rcases hcase with ⟨hmt, hy, hs1⟩ | ⟨hnot, hs1⟩
      · have hout : s1.isKnockOut = true := by rw [hs1]
        simp only [hmt, hout, if_true, List.append_nil, List.mem_singleton,
          Prod.mk.injEq] at hmem
        omega
      · obtain ⟨_, _, hkn, hko, _⟩ := finishStep_active pricer q y
          (if m = true then
            (if (!s.isKnockOut) = true then { s with knockNode := s.knockNode + 1 } else s)
           else s)
        rw [← hs1] at hkn hko
        have hout : s1.isKnockOut = false := by
          rw [hko]
          cases m <;> simp [hs]
        simp only [hout, Bool.false_eq_true, if_false] at h hmem
        obtain ⟨i1, _, _, _, i5⟩ := koTests_spec ops pricer path u k (i + 1) s1 s2 h hout
        have htail : (j, kn) ∈ koTests ops pricer path u k (i + 1) s1 := by
          rcases List.mem_append.mp hmem with hm1 | hm1
          · cases m with
            | true =>
              simp only [if_true, List.mem_singleton, Prod.mk.injEq] at hm1
              omega
            | false => simp at hm1
          · exact hm1
        by_cases hj2 : i + 1 ≤ j2
        · exact ih (i + 1) s1 s2 h hout j kn htail j2 t2 lower2 upper2 hj2 hjj ht2 hl2 hu2
        · have hji : j2 = i := by omega
          rw [hji, ht] at ht2
          have htt : t = t2 := Option.some.inj ht2
          rw [← htt]
          have hknmem : kn ∈ (koTests ops pricer path u k (i + 1) s1).map Prod.snd :=
            List.mem_map.mpr ⟨(j, kn), htail, rfl⟩
          rw [i1] at hknmem
          have hknge : s1.knockNode ≤ kn := (List.mem_range'_1.mp hknmem).1
          rintro ⟨hlt2, hle2⟩
          cases m with
          | true =>
            have hkn1 : s1.knockNode = s.knockNode + 1 := by
              rw [hkn]
              simp [hs]
            obtain ⟨_, upper, hu, hle⟩ := hiff.mp rfl
            have := hF (s.knockNode + 1) kn upper lower2 (by omega) hu hl2
            exact absurd (lt_of_lt_of_le hlt2 (hle.trans this)) (lt_irrefl _)
          | false =>
            have hkn1 : s1.knockNode = s.knockNode := by
              rw [hkn]
              simp
            by_cases hsame : kn = s.knockNode
            · subst hsame
              rw [hl] at hl2
              cases hl2
              have := hiff.mpr ⟨hlt2, upper2, hu2, hle2⟩
              simp at this
            · cases htr : koTests ops pricer path u k (i + 1) s1 with
              | nil =>
                rw [htr] at htail
                simp at htail
              | cons hd tl =>
                rw [htr] at i1
                simp only [List.map_cons, List.length_cons, List.range'_succ,
                  List.cons.injEq] at i1
                have hhd : (hd.1, s1.knockNode) ∈ koTests ops pricer path u k (i + 1) s1 := by
                  rw [htr, ← i1.1]
                  exact List.mem_cons_self _ _
                obtain ⟨hj0, _, t0, lo0, up0, ht0, _, hu0, _, hle0⟩ := i5 _ _ hhd
                rw [hkn1] at hu0
                have h1 := hT i hd.1 t t0 (by omega) ht ht0
                have h2 := hF (s.knockNode + 1) kn up0 lower2 (by omega) hu0 hl2
                exact absurd (lt_of_lt_of_le hlt2 (h1.trans (hle0.trans h2))) (lt_irrefl _)

/-- Claim C35 (knockNode counts the knock-out tests).  Along a walk from the entry of the
loop that returns: the tests are made on the intervals `0, 1, 2, ...` in order, so no interval
is tested twice; `knockNode` is the number of tests made when the walk did not knock out (one
less when the last test knocked out); the number of tests is at most `fixings.size() - 1`; each
test is made at a step whose time lies in the interval tested; and with non-decreasing path
times and fixings that step is the first one whose time lies in it. -/
theorem C35_knock_node_counts_tests {R : Type} [LinearOrderedField R] (ops : MathOps R)
    (pricer : AutocallPathPricer R) (path : Path R) (u : List R) (k : Nat) (front : R)
    (s1 : WalkState R)
    (hwalk : walk ops pricer path u k 0 (initial front) = .ok s1) :
    (koTests ops pricer path u k 0 (initial front)).map Prod.snd =
      List.range' 0 (koTests ops pricer path u k 0 (initial front)).length ∧
    (s1.isKnockOut = false →
      s1.knockNode = (koTests ops pricer path u k 0 (initial front)).length) ∧
    (s1.isKnockOut = true →
      s1.knockNode + 1 = (koTests ops pricer path u k 0 (initial front)).length) ∧
    (koTests ops pricer path u k 0 (initial front)).length ≤ pricer.fixings_.length - 1 ∧
    (∀ j kn, (j, kn) ∈ koTests ops pricer path u k 0 (initial front) →
      j < k ∧ ∃ t lower upper, path.timeGrid.times[j]? = some t ∧
        pricer.fixings_[kn]? = some lower ∧ pricer.fixings_[kn + 1]? = some upper ∧
        lower < t ∧ t ≤ upper) ∧
    ((∀ (a b : Nat) (ta tb : R), a ≤ b → path.timeGrid.times[a]? = some ta →
        path.timeGrid.times[b]? = some tb → ta ≤ tb) →
      (∀ (a b : Nat) (fa fb : R), a ≤ b → pricer.fixings_[a]? = some fa →
        pricer.fixings_[b]? = some fb → fa ≤ fb) →
      ∀ j kn, (j, kn) ∈ koTests ops pricer path u k 0 (initial front) →
        ∀ j2 t2 lower upper, j2 < j → path.timeGrid.times[j2]? = some t2 →
          pricer.fixings_[kn]? = some lower → pricer.fixings_[kn + 1]? = some upper →
          ¬ (lower < t2 ∧ t2 ≤ upper)) := by
  obtain ⟨h1, h2, h3, h4, h5⟩ := koTests_spec ops pricer path u k 0 (initial front) s1 hwalk rfl
  have hz : (initial front).knockNode = 0 := rfl
  rw [hz] at h1 h2 h3 h4
  refine ⟨h1, fun hc => ?_, fun hc => ?_, ?_, ?_, ?_⟩
  · have := h2 hc
    omega
  · have := h3 hc
    omega
  · by_cases hnil : koTests ops pricer path u k 0 (initial front) = []
    · rw [hnil]
      simp
    · have := h4 hnil
      omega
  · intro j kn hmem
    obtain ⟨_, hj, hrest⟩ := h5 j kn hmem
    exact ⟨by omega, hrest⟩
  · intro hT hF j kn hmem j2 t2 lower upper hjj
    exact koTests_first_node ops pricer path u hT hF k 0 (initial front) s1 hwalk rfl j kn hmem
      j2 t2 lower upper (Nat.zero_le j2) hjj

theorem koTests_pricerOnce :
    koTests ratOps pricerOnce pathJump (gen1.sequences gen1.drawn) (pathJump.length - 1) 0
      (initial 100) = [(1, 0)] := by
  simp only [Path.length, pathJump, path1, List.length_cons, List.length_nil, koTests, step,
    bridgePrice, monitored, readAt, gen1, initial, List.getElem?_cons_succ,
    List.getElem?_cons_zero, bind]
  simp only [Except.bind, pure, Except.pure]
  norm_num [ratOps, pricerOnce, finishStep]

/-- Witness for C35: on the example with the single interval `(0, 1]` and a quarterly grid
there is one test, at step 1 on interval 0, and `knockNode` ends at 1. -/
theorem C35_knock_node_counts_tests_witness :
    koTests ratOps pricerOnce pathJump (gen1.sequences gen1.drawn) (pathJump.length - 1) 0
      (initial 100) = [(1, 0)] ∧
    ((⟨false, false, 0, 1, 200⟩ : WalkState ℚ).isKnockOut = false →
      (⟨false, false, 0, 1, 200⟩ : WalkState ℚ).knockNode =
        (koTests ratOps pricerOnce pathJump (gen1.sequences gen1.drawn) (pathJump.length - 1)
          0 (initial 100)).length) ∧
    (koTests ratOps pricerOnce pathJump (gen1.sequences gen1.drawn) (pathJump.length - 1) 0
      (initial 100)).length ≤ pricerOnce.fixings_.length - 1 :=
  ⟨koTests_pricerOnce,
    (C35_knock_node_counts_tests ratOps pricerOnce pathJump (gen1.sequences gen1.drawn)
      (pathJump.length - 1) 100 ⟨false, false, 0, 1, 200⟩ walk_pricerOnce).2.1,
    (C35_knock_node_counts_tests ratOps pricerOnce pathJump (gen1.sequences gen1.drawn)
      (pathJump.length - 1) 100 ⟨false, false, 0, 1, 200⟩ walk_pricerOnce).2.2.2.1⟩

end TraceTheorems

end QuantLib
